import Mathlib

/-!
# Multi-tenant admin portal backend: authorization core

A shallow embedding of the request middleware (`internal/middleware/auth.go`) and of the
user, invitation and shortcut handlers (`internal/handlers/*.go`) of
`mohilkhare21/pab-smb-poc-golang`, together with the properties of the specification that
concern them.

Modelling conventions

* Go strings are `String`; `time.Time` is a `Nat` instant, `0` being the zero time.
* A handler is a function `Env → World → Context → World × Context`: `World` is the content
  of the document store plus the log of capability calls made so far, `Context` is the
  `gin.Context` of the request, `Env` holds what the outside decides (the verdict of the
  identity provider on a token, and which capability calls return an error).
* The store follows `internal/database/firestore.go`: one list of documents per collection,
  `Doc(id).Set` is an upsert on the id, `Doc(id).Get` finds the document with that id,
  `Doc(id).Delete` removes it.
* `time.Now()` is read once per request: it is the field `now` of `Env`.
* A capability call that returns an error has no effect on the store.
* The properties come after all definitions; each one that settles a claim of the
  specification names the claim in its doc comment.
-/

set_option autoImplicit false

namespace PabSmb

/-! ## Data model (`internal/database/interfaces.go`, `internal/models/models.go`) -/

/-- User record of the persistence capability (`database.User`). -/
structure User where
  ID : String := ""
  Email : String := ""
  Name : String := ""
  Picture : String := ""
  CompanyID : String := ""
  Role : String := ""
  IsActive : Bool := false
  CreatedAt : Nat := 0
  UpdatedAt : Nat := 0
  LastLoginAt : Nat := 0
  OnboardedAt : Nat := 0
  Onboarded : Bool := false
  InvitationStatus : String := ""
  InvitedAt : Nat := 0
  ActivatedAt : Nat := 0
  deriving DecidableEq, Repr

/-- Invitation record (`database.Invitation`). -/
structure Invitation where
  ID : String := ""
  Email : String := ""
  CompanyID : String := ""
  InvitedBy : String := ""
  Token : String := ""
  Status : String := ""
  ExpiresAt : Nat := 0
  CreatedAt : Nat := 0
  AcceptedAt : Nat := 0
  SentAt : Nat := 0
  SentCount : Int := 0
  LastSentAt : Nat := 0
  deriving DecidableEq, Repr

/-- Browser shortcut record (`database.BrowserShortcut`). -/
structure BrowserShortcut where
  ID : String := ""
  CompanyID : String := ""
  Name : String := ""
  URL : String := ""
  Icon : String := ""
  Description : String := ""
  Order : Int := 0
  IsActive : Bool := false
  IsSuggested : Bool := false
  Category : String := ""
  Source : String := ""
  deriving DecidableEq, Repr

/-- Tenant record (`database.Company`). -/
structure Company where
  ID : String := ""
  Name : String := ""
  Domain : String := ""
  ColorTheme : String := ""
  LogoURL : String := ""
  AdminUserID : String := ""
  SubscriptionID : String := ""
  Status : String := ""
  TrialEndsAt : Nat := 0
  CreatedAt : Nat := 0
  UpdatedAt : Nat := 0
  OnboardedAt : Nat := 0
  Onboarded : Bool := false
  SetupCompleted : Bool := false
  SetupCompletedAt : Nat := 0
  WebsiteSecurityConfigured : Bool := false
  MalwareSecurityConfigured : Bool := false
  DataControlsConfigured : Bool := false
  ReportingConfigured : Bool := false
  BrowserCustomized : Bool := false
  SubscriptionActive : Bool := false
  UsersInvited : Bool := false
  DownloadReady : Bool := false
  deriving DecidableEq, Repr

/-- Subscription record (`database.Subscription`). -/
structure Subscription where
  ID : String := ""
  CompanyID : String := ""
  StripeID : String := ""
  Plan : String := ""
  Status : String := ""
  CurrentPeriodStart : Nat := 0
  CurrentPeriodEnd : Nat := 0
  TrialStart : Nat := 0
  TrialEnd : Nat := 0
  CreatedAt : Nat := 0
  UpdatedAt : Nat := 0
  MaxUsers : Int := 0
  ActiveUsers : Int := 0
  InvitedUsers : Int := 0
  IsTrialActive : Bool := false
  TrialDaysRemaining : Int := 0
  deriving DecidableEq, Repr

/-- Explicit step progress of a tenant (`database.CompanySetupProgress`). -/
structure CompanySetupProgress where
  CompanyID : String := ""
  Step : String := ""
  Progress : Int := 0
  DomainProvided : Bool := false
  CustomizationCompleted : Bool := false
  InvitationsSent : Bool := false
  SubscriptionStarted : Bool := false
  SetupCompleted : Bool := false
  LastUpdated : Nat := 0
  deriving DecidableEq, Repr

/-- Identity returned by the identity capability (`auth.User`). -/
structure AuthUser where
  ID : String := ""
  Email : String := ""
  Name : String := ""
  Picture : String := ""
  CompanyID : String := ""
  Role : String := ""
  IsActive : Bool := false
  CreatedAt : Nat := 0
  UpdatedAt : Nat := 0
  LastLoginAt : Nat := 0
  OnboardedAt : Nat := 0
  Onboarded : Bool := false
  deriving DecidableEq, Repr

/-- Request-scoped principal (`models.UserContext`). -/
structure UserContext where
  UserID : String := ""
  Email : String := ""
  CompanyID : String := ""
  Role : String := ""
  deriving DecidableEq, Repr

/-- Body of `PUT /users/:id` (`models.UpdateUserRequest`); `IsActive` is a `*bool`. -/
structure UpdateUserRequest where
  Name : String := ""
  Role : String := ""
  IsActive : Option Bool := none
  deriving DecidableEq, Repr

/-- Body of the shortcut routes (`models.BrowserShortcutRequest`). -/
structure BrowserShortcutRequest where
  Name : String := ""
  URL : String := ""
  Icon : String := ""
  Description : String := ""
  Order : Int := 0
  Category : String := ""
  deriving DecidableEq, Repr

/-- Body of `POST /companies` (`models.CompanyCreateRequest`). -/
structure CompanyCreateRequest where
  Name : String := ""
  Domain : String := ""
  ColorTheme : String := ""
  deriving DecidableEq, Repr

/-- Body of `PUT /companies/me` (`models.UpdateCompanyRequest`). -/
structure UpdateCompanyRequest where
  Name : String := ""
  Domain : String := ""
  ColorTheme : String := ""
  LogoURL : String := ""
  deriving DecidableEq, Repr

/-- Body of `POST /auth/register` (`models.RegisterRequest`). -/
structure RegisterRequest where
  Email : String := ""
  Password : String := ""
  Name : String := ""
  deriving DecidableEq, Repr

/-- Body of `PUT /setup/step`: the anonymous struct of `UpdateSetupStep`. -/
structure SetupStepRequest where
  Step : String := ""
  Progress : Int := 0
  deriving DecidableEq, Repr

/-- Body of `PUT /setup/config` (`models.ConfigurationStatusRequest`). -/
structure ConfigurationStatusRequest where
  Feature : String := ""
  Status : Bool := false
  deriving DecidableEq, Repr

/-- Body of `POST /setup/generate-shortcuts` (`models.GenerateShortcutsRequest`). -/
structure GenerateShortcutsRequest where
  Domain : String := ""
  deriving DecidableEq, Repr

/-- Body of `POST /setup/nudge-users` (`models.NudgeUsersRequest`). -/
structure NudgeUsersRequest where
  UserIDs : List String := []
  Message : String := ""
  deriving DecidableEq, Repr

/-! ## Responses -/

/-- A scalar of a JSON payload. -/
inductive JVal where
  | str (s : String)
  | bool (b : Bool)
  | int (i : Int)
  | time (t : Nat)
  deriving DecidableEq, Repr

/-- An entry of a `gin.H` payload: a scalar or a one-level object. -/
inductive JField where
  | val (v : JVal)
  | obj (fields : List (String × JVal))
  deriving DecidableEq, Repr

/-- The uniform envelope `models.APIResponse`. -/
structure APIResponse where
  Success : Bool := false
  Message : String := ""
  Data : List (String × JField) := []
  Error : String := ""
  deriving DecidableEq, Repr

/-- What `c.JSON(code, body)` writes. -/
structure Response where
  code : Nat
  body : APIResponse
  deriving DecidableEq, Repr

abbrev StatusOK : Nat := 200
abbrev StatusCreated : Nat := 201
abbrev StatusBadRequest : Nat := 400
abbrev StatusUnauthorized : Nat := 401
abbrev StatusForbidden : Nat := 403
abbrev StatusNotFound : Nat := 404
abbrev StatusConflict : Nat := 409
abbrev StatusInternalServerError : Nat := 500

/-! ## The request context (`gin.Context`) -/

/-- The part of `gin.Context` the middleware and the handlers use. -/
structure Context where
  /-- Value of `c.GetHeader("Authorization")`. -/
  Authorization : String := ""
  /-- Path parameters read by `c.Param`. -/
  Params : List (String × String) := []
  /-- Request-scoped values written by `c.Set` and read by `c.Get`. -/
  Keys : List (String × UserContext) := []
  /-- Set by `c.Abort()`: the rest of the handler chain is skipped. -/
  aborted : Bool := false
  /-- Response written by `c.JSON`. -/
  written : Option Response := none
  deriving DecidableEq, Repr

namespace Context

/-- Model of `c.Param(name)`: the empty string when the route has no such parameter. -/
def Param (c : Context) (name : String) : String :=
  match c.Params.find? (fun kv => kv.1 == name) with
  | some kv => kv.2
  | none => ""

/-- Model of `c.Get(key)`. -/
def Get (c : Context) (key : String) : Option UserContext :=
  match c.Keys.find? (fun kv => kv.1 == key) with
  | some kv => some kv.2
  | none => none

/-- Model of `c.Set(key, value)`. -/
def Set (c : Context) (key : String) (value : UserContext) : Context :=
  { c with Keys := (key, value) :: c.Keys.filter (fun kv => kv.1 != key) }

/-- Model of `c.JSON(code, body)`. -/
def JSON (c : Context) (code : Nat) (body : APIResponse) : Context :=
  { c with written := some { code := code, body := body } }

/-- Model of `c.Abort()`. -/
def Abort (c : Context) : Context :=
  { c with aborted := true }

/-- Status code of the response written so far (`0` when none was written). -/
def status (c : Context) : Nat :=
  match c.written with
  | some r => r.code
  | none => 0

end Context

/-! ## Capabilities -/

/-- A call made on the identity capability (`auth.AuthProvider`) or on the persistence
capability (`database.DatabaseProvider`). -/
inductive Call where
  | authValidateToken (token : String)
  | authDeleteUser (userID : String)
  | dbGetUser (userID : String)
  | dbGetUsersByCompany (companyID : String)
  | dbUpdateUser (user : User)
  | dbDeleteUser (userID : String)
  | dbGetInvitation (invitationID : String)
  | dbGetInvitationByToken (token : String)
  | dbUpdateInvitation (invitation : Invitation)
  | dbDeleteInvitation (invitationID : String)
  | dbGetBrowserShortcut (shortcutID : String)
  | dbUpdateBrowserShortcut (shortcut : BrowserShortcut)
  | dbDeleteBrowserShortcut (shortcutID : String)
  | authRegister (email password name : String)
  | authGenerateToken (user : AuthUser)
  | dbGetUserByEmail (email : String)
  | dbCreateUser (user : User)
  | dbCountUsersByCompany (companyID : String)
  | dbCountActiveUsersByCompany (companyID : String)
  | dbCountInvitedUsersByCompany (companyID : String)
  | dbCountPendingInvitationsByCompany (companyID : String)
  | dbGetCompany (companyID : String)
  | dbGetCompanyByDomain (domain : String)
  | dbCreateCompany (company : Company)
  | dbUpdateCompany (company : Company)
  | dbGetSubscriptionByCompany (companyID : String)
  | dbCommitShortcuts (shortcuts : List BrowserShortcut)
  | dbGetSetupProgress (companyID : String)
  | dbUpdateSetupProgress (progress : CompanySetupProgress)
  | dbGetPendingInvitationsByCompany (companyID : String)
  | dbQueryExpiredInvitations (now : Nat)
  | dbCommitDeletes (invitationIDs : List String)
  deriving DecidableEq, Repr

/-- The calls that write to or delete from the persistence capability. -/
def Call.isDbWrite : Call → Bool
  | .dbUpdateUser _ => true
  | .dbDeleteUser _ => true
  | .dbUpdateInvitation _ => true
  | .dbDeleteInvitation _ => true
  | .dbUpdateBrowserShortcut _ => true
  | .dbDeleteBrowserShortcut _ => true
  | .dbCreateUser _ => true
  | .dbCreateCompany _ => true
  | .dbUpdateCompany _ => true
  | .dbCommitShortcuts _ => true
  | .dbUpdateSetupProgress _ => true
  | .dbCommitDeletes _ => true
  | _ => false

/-- Document store and call log. -/
structure World where
  users : List User := []
  invitations : List Invitation := []
  shortcuts : List BrowserShortcut := []
  log : List Call := []
  companies : List Company := []
  subscriptions : List Subscription := []
  setupProgress : List CompanySetupProgress := []
  deriving DecidableEq, Repr

/-- What the outside decides during a request. -/
structure Env where
  /-- Verdict of `AuthProvider.ValidateToken` on a token. -/
  ValidateToken : String → Except String AuthUser
  /-- Capability calls that return an error, with the error text. -/
  fails : Call → Option String := fun _ => none
  /-- Reading of `time.Now()` during the request. -/
  now : Nat := 0
  /-- Outcome of `AuthProvider.Register(ctx, email, password, name)`. -/
  Register : String → String → String → Except String AuthUser :=
    fun _ _ _ => .error "registration not supported"
  /-- Outcome of `AuthProvider.GenerateToken(user)`. -/
  GenerateToken : AuthUser → Except String String := fun _ => .ok "token"
  /-- The values of `uuid.New().String()`, in the order of the calls of the request. -/
  uuid : Nat → String := fun n => "uuid-" ++ toString n
  /-- Calendar arithmetic of `t.AddDate(years, months, days)`. -/
  addDate : Nat → Nat → Nat → Nat → Nat := fun y m d t => t + ((y * 12 + m) * 30 + d) * 86400

/-- Append a call to the log. -/
def World.record (w : World) (call : Call) : World :=
  { w with log := w.log ++ [call] }

/-- Model of `strings.Split(s, sep)` for a one-character separator, on the characters. -/
def splitChars (sep : Char) : List Char → List (List Char)
  | [] => [[]]
  | c :: cs =>
    if c = sep then [] :: splitChars sep cs
    else
      match splitChars sep cs with
      | [] => [[c]]
      | p :: ps => (c :: p) :: ps

/-- Model of `strings.Split(s, " ")` and its like: the pieces of `s` between separators. -/
def stringsSplit (s : String) (sep : Char) : List String :=
  (splitChars sep s.data).map String.mk

/-- Model of `Doc(id).Set(doc)`: replace the document carrying the id, or add it. -/
def setDoc {α : Type} (key : α → String) (d : α) (docs : List α) : List α :=
  if docs.any (fun x => key x == key d) then
    docs.map (fun x => if key x == key d then d else x)
  else docs ++ [d]

/-- Model of `Doc(id).Get()`. -/
def getDoc {α : Type} (key : α → String) (id : String) (docs : List α) : Option α :=
  docs.find? (fun x => key x == id)

/-- Model of `Doc(id).Delete()`. -/
def deleteDoc {α : Type} (key : α → String) (id : String) (docs : List α) : List α :=
  docs.filter (fun x => key x != id)

/-! ### Documents and field queries -/

/-- A value held by a field of a stored document. -/
inductive FieldValue where
  | str (s : String)
  | bool (b : Bool)
  | int (i : Int)
  | time (t : Nat)
  deriving DecidableEq, Repr

/-- The document that `Set` stores for a `database.User`: the struct carries `json` tags
only, so every field is stored under its Go name. -/
def User.document (u : User) : List (String × FieldValue) :=
  [("ID", .str u.ID), ("Email", .str u.Email), ("Name", .str u.Name),
   ("Picture", .str u.Picture), ("CompanyID", .str u.CompanyID), ("Role", .str u.Role),
   ("IsActive", .bool u.IsActive), ("CreatedAt", .time u.CreatedAt),
   ("UpdatedAt", .time u.UpdatedAt), ("LastLoginAt", .time u.LastLoginAt),
   ("OnboardedAt", .time u.OnboardedAt), ("Onboarded", .bool u.Onboarded),
   ("InvitationStatus", .str u.InvitationStatus), ("InvitedAt", .time u.InvitedAt),
   ("ActivatedAt", .time u.ActivatedAt)]

/-- The document stored for a `database.Invitation`, keyed by the Go field names. -/
def Invitation.document (i : Invitation) : List (String × FieldValue) :=
  [("ID", .str i.ID), ("Email", .str i.Email), ("CompanyID", .str i.CompanyID),
   ("InvitedBy", .str i.InvitedBy), ("Token", .str i.Token), ("Status", .str i.Status),
   ("ExpiresAt", .time i.ExpiresAt), ("CreatedAt", .time i.CreatedAt),
   ("AcceptedAt", .time i.AcceptedAt), ("SentAt", .time i.SentAt),
   ("SentCount", .int i.SentCount), ("LastSentAt", .time i.LastSentAt)]

/-- The document stored for a `database.Company`, keyed by the Go field names. -/
def Company.document (x : Company) : List (String × FieldValue) :=
  [("ID", .str x.ID), ("Name", .str x.Name), ("Domain", .str x.Domain),
   ("ColorTheme", .str x.ColorTheme), ("LogoURL", .str x.LogoURL),
   ("AdminUserID", .str x.AdminUserID), ("SubscriptionID", .str x.SubscriptionID),
   ("Status", .str x.Status), ("TrialEndsAt", .time x.TrialEndsAt),
   ("CreatedAt", .time x.CreatedAt), ("UpdatedAt", .time x.UpdatedAt),
   ("OnboardedAt", .time x.OnboardedAt), ("Onboarded", .bool x.Onboarded),
   ("SetupCompleted", .bool x.SetupCompleted), ("SetupCompletedAt", .time x.SetupCompletedAt),
   ("WebsiteSecurityConfigured", .bool x.WebsiteSecurityConfigured),
   ("MalwareSecurityConfigured", .bool x.MalwareSecurityConfigured),
   ("DataControlsConfigured", .bool x.DataControlsConfigured),
   ("ReportingConfigured", .bool x.ReportingConfigured),
   ("BrowserCustomized", .bool x.BrowserCustomized),
   ("SubscriptionActive", .bool x.SubscriptionActive), ("UsersInvited", .bool x.UsersInvited),
   ("DownloadReady", .bool x.DownloadReady)]

/-- The document stored for a `database.Subscription`, keyed by the Go field names. -/
def Subscription.document (x : Subscription) : List (String × FieldValue) :=
  [("ID", .str x.ID), ("CompanyID", .str x.CompanyID), ("StripeID", .str x.StripeID),
   ("Plan", .str x.Plan), ("Status", .str x.Status),
   ("CurrentPeriodStart", .time x.CurrentPeriodStart),
   ("CurrentPeriodEnd", .time x.CurrentPeriodEnd), ("TrialStart", .time x.TrialStart),
   ("TrialEnd", .time x.TrialEnd), ("CreatedAt", .time x.CreatedAt),
   ("UpdatedAt", .time x.UpdatedAt), ("MaxUsers", .int x.MaxUsers),
   ("ActiveUsers", .int x.ActiveUsers), ("InvitedUsers", .int x.InvitedUsers),
   ("IsTrialActive", .bool x.IsTrialActive),
   ("TrialDaysRemaining", .int x.TrialDaysRemaining)]

/-- Model of the query `Where(path, "==", value)`: the documents whose field `path` holds
`value`. A document that has no field of that name does not match. -/
def whereEq {α : Type} (document : α → List (String × FieldValue)) (path : String)
    (value : FieldValue) (docs : List α) : List α :=
  docs.filter (fun d => (document d).lookup path == some value)

/-- Model of the query `Where(path, "<", t)` for a timestamp `t`: the documents whose field
`path` holds a timestamp before `t`. A document without the field does not match. -/
def whereBefore {α : Type} (document : α → List (String × FieldValue)) (path : String)
    (t : Nat) (docs : List α) : List α :=
  docs.filter (fun d =>
    match (document d).lookup path with
    | some (.time stored) => decide (stored < t)
    | _ => false)

/-! ### Identity capability (`auth.AuthProvider`) -/

namespace AuthProvider

/-- Call of `ValidateToken(token)`. -/
def ValidateToken (env : Env) (w : World) (token : String) : Except String AuthUser × World :=
  (env.ValidateToken token, w.record (.authValidateToken token))

/-- Call of `DeleteUser(ctx, userID)`: `none` is a nil error. -/
def DeleteUser (env : Env) (w : World) (userID : String) : Option String × World :=
  (env.fails (.authDeleteUser userID), w.record (.authDeleteUser userID))

end AuthProvider

/-! ### Persistence capability (`database.DatabaseProvider`, after `firestore.go`) -/

namespace DatabaseProvider

/-- Model of `GetUser(ctx, userID)`. -/
def GetUser (env : Env) (w : World) (userID : String) : Except String User × World :=
  match env.fails (.dbGetUser userID) with
  | some e => (.error e, w.record (.dbGetUser userID))
  | none =>
    match getDoc User.ID userID w.users with
    | some u => (.ok u, w.record (.dbGetUser userID))
    | none => (.error "user not found", w.record (.dbGetUser userID))

/-- Model of `GetUsersByCompany(ctx, companyID)`: the query `company_id == companyID`. The
loop leaves at the first iterator error and the function returns what it has, with a nil
error. -/
def GetUsersByCompany (env : Env) (w : World) (companyID : String) :
    Except String (List User) × World :=
  match env.fails (.dbGetUsersByCompany companyID) with
  | some _ => (.ok [], w.record (.dbGetUsersByCompany companyID))
  | none =>
    (.ok (whereEq User.document "company_id" (.str companyID) w.users),
      w.record (.dbGetUsersByCompany companyID))

/-- Model of `UpdateUser(ctx, user)`: stamps `UpdatedAt` on the caller's record, then sets the
document. Returns the error (if any), the caller's record after the call, and the world. -/
def UpdateUser (env : Env) (w : World) (user : User) : Option String × User × World :=
  let user1 := { user with UpdatedAt := env.now }
  match env.fails (.dbUpdateUser user1) with
  | some e => (some e, user1, w.record (.dbUpdateUser user1))
  | none =>
    (none, user1,
      { w with users := setDoc User.ID user1 w.users, log := w.log ++ [.dbUpdateUser user1] })

/-- Model of `DeleteUser(ctx, userID)`. -/
def DeleteUser (env : Env) (w : World) (userID : String) : Option String × World :=
  match env.fails (.dbDeleteUser userID) with
  | some e => (some e, w.record (.dbDeleteUser userID))
  | none =>
    (none, { w with users := deleteDoc User.ID userID w.users,
                    log := w.log ++ [.dbDeleteUser userID] })

/-- Model of `GetInvitation(ctx, invitationID)`. -/
def GetInvitation (env : Env) (w : World) (invitationID : String) :
    Except String Invitation × World :=
  match env.fails (.dbGetInvitation invitationID) with
  | some e => (.error e, w.record (.dbGetInvitation invitationID))
  | none =>
    match getDoc Invitation.ID invitationID w.invitations with
    | some i => (.ok i, w.record (.dbGetInvitation invitationID))
    | none => (.error "invitation not found", w.record (.dbGetInvitation invitationID))

/-- Model of `GetInvitationByToken(ctx, token)`: the first document of the query
`token == token`, limit 1; any iterator error is answered `invitation not found`. -/
def GetInvitationByToken (env : Env) (w : World) (token : String) :
    Except String Invitation × World :=
  match env.fails (.dbGetInvitationByToken token) with
  | some _ => (.error "invitation not found", w.record (.dbGetInvitationByToken token))
  | none =>
    match (whereEq Invitation.document "token" (.str token) w.invitations).head? with
    | some i => (.ok i, w.record (.dbGetInvitationByToken token))
    | none => (.error "invitation not found", w.record (.dbGetInvitationByToken token))

/-- Model of `UpdateInvitation(ctx, invitation)`. -/
def UpdateInvitation (env : Env) (w : World) (invitation : Invitation) : Option String × World :=
  match env.fails (.dbUpdateInvitation invitation) with
  | some e => (some e, w.record (.dbUpdateInvitation invitation))
  | none =>
    (none, { w with invitations := setDoc Invitation.ID invitation w.invitations,
                    log := w.log ++ [.dbUpdateInvitation invitation] })

/-- Model of `DeleteInvitation(ctx, invitationID)`. -/
def DeleteInvitation (env : Env) (w : World) (invitationID : String) : Option String × World :=
  match env.fails (.dbDeleteInvitation invitationID) with
  | some e => (some e, w.record (.dbDeleteInvitation invitationID))
  | none =>
    (none, { w with invitations := deleteDoc Invitation.ID invitationID w.invitations,
                    log := w.log ++ [.dbDeleteInvitation invitationID] })

/-- Model of `GetBrowserShortcut(ctx, shortcutID)`. -/
def GetBrowserShortcut (env : Env) (w : World) (shortcutID : String) :
    Except String BrowserShortcut × World :=
  match env.fails (.dbGetBrowserShortcut shortcutID) with
  | some e => (.error e, w.record (.dbGetBrowserShortcut shortcutID))
  | none =>
    match getDoc BrowserShortcut.ID shortcutID w.shortcuts with
    | some s => (.ok s, w.record (.dbGetBrowserShortcut shortcutID))
    | none => (.error "browser shortcut not found", w.record (.dbGetBrowserShortcut shortcutID))

/-- Model of `UpdateBrowserShortcut(ctx, shortcut)`. -/
def UpdateBrowserShortcut (env : Env) (w : World) (shortcut : BrowserShortcut) :
    Option String × World :=
  match env.fails (.dbUpdateBrowserShortcut shortcut) with
  | some e => (some e, w.record (.dbUpdateBrowserShortcut shortcut))
  | none =>
    (none, { w with shortcuts := setDoc BrowserShortcut.ID shortcut w.shortcuts,
                    log := w.log ++ [.dbUpdateBrowserShortcut shortcut] })

/-- Model of `DeleteBrowserShortcut(ctx, shortcutID)`. -/
def DeleteBrowserShortcut (env : Env) (w : World) (shortcutID : String) : Option String × World :=
  match env.fails (.dbDeleteBrowserShortcut shortcutID) with
  | some e => (some e, w.record (.dbDeleteBrowserShortcut shortcutID))
  | none =>
    (none, { w with shortcuts := deleteDoc BrowserShortcut.ID shortcutID w.shortcuts,
                    log := w.log ++ [.dbDeleteBrowserShortcut shortcutID] })

end DatabaseProvider

/-! ## Session authentication middleware (`internal/middleware/auth.go`) -/

/-- A `gin.HandlerFunc`. -/
abbrev HandlerFunc := Env → World → Context → World × Context

/-- Handle on a persistence capability, as held in a struct field. -/
inductive DatabaseHandle where
  | provider
  deriving DecidableEq, Repr

/-- The struct `AuthMiddleware`; the identity capability it holds is the one of `Env`, the
field `databaseProvider` is nil until `SetDatabaseProvider` is called. -/
structure AuthMiddleware where
  databaseProvider : Option DatabaseHandle
  deriving DecidableEq, Repr

/-- Model of `NewAuthMiddleware(authProvider)`: the database provider is left nil. -/
def NewAuthMiddleware : AuthMiddleware :=
  { databaseProvider := none }

namespace AuthMiddleware

/-- Model of `SetDatabaseProvider(dbProvider)`. -/
def SetDatabaseProvider (m : AuthMiddleware) (dbProvider : DatabaseHandle) : AuthMiddleware :=
  { m with databaseProvider := some dbProvider }

/-- Model of `Authenticate()`, with the rest of the handler chain (`c.Next()`) as `next`. -/
def Authenticate (m : AuthMiddleware) (next : HandlerFunc) : HandlerFunc := fun env w c =>
  let authHeader := c.Authorization
  if authHeader = "" then
    (w, (c.JSON StatusUnauthorized
      { Success := false, Error := "Authorization header required" }).Abort)
  else
    let tokenParts := stringsSplit authHeader ' '
    if tokenParts.length ≠ 2 ∨ tokenParts.getD 0 "" ≠ "Bearer" then
      (w, (c.JSON StatusUnauthorized
        { Success := false, Error := "Invalid authorization header format" }).Abort)
    else
      let token := tokenParts.getD 1 ""
      match AuthProvider.ValidateToken env w token with
      | (.error _, w1) =>
        (w1, (c.JSON StatusUnauthorized { Success := false, Error := "Invalid token" }).Abort)
      | (.ok user, w1) =>
        match m.databaseProvider with
        | some _ =>
          match DatabaseProvider.GetUser env w1 user.ID with
          | (.error _, w2) =>
            (w2, (c.JSON StatusUnauthorized
              { Success := false, Error := "User not found" }).Abort)
          | (.ok dbUser, w2) =>
            if !dbUser.IsActive then
              (w2, (c.JSON StatusForbidden
                { Success := false, Error := "User account is inactive" }).Abort)
            else
              let userContext : UserContext :=
                { UserID := dbUser.ID, Email := dbUser.Email,
                  CompanyID := dbUser.CompanyID, Role := dbUser.Role }
              next env w2 (c.Set "user" userContext)
        | none =>
          let userContext : UserContext :=
            { UserID := user.ID, Email := user.Email, Role := "user" }
          next env w1 (c.Set "user" userContext)

/-- Model of `RequireRole(requiredRole)`. -/
def RequireRole (requiredRole : String) (next : HandlerFunc) : HandlerFunc := fun env w c =>
  match c.Get "user" with
  | none =>
    (w, (c.JSON StatusUnauthorized { Success := false, Error := "User not authenticated" }).Abort)
  | some user =>
    if user.Role ≠ requiredRole then
      (w, (c.JSON StatusForbidden
        { Success := false, Error := "Insufficient permissions" }).Abort)
    else next env w c

/-- The loop of `RequireAnyRole` that computes `hasRole`, with its `break`. -/
def hasRoleLoop (role : String) : List String → Bool
  | [] => false
  | r :: rest => if role = r then true else hasRoleLoop role rest

/-- Model of `RequireAnyRole(requiredRoles...)`. -/
def RequireAnyRole (requiredRoles : List String) (next : HandlerFunc) : HandlerFunc :=
  fun env w c =>
  match c.Get "user" with
  | none =>
    (w, (c.JSON StatusUnauthorized { Success := false, Error := "User not authenticated" }).Abort)
  | some user =>
    let hasRole := hasRoleLoop user.Role requiredRoles
    if !hasRole then
      (w, (c.JSON StatusForbidden
        { Success := false, Error := "Insufficient permissions" }).Abort)
    else next env w c

/-- Model of `RequireCompanyAccess()`. -/
def RequireCompanyAccess (next : HandlerFunc) : HandlerFunc := fun env w c =>
  match c.Get "user" with
  | none =>
    (w, (c.JSON StatusUnauthorized { Success := false, Error := "User not authenticated" }).Abort)
  | some user =>
    if user.CompanyID = "" then
      (w, (c.JSON StatusForbidden
        { Success := false, Error := "User not associated with any company" }).Abort)
    else next env w c

end AuthMiddleware

/-- The middleware as `main` builds it (`cmd/server/main.go`, line 76): `NewAuthMiddleware`
and nothing else; `SetDatabaseProvider` is called nowhere in the repository. -/
def mainAuthMiddleware : AuthMiddleware :=
  NewAuthMiddleware

/-! ## User handlers (`internal/handlers/user.go`) -/

namespace UserHandler

/-- The payload `gin.H` of `GetUser`. -/
def userPayload (user : User) : List (String × JField) :=
  [("user", .obj
    [("id", .str user.ID), ("email", .str user.Email), ("name", .str user.Name),
     ("picture", .str user.Picture), ("role", .str user.Role),
     ("is_active", .bool user.IsActive), ("created_at", .time user.CreatedAt),
     ("updated_at", .time user.UpdatedAt), ("last_login_at", .time user.LastLoginAt),
     ("onboarded", .bool user.Onboarded)])]

/-- The payload `gin.H` of `UpdateUser`. -/
def updatedUserPayload (user : User) : List (String × JField) :=
  [("user", .obj
    [("id", .str user.ID), ("email", .str user.Email), ("name", .str user.Name),
     ("picture", .str user.Picture), ("role", .str user.Role),
     ("is_active", .bool user.IsActive), ("updated_at", .time user.UpdatedAt)])]

/-- Model of `UserHandler.GetUser`. -/
def GetUser : HandlerFunc := fun env w c =>
  match c.Get "user" with
  | none => (w, c.JSON StatusUnauthorized { Success := false, Error := "User not authenticated" })
  | some currentUser =>
    let userID := c.Param "id"
    match DatabaseProvider.GetUser env w userID with
    | (.error _, w1) =>
      (w1, c.JSON StatusNotFound { Success := false, Error := "User not found" })
    | (.ok user, w1) =>
      if user.CompanyID ≠ currentUser.CompanyID then
        (w1, c.JSON StatusForbidden { Success := false, Error := "Access denied" })
      else
        (w1, c.JSON StatusOK { Success := true, Data := userPayload user })

/-- The tail of `UpdateUser`: save the record and answer. -/
def saveUser (env : Env) (w : World) (c : Context) (user : User) : World × Context :=
  match DatabaseProvider.UpdateUser env w user with
  | (some _, _, w1) =>
    (w1, c.JSON StatusInternalServerError { Success := false, Error := "Failed to update user" })
  | (none, user1, w1) =>
    (w1, c.JSON StatusOK
      { Success := true, Message := "User updated successfully",
        Data := updatedUserPayload user1 })

/-- Model of `UserHandler.UpdateUser`; `bind` is the outcome of `c.ShouldBindJSON(&req)`. -/
def UpdateUser (bind : Except String UpdateUserRequest) : HandlerFunc := fun env w c =>
  match bind with
  | .error err =>
    (w, c.JSON StatusBadRequest { Success := false, Error := "Invalid request data: " ++ err })
  | .ok req =>
    match c.Get "user" with
    | none =>
      (w, c.JSON StatusUnauthorized { Success := false, Error := "User not authenticated" })
    | some currentUser =>
      let userID := c.Param "id"
      match DatabaseProvider.GetUser env w userID with
      | (.error _, w1) =>
        (w1, c.JSON StatusNotFound { Success := false, Error := "User not found" })
      | (.ok user, w1) =>
        if user.CompanyID ≠ currentUser.CompanyID then
          (w1, c.JSON StatusForbidden { Success := false, Error := "Access denied" })
        else if currentUser.Role ≠ "admin" ∧ currentUser.UserID ≠ userID then
          (w1, c.JSON StatusForbidden
            { Success := false, Error := "Only admins can update other users" })
        else
          let user1 := if req.Name ≠ "" then { user with Name := req.Name } else user
          if req.Role ≠ "" ∧ currentUser.Role ≠ "admin" then
            (w1, c.JSON StatusForbidden
              { Success := false, Error := "Only admins can change user roles" })
          else
            let user2 := if req.Role ≠ "" then { user1 with Role := req.Role } else user1
            match req.IsActive with
            | some isActive =>
              if currentUser.Role ≠ "admin" then
                (w1, c.JSON StatusForbidden
                  { Success := false, Error := "Only admins can deactivate users" })
              else saveUser env w1 c { user2 with IsActive := isActive }
            | none => saveUser env w1 c user2

/-- The counting loop of `DeleteUser`: the users with role admin that are active. -/
def adminCount (users : List User) : Nat :=
  users.foldl (fun n u => if u.Role = "admin" ∧ u.IsActive = true then n + 1 else n) 0

/-- The tail of `DeleteUser`: delete at the identity capability, then at the store. -/
def deleteBoth (env : Env) (w : World) (c : Context) (userID : String) : World × Context :=
  match AuthProvider.DeleteUser env w userID with
  | (some _, w1) =>
    (w1, c.JSON StatusInternalServerError
      { Success := false, Error := "Failed to delete user from auth provider" })
  | (none, w1) =>
    match DatabaseProvider.DeleteUser env w1 userID with
    | (some _, w2) =>
      (w2, c.JSON StatusInternalServerError
        { Success := false, Error := "Failed to delete user from database" })
    | (none, w2) =>
      (w2, c.JSON StatusOK { Success := true, Message := "User deleted successfully" })

/-- Model of `UserHandler.DeleteUser`. -/
def DeleteUser : HandlerFunc := fun env w c =>
  match c.Get "user" with
  | none => (w, c.JSON StatusUnauthorized { Success := false, Error := "User not authenticated" })
  | some currentUser =>
    let userID := c.Param "id"
    if currentUser.Role ≠ "admin" then
      (w, c.JSON StatusForbidden { Success := false, Error := "Only admins can delete users" })
    else
      match DatabaseProvider.GetUser env w userID with
      | (.error _, w1) =>
        (w1, c.JSON StatusNotFound { Success := false, Error := "User not found" })
      | (.ok user, w1) =>
        if user.CompanyID ≠ currentUser.CompanyID then
          (w1, c.JSON StatusForbidden { Success := false, Error := "Access denied" })
        else if user.Role = "admin" then
          match DatabaseProvider.GetUsersByCompany env w1 currentUser.CompanyID with
          | (.error _, w2) =>
            (w2, c.JSON StatusInternalServerError
              { Success := false, Error := "Failed to check user count" })
          | (.ok users, w2) =>
            if adminCount users ≤ 1 then
              (w2, c.JSON StatusBadRequest
                { Success := false, Error := "Cannot delete the last admin user" })
            else deleteBoth env w2 c userID
        else deleteBoth env w1 c userID

end UserHandler

/-! ## Shortcut handlers (`internal/handlers/shortcut.go`) -/

namespace BrowserShortcutHandler

/-- The payload `gin.H` of `UpdateShortcut`. -/
def shortcutPayload (shortcut : BrowserShortcut) : List (String × JField) :=
  [("shortcut", .obj
    [("id", .str shortcut.ID), ("name", .str shortcut.Name), ("url", .str shortcut.URL),
     ("icon", .str shortcut.Icon), ("description", .str shortcut.Description),
     ("order", .int shortcut.Order), ("is_active", .bool shortcut.IsActive)])]

/-- The field updates of `UpdateShortcut`: a non-empty (non-zero) request field overwrites. -/
def applyRequest (req : BrowserShortcutRequest) (shortcut : BrowserShortcut) : BrowserShortcut :=
  let s1 := if req.Name ≠ "" then { shortcut with Name := req.Name } else shortcut
  let s2 := if req.URL ≠ "" then { s1 with URL := req.URL } else s1
  let s3 := if req.Icon ≠ "" then { s2 with Icon := req.Icon } else s2
  let s4 := if req.Description ≠ "" then { s3 with Description := req.Description } else s3
  if req.Order ≠ 0 then { s4 with Order := req.Order } else s4

/-- Model of `BrowserShortcutHandler.UpdateShortcut`; `bind` is the outcome of
`c.ShouldBindJSON(&req)`. -/
def UpdateShortcut (bind : Except String BrowserShortcutRequest) : HandlerFunc := fun env w c =>
  match bind with
  | .error err =>
    (w, c.JSON StatusBadRequest { Success := false, Error := "Invalid request data: " ++ err })
  | .ok req =>
    match c.Get "user" with
    | none =>
      (w, c.JSON StatusUnauthorized { Success := false, Error := "User not authenticated" })
    | some user =>
      let shortcutID := c.Param "id"
      if user.Role ≠ "admin" then
        (w, c.JSON StatusForbidden
          { Success := false, Error := "Only admins can update shortcuts" })
      else
        match DatabaseProvider.GetBrowserShortcut env w shortcutID with
        | (.error _, w1) =>
          (w1, c.JSON StatusNotFound { Success := false, Error := "Shortcut not found" })
        | (.ok shortcut, w1) =>
          if shortcut.CompanyID ≠ user.CompanyID then
            (w1, c.JSON StatusForbidden { Success := false, Error := "Access denied" })
          else
            let shortcut1 := applyRequest req shortcut
            match DatabaseProvider.UpdateBrowserShortcut env w1 shortcut1 with
            | (some _, w2) =>
              (w2, c.JSON StatusInternalServerError
                { Success := false, Error := "Failed to update shortcut" })
            | (none, w2) =>
              (w2, c.JSON StatusOK
                { Success := true, Message := "Shortcut updated successfully",
                  Data := shortcutPayload shortcut1 })

/-- Model of `BrowserShortcutHandler.DeleteShortcut`. -/
def DeleteShortcut : HandlerFunc := fun env w c =>
  match c.Get "user" with
  | none => (w, c.JSON StatusUnauthorized { Success := false, Error := "User not authenticated" })
  | some user =>
    let shortcutID := c.Param "id"
    if user.Role ≠ "admin" then
      (w, c.JSON StatusForbidden { Success := false, Error := "Only admins can delete shortcuts" })
    else
      match DatabaseProvider.GetBrowserShortcut env w shortcutID with
      | (.error _, w1) =>
        (w1, c.JSON StatusNotFound { Success := false, Error := "Shortcut not found" })
      | (.ok shortcut, w1) =>
        if shortcut.CompanyID ≠ user.CompanyID then
          (w1, c.JSON StatusForbidden { Success := false, Error := "Access denied" })
        else
          match DatabaseProvider.DeleteBrowserShortcut env w1 shortcutID with
          | (some _, w2) =>
            (w2, c.JSON StatusInternalServerError
              { Success := false, Error := "Failed to delete shortcut" })
          | (none, w2) =>
            (w2, c.JSON StatusOK { Success := true, Message := "Shortcut deleted successfully" })

end BrowserShortcutHandler

/-! ## Invitation handlers (`internal/handlers/invitation.go`) -/

namespace InvitationHandler

/-- Model of `InvitationHandler.DeleteInvitation`. -/
def DeleteInvitation : HandlerFunc := fun env w c =>
  match c.Get "user" with
  | none => (w, c.JSON StatusUnauthorized { Success := false, Error := "User not authenticated" })
  | some currentUser =>
    let invitationID := c.Param "id"
    if currentUser.Role ≠ "admin" then
      (w, c.JSON StatusForbidden
        { Success := false, Error := "Only admins can delete invitations" })
    else
      match DatabaseProvider.GetInvitation env w invitationID with
      | (.error _, w1) =>
        (w1, c.JSON StatusNotFound { Success := false, Error := "Invitation not found" })
      | (.ok invitation, w1) =>
        if invitation.CompanyID ≠ currentUser.CompanyID then
          (w1, c.JSON StatusForbidden { Success := false, Error := "Access denied" })
        else
          match DatabaseProvider.DeleteInvitation env w1 invitationID with
          | (some _, w2) =>
            (w2, c.JSON StatusInternalServerError
              { Success := false, Error := "Failed to delete invitation" })
          | (none, w2) =>
            (w2, c.JSON StatusOK
              { Success := true, Message := "Invitation deleted successfully" })

/-- The part of `AcceptInvitation` after the invitation was found (lines 239-317);
`time.Now().After(t)` is `t < now`. -/
def acceptFound (env : Env) (w1 : World) (c : Context) (invitation : Invitation) :
    World × Context :=
  if invitation.ExpiresAt < env.now then
    (w1, c.JSON StatusBadRequest { Success := false, Error := "Invitation has expired" })
  else if invitation.Status = "accepted" then
    (w1, c.JSON StatusBadRequest
      { Success := false, Error := "Invitation has already been accepted" })
  else
    match c.Get "user" with
    | none =>
      (w1, c.JSON StatusUnauthorized { Success := false, Error := "User not authenticated" })
    | some currentUser =>
      if currentUser.Email ≠ invitation.Email then
        (w1, c.JSON StatusForbidden
          { Success := false, Error := "Email does not match invitation" })
      else
        match DatabaseProvider.GetUser env w1 currentUser.UserID with
        | (.error _, w2) =>
          (w2, c.JSON StatusInternalServerError
            { Success := false, Error := "Failed to get user data" })
        | (.ok user, w2) =>
          let user1 := { user with CompanyID := invitation.CompanyID, Role := "user" }
          match DatabaseProvider.UpdateUser env w2 user1 with
          | (some _, _, w3) =>
            (w3, c.JSON StatusInternalServerError
              { Success := false, Error := "Failed to update user" })
          | (none, _, w3) =>
            let invitation1 :=
              { invitation with Status := "accepted", AcceptedAt := env.now }
            match DatabaseProvider.UpdateInvitation env w3 invitation1 with
            | (some _, w4) =>
              (w4, c.JSON StatusInternalServerError
                { Success := false, Error := "Failed to update invitation" })
            | (none, w4) =>
              (w4, c.JSON StatusOK
                { Success := true, Message := "Invitation accepted successfully",
                  Data := [("company_id", .val (.str invitation1.CompanyID))] })

/-- Model of `InvitationHandler.AcceptInvitation`: the lookup by token (lines 228-237), then
`acceptFound`. -/
def AcceptInvitation : HandlerFunc := fun env w c =>
  let token := c.Param "token"
  match DatabaseProvider.GetInvitationByToken env w token with
  | (.error _, w1) =>
    (w1, c.JSON StatusNotFound { Success := false, Error := "Invalid invitation token" })
  | (.ok invitation, w1) => acceptFound env w1 c invitation

end InvitationHandler

/-! ## Vocabulary of the properties -/

/-- Between `w` and `w1` nothing was written to or deleted from the persistence capability:
the collections are the same and the calls logged since `w` are all reads. -/
def noDbWrite (w w1 : World) : Prop :=
  w1.users = w.users ∧ w1.invitations = w.invitations ∧ w1.shortcuts = w.shortcuts ∧
    w.log <+: w1.log ∧ (w1.log.drop w.log.length).all (fun call => !call.isDbWrite) = true ∧
    w1.companies = w.companies ∧ w1.subscriptions = w.subscriptions ∧
    w1.setupProgress = w.setupProgress

instance (w w1 : World) : Decidable (noDbWrite w w1) := by
  unfold noDbWrite; infer_instance

/-- The handler answers Forbidden (403) and leaves the store alone. -/
def Forbids (h : HandlerFunc) (env : Env) (w : World) (c : Context) : Prop :=
  (h env w c).2.status = StatusForbidden ∧ noDbWrite w (h env w c).1

instance (h : HandlerFunc) (env : Env) (w : World) (c : Context) :
    Decidable (Forbids h env w c) := by
  unfold Forbids; infer_instance

/-- An environment in which no token validates and no capability call fails. -/
def quietEnv : Env :=
  { ValidateToken := fun _ => .error "invalid token" }

/-! ## Sample data -/

namespace Sample

/-- An admin of tenant `A`. -/
def adminA : UserContext :=
  { UserID := "alice", Email := "alice@a.example", CompanyID := "A", Role := "admin" }

/-- A store holding one user, one invitation and one shortcut of tenant `B`, all with the
id `x1`. -/
def storeB : World :=
  { users := [{ ID := "x1", Email := "bob@b.example", CompanyID := "B", Role := "user",
                IsActive := true }],
    invitations := [{ ID := "x1", Email := "carol@b.example", CompanyID := "B",
                      Token := "k1", Status := "pending", ExpiresAt := 100 }],
    shortcuts := [{ ID := "x1", CompanyID := "B", Name := "Mail",
                    URL := "https://mail.b.example" }] }

/-- A request of `adminA` on the id `x1`. -/
def requestA : Context :=
  { Params := [("id", "x1")], Keys := [("user", adminA)] }

/-- A downstream handler that only answers 200. -/
def downstream : HandlerFunc := fun _ w c =>
  (w, c.JSON StatusOK { Success := true, Message := "downstream ran" })

/-- An identity provider that validates three tokens: one of `alice` (whose token carries
an e-mail address of its own), one of `bob` and one of a subject without user record. -/
def tokenEnv : Env :=
  { ValidateToken := fun token =>
      if token = "tok-alice" then
        .ok { ID := "alice", Email := "alice@token.example", Name := "Alice" }
      else if token = "tok-bob" then
        .ok { ID := "bob", Email := "bob@a.example", Name := "Bob" }
      else if token = "tok-ghost" then
        .ok { ID := "ghost", Email := "ghost@a.example", Name := "Ghost" }
      else .error "invalid token" }

/-- The user record of `alice`: an active admin of tenant `A`. -/
def alice : User :=
  { ID := "alice", Email := "alice@a.example", Name := "Alice", CompanyID := "A",
    Role := "admin", IsActive := true }

/-- The user record of `bob`: a deactivated user of tenant `A`. -/
def bob : User :=
  { ID := "bob", Email := "bob@a.example", Name := "Bob", CompanyID := "A",
    Role := "user", IsActive := false }

/-- A store with the records of `alice` and `bob`. -/
def storeA : World :=
  { users := [alice, bob] }

/-- A request carrying a bearer token. -/
def bearer (token : String) : Context :=
  { Authorization := "Bearer " ++ token }

/-- The record of `carol`: registered (hence role admin), not yet in a tenant. -/
def carol : User :=
  { ID := "carol", Email := "carol@x.example", Name := "Carol", CompanyID := "",
    Role := "admin", IsActive := true }

/-- An invitation of `carol` to tenant `T`, pending, expiring at instant 100. -/
def invitationK : Invitation :=
  { ID := "i1", Email := "carol@x.example", CompanyID := "T", InvitedBy := "alice",
    Token := "K", Status := "pending", ExpiresAt := 100 }

/-- An invitation of `carol` that was accepted at instant 40. -/
def invitationDone : Invitation :=
  { ID := "i2", Email := "carol@x.example", CompanyID := "T", InvitedBy := "alice",
    Token := "K2", Status := "accepted", ExpiresAt := 100, AcceptedAt := 40 }

/-- A store with `alice`, `bob`, `carol` and the two invitations. -/
def inviteStore : World :=
  { users := [alice, bob, carol], invitations := [invitationK, invitationDone] }

/-- The principal of `carol`. -/
def carolPrincipal : UserContext :=
  { UserID := "carol", Email := "carol@x.example", CompanyID := "", Role := "admin" }

/-- A request `POST /invitations/:token/accept` of a principal. -/
def acceptRequest (token : String) (p : UserContext) : Context :=
  { Params := [("token", token)], Keys := [("user", p)] }

/-- No capability call fails; the clock reads `t`. -/
def envAt (t : Nat) : Env :=
  { ValidateToken := fun _ => .error "invalid token", now := t }

/-- The record of `erin`: a second active admin of tenant `A`. -/
def erin : User :=
  { ID := "erin", Email := "erin@a.example", Name := "Erin", CompanyID := "A",
    Role := "admin", IsActive := true }

/-- Tenant `A` with two active admins. -/
def storeTwoAdmins : World :=
  { users := [alice, bob, erin] }

/-- A request of `adminA` (the principal of `alice`) on a user id. -/
def requestOn (id : String) : Context :=
  { Params := [("id", id)], Keys := [("user", adminA)] }

end Sample

/-! ## Tenants, statistics and registration: capabilities -/

namespace AuthProvider

/-- Call of `Register(ctx, email, password, name)`. -/
def Register (env : Env) (w : World) (email password name : String) :
    Except String AuthUser × World :=
  (env.Register email password name, w.record (.authRegister email password name))

/-- Call of `GenerateToken(user)`. -/
def GenerateToken (env : Env) (w : World) (user : AuthUser) : Except String String × World :=
  (env.GenerateToken user, w.record (.authGenerateToken user))

end AuthProvider

namespace DatabaseProvider

/-- Model of `GetCompany(ctx, companyID)`. -/
def GetCompany (env : Env) (w : World) (companyID : String) : Except String Company × World :=
  match env.fails (.dbGetCompany companyID) with
  | some e => (.error e, w.record (.dbGetCompany companyID))
  | none =>
    match getDoc Company.ID companyID w.companies with
    | some company => (.ok company, w.record (.dbGetCompany companyID))
    | none => (.error "company not found", w.record (.dbGetCompany companyID))

/-- Model of `GetCompanyByDomain(ctx, domain)`: the first document of the query
`domain == domain`, limit 1; any iterator error is answered `company not found`. -/
def GetCompanyByDomain (env : Env) (w : World) (domain : String) :
    Except String Company × World :=
  match env.fails (.dbGetCompanyByDomain domain) with
  | some _ => (.error "company not found", w.record (.dbGetCompanyByDomain domain))
  | none =>
    match (whereEq Company.document "domain" (.str domain) w.companies).head? with
    | some company => (.ok company, w.record (.dbGetCompanyByDomain domain))
    | none => (.error "company not found", w.record (.dbGetCompanyByDomain domain))

/-- Model of `CreateCompany(ctx, company)`: stamps the timestamps, the status `trial` and the
end of the trial on the caller's record, then sets the document. -/
def CreateCompany (env : Env) (w : World) (company : Company) :
    Option String × Company × World :=
  let company1 := { company with CreatedAt := env.now, UpdatedAt := env.now, Status := "trial",
                                 TrialEndsAt := env.addDate 0 1 0 env.now }
  match env.fails (.dbCreateCompany company1) with
  | some e => (some e, company1, w.record (.dbCreateCompany company1))
  | none =>
    (none, company1,
      { w with companies := setDoc Company.ID company1 w.companies,
               log := w.log ++ [.dbCreateCompany company1] })

/-- Model of `UpdateCompany(ctx, company)`: stamps `UpdatedAt`, then sets the document. -/
def UpdateCompany (env : Env) (w : World) (company : Company) :
    Option String × Company × World :=
  let company1 := { company with UpdatedAt := env.now }
  match env.fails (.dbUpdateCompany company1) with
  | some e => (some e, company1, w.record (.dbUpdateCompany company1))
  | none =>
    (none, company1,
      { w with companies := setDoc Company.ID company1 w.companies,
               log := w.log ++ [.dbUpdateCompany company1] })

/-- Model of `GetUserByEmail(ctx, email)`: the first document of the query `email == email`,
limit 1. -/
def GetUserByEmail (env : Env) (w : World) (email : String) : Except String User × World :=
  match env.fails (.dbGetUserByEmail email) with
  | some _ => (.error "user not found", w.record (.dbGetUserByEmail email))
  | none =>
    match (whereEq User.document "email" (.str email) w.users).head? with
    | some u => (.ok u, w.record (.dbGetUserByEmail email))
    | none => (.error "user not found", w.record (.dbGetUserByEmail email))

/-- Model of `CreateUser(ctx, user)`: stamps the timestamps and `IsActive = true`, then sets
the document. -/
def CreateUser (env : Env) (w : World) (user : User) : Option String × User × World :=
  let user1 := { user with CreatedAt := env.now, UpdatedAt := env.now, IsActive := true }
  match env.fails (.dbCreateUser user1) with
  | some e => (some e, user1, w.record (.dbCreateUser user1))
  | none =>
    (none, user1,
      { w with users := setDoc User.ID user1 w.users, log := w.log ++ [.dbCreateUser user1] })

/-- Model of `CountUsersByCompany(ctx, companyID)`: counts the documents of the query
`company_id == companyID`; the loop leaves at the first iterator error and the count so far
is returned with a nil error. -/
def CountUsersByCompany (env : Env) (w : World) (companyID : String) :
    Except String Int × World :=
  match env.fails (.dbCountUsersByCompany companyID) with
  | some _ => (.ok 0, w.record (.dbCountUsersByCompany companyID))
  | none =>
    (.ok ((whereEq User.document "company_id" (.str companyID) w.users).length : Int),
      w.record (.dbCountUsersByCompany companyID))

/-- Model of `CountActiveUsersByCompany(ctx, companyID)`: the query
`company_id == companyID` and `is_active == true`, counted like `CountUsersByCompany`. -/
def CountActiveUsersByCompany (env : Env) (w : World) (companyID : String) :
    Except String Int × World :=
  match env.fails (.dbCountActiveUsersByCompany companyID) with
  | some _ => (.ok 0, w.record (.dbCountActiveUsersByCompany companyID))
  | none =>
    (.ok ((whereEq User.document "is_active" (.bool true)
        (whereEq User.document "company_id" (.str companyID) w.users)).length : Int),
      w.record (.dbCountActiveUsersByCompany companyID))

/-- Model of `CountInvitedUsersByCompany(ctx, companyID)`: the query
`company_id == companyID` and `invitation_status == "invited"`, counted like
`CountUsersByCompany`. -/
def CountInvitedUsersByCompany (env : Env) (w : World) (companyID : String) :
    Except String Int × World :=
  match env.fails (.dbCountInvitedUsersByCompany companyID) with
  | some _ => (.ok 0, w.record (.dbCountInvitedUsersByCompany companyID))
  | none =>
    (.ok ((whereEq User.document "invitation_status" (.str "invited")
        (whereEq User.document "company_id" (.str companyID) w.users)).length : Int),
      w.record (.dbCountInvitedUsersByCompany companyID))

/-- Model of `CountPendingInvitationsByCompany(ctx, companyID)`: the query
`company_id == companyID` and `status == "pending"`, counted like `CountUsersByCompany`. -/
def CountPendingInvitationsByCompany (env : Env) (w : World) (companyID : String) :
    Except String Int × World :=
  match env.fails (.dbCountPendingInvitationsByCompany companyID) with
  | some _ => (.ok 0, w.record (.dbCountPendingInvitationsByCompany companyID))
  | none =>
    (.ok ((whereEq Invitation.document "status" (.str "pending")
        (whereEq Invitation.document "company_id" (.str companyID) w.invitations)).length : Int),
      w.record (.dbCountPendingInvitationsByCompany companyID))

/-- Model of `GetSubscriptionByCompany(ctx, companyID)`: the first document of the query
`company_id == companyID`, limit 1; any iterator error is answered `subscription not
found`. -/
def GetSubscriptionByCompany (env : Env) (w : World) (companyID : String) :
    Except String Subscription × World :=
  match env.fails (.dbGetSubscriptionByCompany companyID) with
  | some _ => (.error "subscription not found", w.record (.dbGetSubscriptionByCompany companyID))
  | none =>
    match (whereEq Subscription.document "company_id" (.str companyID)
        w.subscriptions).head? with
    | some s => (.ok s, w.record (.dbGetSubscriptionByCompany companyID))
    | none => (.error "subscription not found", w.record (.dbGetSubscriptionByCompany companyID))

/-- The `switch feature` of `UpdateCompanyConfigurationStatus`; no case matches an unknown
key. -/
def setFeature (feature : String) (status : Bool) (company : Company) : Company :=
  if feature = "website_security" then { company with WebsiteSecurityConfigured := status }
  else if feature = "malware_security" then { company with MalwareSecurityConfigured := status }
  else if feature = "data_controls" then { company with DataControlsConfigured := status }
  else if feature = "reporting" then { company with ReportingConfigured := status }
  else if feature = "browser_customization" then { company with BrowserCustomized := status }
  else if feature = "subscription" then { company with SubscriptionActive := status }
  else if feature = "users_invited" then { company with UsersInvited := status }
  else if feature = "download_ready" then { company with DownloadReady := status }
  else company

/-- Model of `UpdateCompanyConfigurationStatus(ctx, companyID, feature, status)`. -/
def UpdateCompanyConfigurationStatus (env : Env) (w : World) (companyID feature : String)
    (status : Bool) : Option String × World :=
  match GetCompany env w companyID with
  | (.error e, w1) => (some e, w1)
  | (.ok company, w1) =>
    let company1 := { setFeature feature status company with UpdatedAt := env.now }
    ((UpdateCompany env w1 company1).1, (UpdateCompany env w1 company1).2.2)

/-- The map literal of `GetCompanyConfigurationStatus`, as an association list. -/
def configurationStatus (company : Company) : List (String × Bool) :=
  [("website_security", company.WebsiteSecurityConfigured),
   ("malware_security", company.MalwareSecurityConfigured),
   ("data_controls", company.DataControlsConfigured),
   ("reporting", company.ReportingConfigured),
   ("browser_customization", company.BrowserCustomized),
   ("subscription", company.SubscriptionActive),
   ("users_invited", company.UsersInvited),
   ("download_ready", company.DownloadReady)]

/-- Model of `GetCompanyConfigurationStatus(ctx, companyID)`. -/
def GetCompanyConfigurationStatus (env : Env) (w : World) (companyID : String) :
    Except String (List (String × Bool)) × World :=
  match GetCompany env w companyID with
  | (.error e, w1) => (.error e, w1)
  | (.ok company, w1) => (.ok (configurationStatus company), w1)

/-- The slice `commonShortcuts` of `GenerateShortcutsForDomain`. -/
def commonShortcuts (companyID domain : String) : List BrowserShortcut :=
  [{ ID := "shortcut_" ++ companyID ++ "_gmail", CompanyID := companyID, Name := "Gmail",
     URL := "https://mail.google.com", Icon := "gmail-icon", Description := "Access Gmail",
     Order := 1, IsActive := true, IsSuggested := true, Category := "suggested",
     Source := "auto-generated" },
   { ID := "shortcut_" ++ companyID ++ "_calendar", CompanyID := companyID,
     Name := "Google Calendar", URL := "https://calendar.google.com", Icon := "calendar-icon",
     Description := "Access Google Calendar", Order := 2, IsActive := true,
     IsSuggested := true, Category := "suggested", Source := "auto-generated" },
   { ID := "shortcut_" ++ companyID ++ "_drive", CompanyID := companyID,
     Name := "Google Drive", URL := "https://drive.google.com", Icon := "drive-icon",
     Description := "Access Google Drive", Order := 3, IsActive := true, IsSuggested := true,
     Category := "suggested", Source := "auto-generated" },
   { ID := "shortcut_" ++ companyID ++ "_company", CompanyID := companyID,
     Name := domain ++ " Website", URL := "https://" ++ domain, Icon := "company-icon",
     Description := "Access " ++ domain ++ " website", Order := 0, IsActive := true,
     IsSuggested := true, Category := "company", Source := "auto-generated" }]

/-- The writes of a committed batch: each `batch.Set(docRef, shortcut)` in order. -/
def setDocs (batch : List BrowserShortcut) (docs : List BrowserShortcut) :
    List BrowserShortcut :=
  batch.foldl (fun acc s => setDoc BrowserShortcut.ID s acc) docs

/-- Model of `GenerateShortcutsForDomain(ctx, companyID, domain)`: one batch of four `Set`,
committed at once. -/
def GenerateShortcutsForDomain (env : Env) (w : World) (companyID domain : String) :
    Option String × World :=
  match env.fails (.dbCommitShortcuts (commonShortcuts companyID domain)) with
  | some e => (some e, w.record (.dbCommitShortcuts (commonShortcuts companyID domain)))
  | none =>
    (none, { w with shortcuts := setDocs (commonShortcuts companyID domain) w.shortcuts,
                    log := w.log ++ [.dbCommitShortcuts (commonShortcuts companyID domain)] })

end DatabaseProvider

/-! ## Setup handlers (`internal/handlers/setup.go`) -/

namespace SetupHandler

/-- The computation of `setupProgress` in `GetCompanyStats` (lines 168-184): five
additions of 20. -/
def setupProgress (company : Company) : Int :=
  let p0 : Int := 0
  let p1 := if company.Domain ≠ "" then p0 + 20 else p0
  let p2 := if company.ColorTheme ≠ "" then p1 + 20 else p1
  let p3 := if company.UsersInvited = true then p2 + 20 else p2
  let p4 := if company.SubscriptionActive = true then p3 + 20 else p3
  if company.DownloadReady = true then p4 + 20 else p4

/-- The payload `models.CompanyStatsResponse`. -/
def statsPayload (totalUsers activeUsers invitedUsers pendingInvitations maxUsers
    progress : Int) (configStatus : List (String × Bool)) : List (String × JField) :=
  [("total_users", .val (.int totalUsers)), ("active_users", .val (.int activeUsers)),
   ("invited_users", .val (.int invitedUsers)),
   ("pending_invitations", .val (.int pendingInvitations)),
   ("max_users", .val (.int maxUsers)), ("setup_progress", .val (.int progress)),
   ("configuration_status", .obj (configStatus.map (fun kv => (kv.1, JVal.bool kv.2))))]

/-- The tail of `GetCompanyStats` after the four counts: subscription, configuration status,
progress and answer. -/
def answerStats (env : Env) (w : World) (c : Context) (uc : UserContext) (company : Company)
    (totalUsers activeUsers invitedUsers pendingInvitations : Int) : World × Context :=
  let sub := DatabaseProvider.GetSubscriptionByCompany env w uc.CompanyID
  let subscription : Subscription :=
    match sub.1 with
    | .ok s => s
    | .error _ => { MaxUsers := 20 }
  let cfg := DatabaseProvider.GetCompanyConfigurationStatus env sub.2 uc.CompanyID
  let configStatus : List (String × Bool) :=
    match cfg.1 with
    | .ok m => m
    | .error _ => []
  (cfg.2, c.JSON StatusOK
    { Success := true,
      Data := statsPayload totalUsers activeUsers invitedUsers pendingInvitations
        subscription.MaxUsers (setupProgress company) configStatus })

/-- Model of `SetupHandler.GetCompanyStats`. -/
def GetCompanyStats : HandlerFunc := fun env w c =>
  match c.Get "user_context" with
  | none => (w, c.JSON StatusUnauthorized { Success := false, Error := "User context not found" })
  | some uc =>
    match DatabaseProvider.GetCompany env w uc.CompanyID with
    | (.error _, w1) =>
      (w1, c.JSON StatusInternalServerError
        { Success := false, Error := "Failed to get company" })
    | (.ok company, w1) =>
      match DatabaseProvider.CountUsersByCompany env w1 uc.CompanyID with
      | (.error _, w2) =>
        (w2, c.JSON StatusInternalServerError
          { Success := false, Error := "Failed to count users" })
      | (.ok totalUsers, w2) =>
        match DatabaseProvider.CountActiveUsersByCompany env w2 uc.CompanyID with
        | (.error _, w3) =>
          (w3, c.JSON StatusInternalServerError
            { Success := false, Error := "Failed to count active users" })
        | (.ok activeUsers, w3) =>
          match DatabaseProvider.CountInvitedUsersByCompany env w3 uc.CompanyID with
          | (.error _, w4) =>
            (w4, c.JSON StatusInternalServerError
              { Success := false, Error := "Failed to count invited users" })
          | (.ok invitedUsers, w4) =>
            match DatabaseProvider.CountPendingInvitationsByCompany env w4 uc.CompanyID with
            | (.error _, w5) =>
              (w5, c.JSON StatusInternalServerError
                { Success := false, Error := "Failed to count pending invitations" })
            | (.ok pendingInvitations, w5) =>
              answerStats env w5 c uc company totalUsers activeUsers invitedUsers
                pendingInvitations

/-- The payload `models.DownloadInfoResponse`; the release date is the day of `now`. -/
def downloadInfo (now : Nat) : List (String × JField) :=
  [("download_url", .val (.str "https://download.pab-smb.com/browser/latest")),
   ("version", .val (.str "1.0.0")), ("release_date", .val (.time now)),
   ("file_size", .val (.str "45.2 MB")),
   ("supported_os", .obj [("0", .str "macOS"), ("1", .str "Windows"), ("2", .str "Linux")]),
   ("installation_instructions", .val (.str
     "Download and run the installer. Follow the setup wizard to complete installation."))]

/-- Model of `SetupHandler.GetDownloadInfo`. -/
def GetDownloadInfo : HandlerFunc := fun env w c =>
  match c.Get "user_context" with
  | none => (w, c.JSON StatusUnauthorized { Success := false, Error := "User context not found" })
  | some uc =>
    match DatabaseProvider.GetCompany env w uc.CompanyID with
    | (.error _, w1) =>
      (w1, c.JSON StatusInternalServerError
        { Success := false, Error := "Failed to get company" })
    | (.ok company, w1) =>
      if !company.DownloadReady then
        (w1, c.JSON StatusBadRequest
          { Success := false, Error := "Company setup not complete. Download not ready." })
      else
        (w1, c.JSON StatusOK { Success := true, Data := downloadInfo env.now })

end SetupHandler

/-! ## Company handlers (`internal/handlers/company.go`) -/

namespace CompanyHandler

/-- The payload `gin.H` of `CreateCompany`. -/
def createdPayload (company : Company) : List (String × JField) :=
  [("company", .obj
    [("id", .str company.ID), ("name", .str company.Name), ("domain", .str company.Domain),
     ("color_theme", .str company.ColorTheme), ("status", .str company.Status),
     ("admin_user_id", .str company.AdminUserID)])]

/-- The payload `gin.H` of `UpdateCompany`. -/
def updatedPayload (company : Company) : List (String × JField) :=
  [("company", .obj
    [("id", .str company.ID), ("name", .str company.Name), ("domain", .str company.Domain),
     ("color_theme", .str company.ColorTheme), ("logo_url", .str company.LogoURL),
     ("status", .str company.Status), ("updated_at", .time company.UpdatedAt)])]

/-- Model of `CompanyHandler.CreateCompany`; `bind` is the outcome of
`c.ShouldBindJSON(&req)`, the company id is the first `uuid.New()` of the request. -/
def CreateCompany (bind : Except String CompanyCreateRequest) : HandlerFunc := fun env w c =>
  match bind with
  | .error err =>
    (w, c.JSON StatusBadRequest { Success := false, Error := "Invalid request data: " ++ err })
  | .ok req =>
    match c.Get "user" with
    | none =>
      (w, c.JSON StatusUnauthorized { Success := false, Error := "User not authenticated" })
    | some user =>
      match DatabaseProvider.GetCompanyByDomain env w req.Domain with
      | (.ok _, w1) =>
        (w1, c.JSON StatusConflict { Success := false, Error := "Domain already taken" })
      | (.error _, w1) =>
        let company : Company :=
          { ID := env.uuid 0, Name := req.Name, Domain := req.Domain,
            ColorTheme := req.ColorTheme, AdminUserID := user.UserID, Status := "trial" }
        match DatabaseProvider.CreateCompany env w1 company with
        | (some _, _, w2) =>
          (w2, c.JSON StatusInternalServerError
            { Success := false, Error := "Failed to create company" })
        | (none, company1, w2) =>
          match DatabaseProvider.GetUser env w2 user.UserID with
          | (.error _, w3) =>
            (w3, c.JSON StatusInternalServerError
              { Success := false, Error := "Failed to get user data" })
          | (.ok dbUser, w3) =>
            match DatabaseProvider.UpdateUser env w3 { dbUser with CompanyID := company1.ID } with
            | (some _, _, w4) =>
              (w4, c.JSON StatusInternalServerError
                { Success := false, Error := "Failed to update user" })
            | (none, _, w4) =>
              (w4, c.JSON StatusCreated
                { Success := true, Message := "Company created successfully",
                  Data := createdPayload company1 })

/-- The field updates of `UpdateCompany` after the domain: color theme and logo. -/
def applyLook (req : UpdateCompanyRequest) (company : Company) : Company :=
  let company1 :=
    if req.ColorTheme ≠ "" then { company with ColorTheme := req.ColorTheme } else company
  if req.LogoURL ≠ "" then { company1 with LogoURL := req.LogoURL } else company1

/-- The tail of `UpdateCompany` after the domain: color theme, logo, save and answer. -/
def finishUpdate (env : Env) (w : World) (c : Context) (req : UpdateCompanyRequest)
    (company : Company) : World × Context :=
  match DatabaseProvider.UpdateCompany env w (applyLook req company) with
  | (some _, _, w1) =>
    (w1, c.JSON StatusInternalServerError
      { Success := false, Error := "Failed to update company" })
  | (none, company3, w1) =>
    (w1, c.JSON StatusOK
      { Success := true, Message := "Company updated successfully",
        Data := updatedPayload company3 })

/-- Model of `CompanyHandler.UpdateCompany`; `bind` is the outcome of
`c.ShouldBindJSON(&req)`. -/
def UpdateCompany (bind : Except String UpdateCompanyRequest) : HandlerFunc := fun env w c =>
  match bind with
  | .error err =>
    (w, c.JSON StatusBadRequest { Success := false, Error := "Invalid request data: " ++ err })
  | .ok req =>
    match c.Get "user" with
    | none =>
      (w, c.JSON StatusUnauthorized { Success := false, Error := "User not authenticated" })
    | some user =>
      match DatabaseProvider.GetCompany env w user.CompanyID with
      | (.error _, w1) =>
        (w1, c.JSON StatusNotFound { Success := false, Error := "Company not found" })
      | (.ok company, w1) =>
        if user.Role ≠ "admin" then
          (w1, c.JSON StatusForbidden
            { Success := false, Error := "Only admins can update company settings" })
        else
          let company1 := if req.Name ≠ "" then { company with Name := req.Name } else company
          if req.Domain ≠ "" ∧ req.Domain ≠ company1.Domain then
            match DatabaseProvider.GetCompanyByDomain env w1 req.Domain with
            | (.ok _, w2) =>
              (w2, c.JSON StatusConflict { Success := false, Error := "Domain already taken" })
            | (.error _, w2) => finishUpdate env w2 c req { company1 with Domain := req.Domain }
          else finishUpdate env w1 c req company1

end CompanyHandler

/-! ## Registration (`internal/handlers/auth.go`) -/

namespace AuthHandler

/-- The payload `gin.H` of `Register`. -/
def registeredPayload (token : String) (user : AuthUser) : List (String × JField) :=
  [("token", .val (.str token)),
   ("user", .obj
    [("id", .str user.ID), ("email", .str user.Email), ("name", .str user.Name),
     ("picture", .str user.Picture), ("role", .str "admin")])]

/-- Model of `AuthHandler.Register`; `bind` is the outcome of `c.ShouldBindJSON(&req)`. -/
def Register (bind : Except String RegisterRequest) : HandlerFunc := fun env w c =>
  match bind with
  | .error err =>
    (w, c.JSON StatusBadRequest { Success := false, Error := "Invalid request data: " ++ err })
  | .ok req =>
    match DatabaseProvider.GetUserByEmail env w req.Email with
    | (.ok _, w1) =>
      (w1, c.JSON StatusConflict { Success := false, Error := "User already exists" })
    | (.error _, w1) =>
      match AuthProvider.Register env w1 req.Email req.Password req.Name with
      | (.error e, w2) =>
        (w2, c.JSON StatusInternalServerError
          { Success := false, Error := "Failed to register user: " ++ e })
      | (.ok user, w2) =>
        let dbUser : User :=
          { ID := user.ID, Email := user.Email, Name := user.Name, Picture := user.Picture,
            Role := "admin", IsActive := true, CreatedAt := user.CreatedAt,
            UpdatedAt := user.UpdatedAt }
        match DatabaseProvider.CreateUser env w2 dbUser with
        | (some _, _, w3) =>
          (w3, c.JSON StatusInternalServerError
            { Success := false, Error := "Failed to create user in database" })
        | (none, _, w3) =>
          match AuthProvider.GenerateToken env w3 user with
          | (.error _, w4) =>
            (w4, c.JSON StatusInternalServerError
              { Success := false, Error := "Failed to generate token" })
          | (.ok token, w4) =>
            (w4, c.JSON StatusCreated
              { Success := true, Message := "Registration successful",
                Data := registeredPayload token user })

end AuthHandler

/-! ## Vocabulary and sample data for tenants -/

/-- The entry `key` of the payload of the response written so far. -/
def Context.dataField (c : Context) (key : String) : Option JField :=
  match c.written with
  | some r =>
    match r.body.Data.find? (fun kv => kv.1 == key) with
    | some kv => some kv.2
    | none => none
  | none => none

/-- The five milestones of the aggregate progress, as the specification lists them. -/
def milestones (company : Company) : List Bool :=
  [decide (company.Domain ≠ ""), decide (company.ColorTheme ≠ ""), company.UsersInvited,
   company.SubscriptionActive, company.DownloadReady]

/-- The eight feature keys of the configuration status. -/
def featureKeys : List String :=
  ["website_security", "malware_security", "data_controls", "reporting",
   "browser_customization", "subscription", "users_invited", "download_ready"]

namespace Sample

/-- Tenant `A`: domain and theme set, download ready, nothing else. -/
def companyA : Company :=
  { ID := "A", Name := "Acme", Domain := "a.example", ColorTheme := "blue",
    AdminUserID := "alice", Status := "trial", DownloadReady := true }

/-- Tenant `B`, with the domain `b.example`. -/
def companyB : Company :=
  { ID := "B", Name := "Bolt", Domain := "b.example", ColorTheme := "red",
    AdminUserID := "x1", Status := "trial" }

/-- A store with the tenants `A` and `B` and the users `alice`, `bob` and `erin` of `A`. -/
def tenantStore : World :=
  { users := [alice, bob, erin], companies := [companyA, companyB] }

/-- A request whose scope holds the principal `p` under `key`. -/
def scopeWith (key : String) (p : UserContext) : Context :=
  { Keys := [(key, p)] }

/-- The identity capability refuses to delete `bob`; nothing else fails. -/
def identityDownEnv : Env :=
  { ValidateToken := fun _ => .error "invalid token",
    fails := fun call =>
      if call = .authDeleteUser "bob" then some "identity provider unavailable" else none }

end Sample

/-- The partial-update convention: a non-empty request value overwrites, the empty string
keeps the old value. -/
def overwrite (request old : String) : String :=
  if request ≠ "" then request else old

namespace Sample

/-- The record of `dave`: an active member of tenant `A` with role `user`. -/
def dave : User :=
  { ID := "dave", Email := "dave@a.example", Name := "Dave", CompanyID := "A",
    Role := "user", IsActive := true }

/-- The principal of `dave`. -/
def davePrincipal : UserContext :=
  { UserID := "dave", Email := "dave@a.example", CompanyID := "A", Role := "user" }

/-- A store with the tenants `A` and `B` and the users `alice` and `dave` of `A`. -/
def daveStore : World :=
  { users := [alice, dave], companies := [companyA, companyB] }

/-- The principal of `gina`: role `user`, member of no tenant. -/
def newcomer : UserContext :=
  { UserID := "gina", Email := "gina@z.example", CompanyID := "", Role := "user" }

/-- No capability call fails; `uuid.New()` yields `T2`. -/
def uuidEnv : Env :=
  { ValidateToken := fun _ => .error "invalid token", uuid := fun _ => "T2" }

end Sample

/-! ## Sample data for registration -/

namespace Sample

/-- A registration for the address `A@x.example`. -/
def registerA : RegisterRequest :=
  { Email := "A@x.example", Password := "pw123456", Name := "A" }

end Sample

/-! ## Explicit step progress and the remaining setup handlers -/

namespace DatabaseProvider

/-- Model of `GetSetupProgress(ctx, companyID)`: a missing document is answered with the
default progress, not with an error. -/
def GetSetupProgress (env : Env) (w : World) (companyID : String) :
    Except String CompanySetupProgress × World :=
  match env.fails (.dbGetSetupProgress companyID) with
  | some e => (.error e, w.record (.dbGetSetupProgress companyID))
  | none =>
    match getDoc CompanySetupProgress.CompanyID companyID w.setupProgress with
    | some progress => (.ok progress, w.record (.dbGetSetupProgress companyID))
    | none =>
      (.ok { CompanyID := companyID, Step := "domain", Progress := 0, LastUpdated := env.now },
        w.record (.dbGetSetupProgress companyID))

/-- Model of `UpdateSetupProgress(ctx, progress)`: stamps `LastUpdated`, then sets the
document of the tenant. -/
def UpdateSetupProgress (env : Env) (w : World) (progress : CompanySetupProgress) :
    Option String × World :=
  let progress1 := { progress with LastUpdated := env.now }
  match env.fails (.dbUpdateSetupProgress progress1) with
  | some e => (some e, w.record (.dbUpdateSetupProgress progress1))
  | none =>
    (none, { w with
      setupProgress := setDoc CompanySetupProgress.CompanyID progress1 w.setupProgress,
      log := w.log ++ [.dbUpdateSetupProgress progress1] })

/-- Model of `UpdateSetupStep(ctx, companyID, step, progress)`. -/
def UpdateSetupStep (env : Env) (w : World) (companyID step : String) (progress : Int) :
    Option String × World :=
  match GetSetupProgress env w companyID with
  | (.error e, w1) => (some e, w1)
  | (.ok setupProgress, w1) =>
    UpdateSetupProgress env w1
      { setupProgress with Step := step, Progress := progress, LastUpdated := env.now }

/-- Model of `GetPendingInvitationsByCompany(ctx, companyID)`: the query
`company_id == companyID` and `status == "pending"`; the loop leaves at the first iterator
error and the function returns what it has, never an error. -/
def GetPendingInvitationsByCompany (env : Env) (w : World) (companyID : String) :
    Except String (List Invitation) × World :=
  match env.fails (.dbGetPendingInvitationsByCompany companyID) with
  | some _ => (.ok [], w.record (.dbGetPendingInvitationsByCompany companyID))
  | none =>
    (.ok (whereEq Invitation.document "status" (.str "pending")
        (whereEq Invitation.document "company_id" (.str companyID) w.invitations)),
      w.record (.dbGetPendingInvitationsByCompany companyID))

/-- Model of `ResendInvitation(ctx, invitationID)`. -/
def ResendInvitation (env : Env) (w : World) (invitationID : String) : Option String × World :=
  match GetInvitation env w invitationID with
  | (.error e, w1) => (some e, w1)
  | (.ok invitation, w1) =>
    UpdateInvitation env w1
      { invitation with SentAt := env.now, SentCount := invitation.SentCount + 1,
                        LastSentAt := env.now }

end DatabaseProvider

/-- The check of the tag `required` on a string field, as the validator that
`c.ShouldBindJSON` runs defines it: the field must differ from the zero value of its type. -/
def requiredString (field : String) : Bool := field != ""

/-- The check of the tag `required` on an `int` field: the zero value of `int` is `0`. -/
def requiredInt (field : Int) : Bool := field != 0

/-- The checks of the tags `min=0` and `max=100` on an `int` field. -/
def minMaxInt (lo hi field : Int) : Bool := decide (lo ≤ field) && decide (field ≤ hi)

namespace SetupHandler

/-- Outcome of `c.ShouldBindJSON(&req)` in `UpdateSetupStep` for a body that decodes to
`(step, progress)`: the tags are `required` on `Step` and `required,min=0,max=100` on
`Progress` (lines 65-68). -/
def bindSetupStep (body : SetupStepRequest) : Except String SetupStepRequest :=
  if !requiredString body.Step then
    .error "Key: 'Step' Error:Field validation for 'Step' failed on the 'required' tag"
  else if !requiredInt body.Progress then
    .error "Key: 'Progress' Error:Field validation for 'Progress' failed on the 'required' tag"
  else if !minMaxInt 0 100 body.Progress then
    .error "Key: 'Progress' Error:Field validation for 'Progress' failed on the 'min' or 'max' tag"
  else .ok body

/-- The payload of `GetSetupProgress`: the record `CompanySetupProgress`. -/
def progressPayload (progress : CompanySetupProgress) : List (String × JField) :=
  [("company_id", .val (.str progress.CompanyID)), ("step", .val (.str progress.Step)),
   ("progress", .val (.int progress.Progress)),
   ("domain_provided", .val (.bool progress.DomainProvided)),
   ("customization_completed", .val (.bool progress.CustomizationCompleted)),
   ("invitations_sent", .val (.bool progress.InvitationsSent)),
   ("subscription_started", .val (.bool progress.SubscriptionStarted)),
   ("setup_completed", .val (.bool progress.SetupCompleted)),
   ("last_updated", .val (.time progress.LastUpdated))]

/-- Model of `SetupHandler.GetSetupProgress`. -/
def GetSetupProgress : HandlerFunc := fun env w c =>
  match c.Get "user_context" with
  | none => (w, c.JSON StatusUnauthorized { Success := false, Error := "User context not found" })
  | some uc =>
    match DatabaseProvider.GetSetupProgress env w uc.CompanyID with
    | (.error _, w1) =>
      (w1, c.JSON StatusInternalServerError
        { Success := false, Error := "Failed to get setup progress" })
    | (.ok progress, w1) =>
      (w1, c.JSON StatusOK { Success := true, Data := progressPayload progress })

/-- Model of `SetupHandler.UpdateSetupStep`; `bind` is the outcome of
`c.ShouldBindJSON(&req)`. -/
def UpdateSetupStep (bind : Except String SetupStepRequest) : HandlerFunc := fun env w c =>
  match c.Get "user_context" with
  | none => (w, c.JSON StatusUnauthorized { Success := false, Error := "User context not found" })
  | some uc =>
    match bind with
    | .error _ => (w, c.JSON StatusBadRequest { Success := false, Error := "Invalid request data" })
    | .ok req =>
      match DatabaseProvider.UpdateSetupStep env w uc.CompanyID req.Step req.Progress with
      | (some _, w1) =>
        (w1, c.JSON StatusInternalServerError
          { Success := false, Error := "Failed to update setup step" })
      | (none, w1) =>
        (w1, c.JSON StatusOK { Success := true, Message := "Setup step updated successfully" })

/-- Model of `SetupHandler.UpdateConfigurationStatus`. -/
def UpdateConfigurationStatus (bind : Except String ConfigurationStatusRequest) : HandlerFunc :=
  fun env w c =>
  match c.Get "user_context" with
  | none => (w, c.JSON StatusUnauthorized { Success := false, Error := "User context not found" })
  | some uc =>
    match bind with
    | .error _ => (w, c.JSON StatusBadRequest { Success := false, Error := "Invalid request data" })
    | .ok req =>
      match DatabaseProvider.UpdateCompanyConfigurationStatus env w uc.CompanyID req.Feature
          req.Status with
      | (some _, w1) =>
        (w1, c.JSON StatusInternalServerError
          { Success := false, Error := "Failed to update configuration status" })
      | (none, w1) =>
        (w1, c.JSON StatusOK
          { Success := true, Message := "Configuration status updated successfully" })

/-- Model of `SetupHandler.GenerateShortcuts`. -/
def GenerateShortcuts (bind : Except String GenerateShortcutsRequest) : HandlerFunc :=
  fun env w c =>
  match c.Get "user_context" with
  | none => (w, c.JSON StatusUnauthorized { Success := false, Error := "User context not found" })
  | some uc =>
    match bind with
    | .error _ => (w, c.JSON StatusBadRequest { Success := false, Error := "Invalid request data" })
    | .ok req =>
      match DatabaseProvider.GenerateShortcutsForDomain env w uc.CompanyID req.Domain with
      | (some _, w1) =>
        (w1, c.JSON StatusInternalServerError
          { Success := false, Error := "Failed to generate shortcuts" })
      | (none, w1) =>
        (w1, c.JSON StatusOK { Success := true, Message := "Shortcuts generated successfully" })

/-- The loop of `NudgeUsers`: resend each invitation, going on after an error. -/
def resendAll (env : Env) (w : World) (invitations : List Invitation) : World :=
  invitations.foldl (fun acc invitation =>
    (DatabaseProvider.ResendInvitation env acc invitation.ID).2) w

/-- Model of `SetupHandler.NudgeUsers`. -/
def NudgeUsers (bind : Except String NudgeUsersRequest) : HandlerFunc := fun env w c =>
  match c.Get "user_context" with
  | none => (w, c.JSON StatusUnauthorized { Success := false, Error := "User context not found" })
  | some uc =>
    match bind with
    | .error _ => (w, c.JSON StatusBadRequest { Success := false, Error := "Invalid request data" })
    | .ok _ =>
      match DatabaseProvider.GetPendingInvitationsByCompany env w uc.CompanyID with
      | (.error _, w1) =>
        (w1, c.JSON StatusInternalServerError
          { Success := false, Error := "Failed to get pending invitations" })
      | (.ok invitations, w1) =>
        (resendAll env w1 invitations,
          c.JSON StatusOK { Success := true, Message := "User nudges sent successfully" })

end SetupHandler

/-- A handler that starts by reading the principal under the key `user_context` and answers
401 `User context not found` when the key is absent. -/
def needsUserContext (h : HandlerFunc) : Prop :=
  ∀ env w c, c.Get "user_context" = none →
    h env w c =
      (w, c.JSON StatusUnauthorized { Success := false, Error := "User context not found" })

/-- The response 401 `User context not found`. -/
def noUserContext : Response :=
  { code := StatusUnauthorized, body := { Success := false, Error := "User context not found" } }

namespace Sample

/-- What a handler answers to the request `Authorization: Bearer tok-alice` when mounted
behind `Authenticate` with the database provider set. -/
def behindAuthenticate (h : HandlerFunc) : Context :=
  (AuthMiddleware.Authenticate (mainAuthMiddleware.SetDatabaseProvider .provider) h
    Sample.tokenEnv Sample.tenantStore (Sample.bearer "tok-alice")).2

/-- The same behind `Authenticate` as `main` builds it. -/
def behindMainAuthenticate (h : HandlerFunc) : Context :=
  (AuthMiddleware.Authenticate mainAuthMiddleware h Sample.tokenEnv Sample.tenantStore
    (Sample.bearer "tok-alice")).2

/-- An identity capability that is down: `Register` returns the error `text`. -/
def registerDownEnv (text : String) : Env :=
  { ValidateToken := fun _ => .error "invalid token", Register := fun _ _ _ => .error text }

end Sample

/-! ## Vocabulary and sample data for the user store -/

/-- The tenant has at least one user with role admin who is active. -/
def hasActiveAdmin (companyID : String) (users : List User) : Bool :=
  users.any (fun u => u.CompanyID == companyID && u.Role == "admin" && u.IsActive)

namespace Sample

/-- An invitation of `alice`, the admin of tenant `A`, to tenant `T`, pending, expiring at
instant 100. -/
def invitationM : Invitation :=
  { ID := "i3", Email := "alice@a.example", CompanyID := "T", InvitedBy := "tom",
    Token := "M", Status := "pending", ExpiresAt := 100 }

/-- The store of `alice` and `bob` with the invitation of `alice` to tenant `T`. -/
def moveStore : World :=
  { users := [alice, bob], invitations := [invitationM] }

end Sample

namespace Sample

/-- The record of `frank`: registered like `carol` (role admin, no tenant). -/
def frank : User :=
  { ID := "frank", Email := "frank@y.example", Name := "Frank", CompanyID := "",
    Role := "admin", IsActive := true }

/-- A store with two registered users who belong to no tenant. -/
def registeredStore : World :=
  { users := [carol, frank] }

/-- A request of `carol` on the user id `frank`. -/
def carolOnFrank : Context :=
  { Params := [("id", "frank")], Keys := [("user", carolPrincipal)] }

/-- An identity provider that validates the token of `carol`. -/
def carolTokenEnv : Env :=
  { ValidateToken := fun token =>
      if token = "tok-carol" then
        .ok { ID := "carol", Email := "carol@x.example", Name := "Carol" }
      else .error "invalid token" }

/-- The request `GET /users/frank` with the bearer token of `carol`. -/
def carolBearerOnFrank : Context :=
  { Authorization := "Bearer tok-carol", Params := [("id", "frank")] }

/-- The persistence capability refuses every write of an invitation; the clock reads 50. -/
def invitationWriteDownEnv : Env :=
  { ValidateToken := fun _ => .error "invalid token", now := 50,
    fails := fun call =>
      match call with
      | .dbUpdateInvitation _ => some "deadline exceeded"
      | _ => none }

end Sample

/-! ## Vocabulary for the generated shortcut ids -/

/-- The suffixes of the four ids built by `GenerateShortcutsForDomain`. -/
def generatedSuffixes : List String := ["gmail", "calendar", "drive", "company"]

/-- The id `fmt.Sprintf("shortcut_%s_" + suffix, companyID)`. -/
def generatedID (companyID suffix : String) : String :=
  "shortcut_" ++ companyID ++ "_" ++ suffix

/-! ## The in-memory identity provider (`internal/auth/custom.go`) -/

/-- The struct `CustomProvider`: the entries of the map `users` (key, user), listed in the
order in which a `range` over the map visits them. -/
structure CustomProvider where
  users : List (String × AuthUser) := []
  deriving DecidableEq, Repr

namespace CustomProvider

/-- Model of `CustomProvider.Authenticate(ctx, email, password)`: the first user met with
the e-mail is returned; the password is not read. -/
def Authenticate (c : CustomProvider) (email _password : String) : Except String AuthUser :=
  match c.users.find? (fun kv => kv.2.Email == email) with
  | some kv => .ok kv.2
  | none => .error "invalid credentials"

/-- Model of `CustomProvider.Register(ctx, email, password, name)`; `id` is the value of
`uuid.New().String()` and `now` the reading of `time.Now()`. Returns the result and the
provider afterwards. -/
def Register (c : CustomProvider) (email _password name id : String) (now : Nat) :
    Except String AuthUser × CustomProvider :=
  if c.users.any (fun kv => kv.2.Email == email) then (.error "user already exists", c)
  else
    let user : AuthUser :=
      { ID := id, Email := email, Name := name, IsActive := true, CreatedAt := now,
        UpdatedAt := now }
    (.ok user, { users := setDoc Prod.fst (user.ID, user) c.users })

end CustomProvider

namespace Sample

/-- The identity capability played by the in-memory provider in the state `state`;
`uuid.New()` yields `u1` and the clock reads 0. -/
def customEnv (state : CustomProvider) : Env :=
  { ValidateToken := fun _ => .error "invalid token",
    Register := fun email password name => (state.Register email password name "u1" 0).1 }

/-- The in-memory provider after the registration of `A@x.example`. -/
def customAfterA : CustomProvider :=
  (CustomProvider.Register {} "A@x.example" "pw123456" "A" "u1" 0).2

end Sample

/-! ## The expiry sweep (`DeleteExpiredInvitations`) -/

namespace DatabaseProvider

/-- The query of `DeleteExpiredInvitations` evaluated at `now`: the documents whose field
`expires_at` holds a timestamp before `now`, whatever their status. -/
def expiredInvitations (now : Nat) (invitations : List Invitation) : List Invitation :=
  whereBefore Invitation.document "expires_at" now invitations

/-- The deletes of a committed batch: each `batch.Delete(doc.Ref)` in order. -/
def deleteDocs (ids : List String) (docs : List Invitation) : List Invitation :=
  ids.foldl (fun acc id => deleteDoc Invitation.ID id acc) docs

/-- Model of `DeleteExpiredInvitations(ctx)`: the loop over the query leaves at the first
iterator error, then the batch of deletes is committed. -/
def DeleteExpiredInvitations (env : Env) (w : World) : Option String × World :=
  let selected :=
    match env.fails (.dbQueryExpiredInvitations env.now) with
    | some _ => []
    | none => expiredInvitations env.now w.invitations
  let ids := selected.map Invitation.ID
  match env.fails (.dbCommitDeletes ids) with
  | some e =>
    (some e, { w with log := w.log ++ [.dbQueryExpiredInvitations env.now, .dbCommitDeletes ids] })
  | none =>
    (none, { w with invitations := deleteDocs ids w.invitations,
                    log := w.log ++ [.dbQueryExpiredInvitations env.now, .dbCommitDeletes ids] })

end DatabaseProvider

/-- The response 400 `Invitation has expired` of `AcceptInvitation`. -/
def expiredAnswer : Response :=
  { code := StatusBadRequest, body := { Success := false, Error := "Invitation has expired" } }

/-! ## Pagination of `ListCompanies` (`internal/handlers/company.go`) -/

/-- The value of an arithmetic result in the Go type `int` (64 bits, two's complement):
overflow wraps around. -/
def wrapInt (x : Int) : Int :=
  (x + 9223372036854775808) % 18446744073709551616 - 9223372036854775808

/-- The largest value of the Go type `int` (`math.MaxInt64`). -/
def maxInt : Int := 9223372036854775807

/-- The smallest value of the Go type `int` (`math.MinInt64`). -/
def minInt : Int := -9223372036854775808

namespace CompanyHandler

/-- The pagination of `ListCompanies` (lines 308-318); `page` and `limit` are the results
of `strconv.Atoi` on the query values. Returns `page` and `limit` after the two adjustments
and the `offset`: the second and the third are the arguments of
`databaseProvider.ListCompanies(ctx, limit, offset)`. -/
def pagination (page limit : Int) : Int × Int × Int :=
  let page1 := if page < 1 then 1 else page
  let limit1 := if limit < 1 ∨ limit > 100 then 10 else limit
  let offset := wrapInt (wrapInt (page1 - 1) * limit1)
  (page1, limit1, offset)

end CompanyHandler

/-! # Properties -/

/-! ## Capability lemmas -/

theorem noDbWrite_refl (w : World) : noDbWrite w w := by
  simp [noDbWrite]

theorem noDbWrite_record (w : World) (call : Call) (h : call.isDbWrite = false) :
    noDbWrite w (w.record call) := by
  simp [noDbWrite, World.record, h]

theorem dbGetUser_eq (env : Env) (w : World) (id : String) :
    DatabaseProvider.GetUser env w id =
      ((DatabaseProvider.GetUser env w id).1, w.record (.dbGetUser id)) := by
  unfold DatabaseProvider.GetUser
  split
  · rfl
  · split <;> rfl

theorem dbGetUsersByCompany_eq (env : Env) (w : World) (id : String) :
    DatabaseProvider.GetUsersByCompany env w id =
      ((DatabaseProvider.GetUsersByCompany env w id).1, w.record (.dbGetUsersByCompany id)) := by
  unfold DatabaseProvider.GetUsersByCompany
  split <;> rfl

theorem dbGetInvitation_eq (env : Env) (w : World) (id : String) :
    DatabaseProvider.GetInvitation env w id =
      ((DatabaseProvider.GetInvitation env w id).1, w.record (.dbGetInvitation id)) := by
  unfold DatabaseProvider.GetInvitation
  split
  · rfl
  · split <;> rfl

theorem dbGetInvitationByToken_eq (env : Env) (w : World) (token : String) :
    DatabaseProvider.GetInvitationByToken env w token =
      ((DatabaseProvider.GetInvitationByToken env w token).1,
        w.record (.dbGetInvitationByToken token)) := by
  unfold DatabaseProvider.GetInvitationByToken
  split
  · rfl
  · split <;> rfl

theorem dbGetBrowserShortcut_eq (env : Env) (w : World) (id : String) :
    DatabaseProvider.GetBrowserShortcut env w id =
      ((DatabaseProvider.GetBrowserShortcut env w id).1,
        w.record (.dbGetBrowserShortcut id)) := by
  unfold DatabaseProvider.GetBrowserShortcut
  split
  · rfl
  · split <;> rfl

/-! ## Cross-tenant isolation of the by-id operations -/

theorem GetUser_forbids (env : Env) (w : World) (c : Context) (p : UserContext) (u : User)
    (hp : c.Get "user" = some p)
    (hu : (DatabaseProvider.GetUser env w (c.Param "id")).1 = .ok u)
    (hne : u.CompanyID ≠ p.CompanyID) : Forbids UserHandler.GetUser env w c := by
  unfold Forbids UserHandler.GetUser
  rw [hp]
  simp only []
  rw [dbGetUser_eq, hu]
  simp [hne, Context.status, Context.JSON, noDbWrite_record, Call.isDbWrite]

theorem UpdateUser_forbids (env : Env) (w : World) (c : Context) (p : UserContext) (u : User)
    (req : UpdateUserRequest) (hp : c.Get "user" = some p)
    (hu : (DatabaseProvider.GetUser env w (c.Param "id")).1 = .ok u)
    (hne : u.CompanyID ≠ p.CompanyID) : Forbids (UserHandler.UpdateUser (.ok req)) env w c := by
  unfold Forbids UserHandler.UpdateUser
  simp only []
  rw [hp]
  simp only []
  rw [dbGetUser_eq, hu]
  simp [hne, Context.status, Context.JSON, noDbWrite_record, Call.isDbWrite]

theorem UpdateUser_bind_error (env : Env) (w : World) (c : Context) (err : String) :
    UserHandler.UpdateUser (.error err) env w c =
      (w, c.JSON StatusBadRequest
        { Success := false, Error := "Invalid request data: " ++ err }) := rfl

theorem DeleteUser_forbids (env : Env) (w : World) (c : Context) (p : UserContext) (u : User)
    (hp : c.Get "user" = some p)
    (hu : (DatabaseProvider.GetUser env w (c.Param "id")).1 = .ok u)
    (hne : u.CompanyID ≠ p.CompanyID) : Forbids UserHandler.DeleteUser env w c := by
  unfold Forbids UserHandler.DeleteUser
  rw [hp]
  simp only []
  by_cases hr : p.Role = "admin"
  · rw [dbGetUser_eq, hu]
    simp [hr, hne, Context.status, Context.JSON, noDbWrite_record, Call.isDbWrite]
  · simp [hr, Context.status, Context.JSON, noDbWrite_refl]

theorem UpdateShortcut_forbids (env : Env) (w : World) (c : Context) (p : UserContext)
    (s : BrowserShortcut) (req : BrowserShortcutRequest) (hp : c.Get "user" = some p)
    (hs : (DatabaseProvider.GetBrowserShortcut env w (c.Param "id")).1 = .ok s)
    (hne : s.CompanyID ≠ p.CompanyID) :
    Forbids (BrowserShortcutHandler.UpdateShortcut (.ok req)) env w c := by
  unfold Forbids BrowserShortcutHandler.UpdateShortcut
  simp only []
  rw [hp]
  simp only []
  by_cases hr : p.Role = "admin"
  · rw [dbGetBrowserShortcut_eq, hs]
    simp [hr, hne, Context.status, Context.JSON, noDbWrite_record, Call.isDbWrite]
  · simp [hr, Context.status, Context.JSON, noDbWrite_refl]

theorem UpdateShortcut_bind_error (env : Env) (w : World) (c : Context) (err : String) :
    BrowserShortcutHandler.UpdateShortcut (.error err) env w c =
      (w, c.JSON StatusBadRequest
        { Success := false, Error := "Invalid request data: " ++ err }) := rfl

theorem DeleteShortcut_forbids (env : Env) (w : World) (c : Context) (p : UserContext)
    (s : BrowserShortcut) (hp : c.Get "user" = some p)
    (hs : (DatabaseProvider.GetBrowserShortcut env w (c.Param "id")).1 = .ok s)
    (hne : s.CompanyID ≠ p.CompanyID) :
    Forbids BrowserShortcutHandler.DeleteShortcut env w c := by
  unfold Forbids BrowserShortcutHandler.DeleteShortcut
  rw [hp]
  simp only []
  by_cases hr : p.Role = "admin"
  · rw [dbGetBrowserShortcut_eq, hs]
    simp [hr, hne, Context.status, Context.JSON, noDbWrite_record, Call.isDbWrite]
  · simp [hr, Context.status, Context.JSON, noDbWrite_refl]

theorem DeleteInvitation_forbids (env : Env) (w : World) (c : Context) (p : UserContext)
    (i : Invitation) (hp : c.Get "user" = some p)
    (hi : (DatabaseProvider.GetInvitation env w (c.Param "id")).1 = .ok i)
    (hne : i.CompanyID ≠ p.CompanyID) :
    Forbids InvitationHandler.DeleteInvitation env w c := by
  unfold Forbids InvitationHandler.DeleteInvitation
  rw [hp]
  simp only []
  by_cases hr : p.Role = "admin"
  · rw [dbGetInvitation_eq, hi]
    simp [hr, hne, Context.status, Context.JSON, noDbWrite_record, Call.isDbWrite]
  · simp [hr, Context.status, Context.JSON, noDbWrite_refl]

/-- C1, as stated, fails: a principal of tenant `A` sends `PUT /shortcuts/x1` for a stored
shortcut of tenant `B` with a body that does not bind; `UpdateShortcut` answers 400, not
Forbidden (403), because the body is bound before anything else. -/
theorem cross_tenant_update_unbound_body_is_400 :
    Sample.requestA.Get "user" = some Sample.adminA ∧
    (DatabaseProvider.GetBrowserShortcut quietEnv Sample.storeB
        (Sample.requestA.Param "id")).1 =
      .ok { ID := "x1", CompanyID := "B", Name := "Mail", URL := "https://mail.b.example" } ∧
    "B" ≠ Sample.adminA.CompanyID ∧
    (BrowserShortcutHandler.UpdateShortcut (.error "EOF") quietEnv Sample.storeB
        Sample.requestA).2.status = StatusBadRequest ∧
    ¬ Forbids (BrowserShortcutHandler.UpdateShortcut (.error "EOF")) quietEnv Sample.storeB
        Sample.requestA :=
  ⟨by decide, rfl, by decide, by decide, by decide⟩

/-- C1 (amended): for a principal `p` of the request and a stored entity the persistence
capability returns for the id of the route, whose tenant id differs from the one of `p`:
`GetUser`, `DeleteUser`, `DeleteShortcut` and `DeleteInvitation` answer Forbidden (403), and
so do `UpdateUser` and `UpdateShortcut` once their request body has bound; a body that does
not bind is answered 400 first. In every one of these cases nothing is written to or deleted
from the persistence capability. -/
theorem cross_tenant_by_id_forbidden (env : Env) (w : World) (c : Context) (p : UserContext)
    (hp : c.Get "user" = some p) :
    (∀ u : User, (DatabaseProvider.GetUser env w (c.Param "id")).1 = .ok u →
      u.CompanyID ≠ p.CompanyID →
        Forbids UserHandler.GetUser env w c ∧
        (∀ req, Forbids (UserHandler.UpdateUser (.ok req)) env w c) ∧
        Forbids UserHandler.DeleteUser env w c) ∧
    (∀ s : BrowserShortcut,
      (DatabaseProvider.GetBrowserShortcut env w (c.Param "id")).1 = .ok s →
      s.CompanyID ≠ p.CompanyID →
        (∀ req, Forbids (BrowserShortcutHandler.UpdateShortcut (.ok req)) env w c) ∧
        Forbids BrowserShortcutHandler.DeleteShortcut env w c) ∧
    (∀ i : Invitation, (DatabaseProvider.GetInvitation env w (c.Param "id")).1 = .ok i →
      i.CompanyID ≠ p.CompanyID →
        Forbids InvitationHandler.DeleteInvitation env w c) ∧
    (∀ err,
      (UserHandler.UpdateUser (.error err) env w c).2.status = StatusBadRequest ∧
      noDbWrite w (UserHandler.UpdateUser (.error err) env w c).1 ∧
      (BrowserShortcutHandler.UpdateShortcut (.error err) env w c).2.status =
        StatusBadRequest ∧
      noDbWrite w (BrowserShortcutHandler.UpdateShortcut (.error err) env w c).1) := by
  refine ⟨fun u hu hne => ⟨GetUser_forbids env w c p u hp hu hne,
      fun req => UpdateUser_forbids env w c p u req hp hu hne,
      DeleteUser_forbids env w c p u hp hu hne⟩,
    fun s hs hne => ⟨fun req => UpdateShortcut_forbids env w c p s req hp hs hne,
      DeleteShortcut_forbids env w c p s hp hs hne⟩,
    fun i hi hne => DeleteInvitation_forbids env w c p i hp hi hne, fun err => ?_⟩
  rw [UpdateUser_bind_error, UpdateShortcut_bind_error]
  exact ⟨rfl, noDbWrite_refl w, rfl, noDbWrite_refl w⟩

/-- Witness of C1 (amended): the admin of tenant `A` on the user, shortcut and invitation
`x1` of tenant `B`. -/
theorem cross_tenant_by_id_forbidden_witness :
    Sample.requestA.Get "user" = some Sample.adminA ∧
    Forbids UserHandler.GetUser quietEnv Sample.storeB Sample.requestA ∧
    Forbids (UserHandler.UpdateUser (.ok { Name := "Mallory" })) quietEnv Sample.storeB
      Sample.requestA ∧
    Forbids UserHandler.DeleteUser quietEnv Sample.storeB Sample.requestA ∧
    Forbids (BrowserShortcutHandler.UpdateShortcut (.ok { Name := "Evil", URL := "http://e" }))
      quietEnv Sample.storeB Sample.requestA ∧
    Forbids BrowserShortcutHandler.DeleteShortcut quietEnv Sample.storeB Sample.requestA ∧
    Forbids InvitationHandler.DeleteInvitation quietEnv Sample.storeB Sample.requestA :=
  have h := cross_tenant_by_id_forbidden quietEnv Sample.storeB Sample.requestA Sample.adminA
    (by decide)
  have hu := h.1 { ID := "x1", Email := "bob@b.example", CompanyID := "B", Role := "user",
                   IsActive := true } rfl (by decide)
  have hs := h.2.1 { ID := "x1", CompanyID := "B", Name := "Mail",
                     URL := "https://mail.b.example" } rfl (by decide)
  have hi := h.2.2.1 { ID := "x1", Email := "carol@b.example", CompanyID := "B",
                       Token := "k1", Status := "pending", ExpiresAt := 100 }
    rfl (by decide)
  ⟨by decide, hu.1, hu.2.1 _, hu.2.2, hs.1 _, hs.2, hi⟩

/-! ## The bearer header -/

theorem splitChars_ne_nil (sep : Char) (cs : List Char) : splitChars sep cs ≠ [] := by
  induction cs with
  | nil => simp [splitChars]
  | cons c cs ih =>
    unfold splitChars
    split
    · simp
    · split <;> simp

theorem splitChars_single (sep : Char) (cs : List Char) (h : sep ∉ cs) :
    splitChars sep cs = [cs] := by
  induction cs with
  | nil => simp [splitChars]
  | cons c cs ih =>
    simp only [List.mem_cons, not_or] at h
    have hc : ¬ c = sep := fun e => h.1 e.symm
    simp [splitChars, hc, ih h.2]

theorem splitChars_pair (sep : Char) (a b : List Char) (ha : sep ∉ a) (hb : sep ∉ b) :
    splitChars sep (a ++ sep :: b) = [a, b] := by
  induction a with
  | nil => simp [splitChars, splitChars_single sep b hb]
  | cons c cs ih =>
    simp only [List.mem_cons, not_or] at ha
    have hc : ¬ c = sep := fun e => ha.1 e.symm
    simp [splitChars, hc, ih ha.2]

theorem splitChars_eq_single (sep : Char) (cs b : List Char)
    (h : splitChars sep cs = [b]) : cs = b ∧ sep ∉ b := by
  induction cs generalizing b with
  | nil =>
    simp only [splitChars, List.cons.injEq, and_true] at h
    subst h
    simp
  | cons c cs ih =>
    unfold splitChars at h
    split at h
    · simp only [List.cons.injEq] at h
      exact absurd h.2 (splitChars_ne_nil sep cs)
    · rename_i hc
      split at h
      · rename_i hnil
        exact absurd hnil (splitChars_ne_nil sep cs)
      · rename_i p ps hp
        simp only [List.cons.injEq, and_true] at h
        obtain ⟨hb, hps⟩ := h
        subst hb
        subst hps
        obtain ⟨h1, h2⟩ := ih p hp
        subst h1
        refine ⟨rfl, ?_⟩
        simp only [List.mem_cons, not_or]
        exact ⟨fun e => hc e.symm, h2⟩

theorem splitChars_eq_pair (sep : Char) (cs a b : List Char)
    (h : splitChars sep cs = [a, b]) : cs = a ++ sep :: b ∧ sep ∉ b := by
  induction cs generalizing a with
  | nil => simp [splitChars] at h
  | cons c cs ih =>
    unfold splitChars at h
    split at h
    · rename_i hc
      simp only [List.cons.injEq] at h
      obtain ⟨ha, hrest⟩ := h
      subst ha
      subst hc
      obtain ⟨h1, h2⟩ := splitChars_eq_single c cs b hrest
      subst h1
      exact ⟨rfl, h2⟩
    · split at h
      · rename_i hnil
        exact absurd hnil (splitChars_ne_nil sep cs)
      · rename_i p ps hp
        simp only [List.cons.injEq, and_true] at h
        obtain ⟨ha, hps⟩ := h
        subst ha
        subst hps
        obtain ⟨h1, h2⟩ := ih p hp
        subst h1
        exact ⟨rfl, h2⟩

/-- The format check of `Authenticate` passes only on `Bearer`, one space and a token
without space, and the token it extracts is that one. -/
theorem bearer_of_format (header : String)
    (h : ¬ ((stringsSplit header ' ').length ≠ 2 ∨
      (stringsSplit header ' ').getD 0 "" ≠ "Bearer")) :
    ∃ token : String, header = "Bearer " ++ token ∧ ' ' ∉ token.data ∧
      (stringsSplit header ' ').getD 1 "" = token := by
  simp only [not_or, not_not] at h
  obtain ⟨hlen, hfst⟩ := h
  unfold stringsSplit at hlen hfst ⊢
  match hs : splitChars ' ' header.data with
  | [] => simp [hs] at hlen
  | [_] => simp [hs] at hlen
  | _ :: _ :: _ :: _ => simp [hs] at hlen
  | [a, b] =>
    rw [hs] at hfst
    simp only [List.map_cons, List.map_nil, List.getD_cons_zero] at hfst
    obtain ⟨h1, h2⟩ := splitChars_eq_pair ' ' header.data a b hs
    refine ⟨String.mk b, ?_, h2, ?_⟩
    · apply String.ext
      rw [h1, String.data_append]
      have : a = "Bearer".data := by
        rw [← hfst]
      rw [this]
      rfl
    · simp

/-- A header made of `Bearer`, one space and a token without space (the empty token
included) splits into these two parts. -/
theorem format_of_bearer (token : String) (h : ' ' ∉ token.data) :
    stringsSplit ("Bearer " ++ token) ' ' = ["Bearer", token] := by
  unfold stringsSplit
  have : ("Bearer " ++ token).data = "Bearer".data ++ ' ' :: token.data := by
    rw [String.data_append]; rfl
  rw [this, splitChars_pair ' ' _ _ (by decide) h]
  rfl

theorem bearer_ne_empty (token : String) : "Bearer " ++ token ≠ "" := by
  intro h
  have := congrArg String.data h
  rw [String.data_append] at this
  simp at this

/-- With a well-formed header the middleware reaches `ValidateToken` with the token. -/
theorem Authenticate_bearer (m : AuthMiddleware) (next : HandlerFunc) (env : Env) (w : World)
    (c : Context) (token : String) (hc : c.Authorization = "Bearer " ++ token)
    (hsp : ' ' ∉ token.data) :
    AuthMiddleware.Authenticate m next env w c =
      match AuthProvider.ValidateToken env w token with
      | (.error _, w1) =>
        (w1, (c.JSON StatusUnauthorized { Success := false, Error := "Invalid token" }).Abort)
      | (.ok user, w1) =>
        match m.databaseProvider with
        | some _ =>
          match DatabaseProvider.GetUser env w1 user.ID with
          | (.error _, w2) =>
            (w2, (c.JSON StatusUnauthorized
              { Success := false, Error := "User not found" }).Abort)
          | (.ok dbUser, w2) =>
            if !dbUser.IsActive then
              (w2, (c.JSON StatusForbidden
                { Success := false, Error := "User account is inactive" }).Abort)
            else
              next env w2 (c.Set "user"
                { UserID := dbUser.ID, Email := dbUser.Email,
                  CompanyID := dbUser.CompanyID, Role := dbUser.Role })
        | none =>
          next env w1 (c.Set "user" { UserID := user.ID, Email := user.Email, Role := "user" })
    := by
  unfold AuthMiddleware.Authenticate
  simp only [hc, bearer_ne_empty, format_of_bearer token hsp, if_false]
  simp

/-- C2, as stated, fails: the header `Bearer ` (the word, one space, an empty token) is not
of the form the claim admits, yet `Authenticate` passes its format check and calls
`ValidateToken` with the empty token. -/
theorem Authenticate_validates_empty_token :
    (¬ ∃ token : String, token ≠ "" ∧ ' ' ∉ token.data ∧
        (Sample.bearer "").Authorization = "Bearer " ++ token) ∧
    (AuthMiddleware.Authenticate mainAuthMiddleware Sample.downstream quietEnv {}
        (Sample.bearer "")).1.log = [Call.authValidateToken ""] := by
  refine ⟨?_, by decide⟩
  rintro ⟨token, hne, -, heq⟩
  apply hne
  have h := congrArg String.data heq
  simp only [Sample.bearer, String.data_append] at h
  apply String.ext
  simpa using h.symm

/-- C2 (amended): for every Authorization header value that is empty or is not the word
`Bearer`, one space, and a token containing no space (the token may be empty), `Authenticate`
aborts the request with 401, leaves the world as it was (so it calls neither
`AuthProvider.ValidateToken` nor `DatabaseProvider.GetUser`), attaches no principal and does
not run the rest of the chain. -/
theorem Authenticate_rejects_malformed_header (m : AuthMiddleware) (next : HandlerFunc)
    (env : Env) (w : World) (c : Context)
    (h : c.Authorization = "" ∨
      ¬ ∃ token : String, c.Authorization = "Bearer " ++ token ∧ ' ' ∉ token.data) :
    (AuthMiddleware.Authenticate m next env w c).1 = w ∧
    (AuthMiddleware.Authenticate m next env w c).2.status = StatusUnauthorized ∧
    (AuthMiddleware.Authenticate m next env w c).2.aborted = true ∧
    (AuthMiddleware.Authenticate m next env w c).2.Keys = c.Keys := by
  unfold AuthMiddleware.Authenticate
  by_cases he : c.Authorization = ""
  · simp [he, Context.status, Context.JSON, Context.Abort]
  · have hform : (stringsSplit c.Authorization ' ').length ≠ 2 ∨
        (stringsSplit c.Authorization ' ').getD 0 "" ≠ "Bearer" := by
      by_contra hcon
      obtain ⟨token, h1, h2, -⟩ := bearer_of_format c.Authorization hcon
      rcases h with h | h
      · exact he h
      · exact h ⟨token, h1, h2⟩
    simp only [he, if_false, hform, if_true]
    simp [Context.status, Context.JSON, Context.Abort]

/-- Witness of C2 (amended): a header with the scheme `Basic`, and with a handler chain that
would write to the log. -/
theorem Authenticate_rejects_malformed_header_witness :
    (({ Authorization := "Basic abc" } : Context).Authorization = "" ∨
      ¬ ∃ token : String,
        ({ Authorization := "Basic abc" } : Context).Authorization = "Bearer " ++ token ∧
          ' ' ∉ token.data) ∧
    (AuthMiddleware.Authenticate mainAuthMiddleware UserHandler.GetUser Sample.tokenEnv
        Sample.storeA { Authorization := "Basic abc" }).1 = Sample.storeA ∧
    (AuthMiddleware.Authenticate mainAuthMiddleware UserHandler.GetUser Sample.tokenEnv
        Sample.storeA { Authorization := "Basic abc" }).2.status = StatusUnauthorized ∧
    (AuthMiddleware.Authenticate mainAuthMiddleware UserHandler.GetUser Sample.tokenEnv
        Sample.storeA { Authorization := "Basic abc" }).2.aborted = true ∧
    (AuthMiddleware.Authenticate mainAuthMiddleware UserHandler.GetUser Sample.tokenEnv
        Sample.storeA { Authorization := "Basic abc" }).2.Keys = [] :=
  have hform : ({ Authorization := "Basic abc" } : Context).Authorization = "" ∨
      ¬ ∃ token : String,
        ({ Authorization := "Basic abc" } : Context).Authorization = "Bearer " ++ token ∧
          ' ' ∉ token.data := by
    right
    rintro ⟨token, heq, -⟩
    have h := congrArg String.data heq
    rw [String.data_append] at h
    have hl : ({ Authorization := "Basic abc" } : Context).Authorization.data =
        ['B', 'a', 's', 'i', 'c', ' ', 'a', 'b', 'c'] := rfl
    have hr : "Bearer ".data = ['B', 'e', 'a', 'r', 'e', 'r', ' '] := rfl
    rw [hl, hr] at h
    simp at h
  ⟨hform, Authenticate_rejects_malformed_header mainAuthMiddleware UserHandler.GetUser
    Sample.tokenEnv Sample.storeA { Authorization := "Basic abc" } hform⟩

/-! ## The authoritative lookup of `Authenticate` -/

/-- With a database provider set, a validated token whose subject has no user record (the
lookup returns an error) is answered 401; no principal is attached and the rest of the chain
does not run. -/
theorem Authenticate_with_provider_unknown_user (m : AuthMiddleware) (next : HandlerFunc)
    (env : Env) (w : World) (c : Context) (token : String) (user : AuthUser) (e : String)
    (handle : DatabaseHandle) (hm : m.databaseProvider = some handle)
    (hc : c.Authorization = "Bearer " ++ token) (hsp : ' ' ∉ token.data)
    (hv : env.ValidateToken token = .ok user)
    (hu : (DatabaseProvider.GetUser env (w.record (.authValidateToken token)) user.ID).1 =
      .error e) :
    AuthMiddleware.Authenticate m next env w c =
      ((w.record (.authValidateToken token)).record (.dbGetUser user.ID),
        (c.JSON StatusUnauthorized { Success := false, Error := "User not found" }).Abort) := by
  rw [Authenticate_bearer m next env w c token hc hsp]
  simp only [AuthProvider.ValidateToken, hv, hm]
  rw [dbGetUser_eq, hu]

/-- With a database provider set, a validated token whose user record is inactive is answered
Forbidden (403); no principal is attached and the rest of the chain does not run. -/
theorem Authenticate_with_provider_inactive_user (m : AuthMiddleware) (next : HandlerFunc)
    (env : Env) (w : World) (c : Context) (token : String) (user : AuthUser) (dbUser : User)
    (handle : DatabaseHandle) (hm : m.databaseProvider = some handle)
    (hc : c.Authorization = "Bearer " ++ token) (hsp : ' ' ∉ token.data)
    (hv : env.ValidateToken token = .ok user)
    (hu : (DatabaseProvider.GetUser env (w.record (.authValidateToken token)) user.ID).1 =
      .ok dbUser)
    (hin : dbUser.IsActive = false) :
    AuthMiddleware.Authenticate m next env w c =
      ((w.record (.authValidateToken token)).record (.dbGetUser user.ID),
        (c.JSON StatusForbidden
          { Success := false, Error := "User account is inactive" }).Abort) := by
  rw [Authenticate_bearer m next env w c token hc hsp]
  simp only [AuthProvider.ValidateToken, hv, hm]
  rw [dbGetUser_eq, hu]
  simp [hin]

/-- With a database provider set, a validated token of an active user runs the rest of the
chain with a principal built from the user record. -/
theorem Authenticate_with_provider_active_user (m : AuthMiddleware) (next : HandlerFunc)
    (env : Env) (w : World) (c : Context) (token : String) (user : AuthUser) (dbUser : User)
    (handle : DatabaseHandle) (hm : m.databaseProvider = some handle)
    (hc : c.Authorization = "Bearer " ++ token) (hsp : ' ' ∉ token.data)
    (hv : env.ValidateToken token = .ok user)
    (hu : (DatabaseProvider.GetUser env (w.record (.authValidateToken token)) user.ID).1 =
      .ok dbUser)
    (hact : dbUser.IsActive = true) :
    AuthMiddleware.Authenticate m next env w c =
      next env ((w.record (.authValidateToken token)).record (.dbGetUser user.ID))
        (c.Set "user" { UserID := dbUser.ID, Email := dbUser.Email,
                        CompanyID := dbUser.CompanyID, Role := dbUser.Role }) := by
  rw [Authenticate_bearer m next env w c token hc hsp]
  simp only [AuthProvider.ValidateToken, hv, hm]
  rw [dbGetUser_eq, hu]
  simp [hact]

/-- Without a database provider (the middleware as `NewAuthMiddleware` leaves it), every
validated token runs the rest of the chain, with a principal taken from the token and the
constant role `user`; the persistence capability is not consulted. -/
theorem Authenticate_without_provider (m : AuthMiddleware) (next : HandlerFunc)
    (env : Env) (w : World) (c : Context) (token : String) (user : AuthUser)
    (hm : m.databaseProvider = none)
    (hc : c.Authorization = "Bearer " ++ token) (hsp : ' ' ∉ token.data)
    (hv : env.ValidateToken token = .ok user) :
    AuthMiddleware.Authenticate m next env w c =
      next env (w.record (.authValidateToken token))
        (c.Set "user" { UserID := user.ID, Email := user.Email, Role := "user" }) := by
  rw [Authenticate_bearer m next env w c token hc hsp]
  simp only [AuthProvider.ValidateToken, hv, hm]

/-- C3 (code bug), evaluated at the failing input: the token `tok-ghost` validates and its
subject `ghost` has no user record. The middleware as `main` builds it does not answer 401:
it attaches a principal for `ghost` and runs the downstream handler, which answers 200,
without a call to `DatabaseProvider.GetUser`. The same middleware after `SetDatabaseProvider`
answers 401 and aborts. -/
theorem main_wiring_admits_subject_without_record :
    Sample.tokenEnv.ValidateToken "tok-ghost" =
      .ok { ID := "ghost", Email := "ghost@a.example", Name := "Ghost" } ∧
    getDoc User.ID "ghost" Sample.storeA.users = none ∧
    (AuthMiddleware.Authenticate mainAuthMiddleware Sample.downstream Sample.tokenEnv
        Sample.storeA (Sample.bearer "tok-ghost")).2.status = StatusOK ∧
    (AuthMiddleware.Authenticate mainAuthMiddleware Sample.downstream Sample.tokenEnv
        Sample.storeA (Sample.bearer "tok-ghost")).2.aborted = false ∧
    (AuthMiddleware.Authenticate mainAuthMiddleware Sample.downstream Sample.tokenEnv
        Sample.storeA (Sample.bearer "tok-ghost")).2.Get "user" =
      some { UserID := "ghost", Email := "ghost@a.example", CompanyID := "", Role := "user" } ∧
    (AuthMiddleware.Authenticate mainAuthMiddleware Sample.downstream Sample.tokenEnv
        Sample.storeA (Sample.bearer "tok-ghost")).1.log = [Call.authValidateToken "tok-ghost"] ∧
    (AuthMiddleware.Authenticate (mainAuthMiddleware.SetDatabaseProvider .provider)
        Sample.downstream Sample.tokenEnv Sample.storeA
        (Sample.bearer "tok-ghost")).2.status = StatusUnauthorized ∧
    (AuthMiddleware.Authenticate (mainAuthMiddleware.SetDatabaseProvider .provider)
        Sample.downstream Sample.tokenEnv Sample.storeA
        (Sample.bearer "tok-ghost")).2.aborted = true :=
  ⟨rfl, by decide, by decide, by decide, by decide, by decide, by decide, by decide⟩

/-- C4 (code bug), evaluated at the failing input: the token `tok-bob` validates and the
stored record of `bob` has `IsActive = false`. The middleware as `main` builds it does not
answer Forbidden: it attaches a principal for `bob` and runs the downstream handler, which
answers 200. The same middleware after `SetDatabaseProvider` answers 403 and aborts. -/
theorem main_wiring_admits_inactive_user :
    Sample.tokenEnv.ValidateToken "tok-bob" =
      .ok { ID := "bob", Email := "bob@a.example", Name := "Bob" } ∧
    getDoc User.ID "bob" Sample.storeA.users = some Sample.bob ∧
    Sample.bob.IsActive = false ∧
    (AuthMiddleware.Authenticate mainAuthMiddleware Sample.downstream Sample.tokenEnv
        Sample.storeA (Sample.bearer "tok-bob")).2.status = StatusOK ∧
    (AuthMiddleware.Authenticate mainAuthMiddleware Sample.downstream Sample.tokenEnv
        Sample.storeA (Sample.bearer "tok-bob")).2.aborted = false ∧
    (AuthMiddleware.Authenticate mainAuthMiddleware Sample.downstream Sample.tokenEnv
        Sample.storeA (Sample.bearer "tok-bob")).2.Get "user" =
      some { UserID := "bob", Email := "bob@a.example", CompanyID := "", Role := "user" } ∧
    (AuthMiddleware.Authenticate (mainAuthMiddleware.SetDatabaseProvider .provider)
        Sample.downstream Sample.tokenEnv Sample.storeA
        (Sample.bearer "tok-bob")).2.status = StatusForbidden ∧
    (AuthMiddleware.Authenticate (mainAuthMiddleware.SetDatabaseProvider .provider)
        Sample.downstream Sample.tokenEnv Sample.storeA
        (Sample.bearer "tok-bob")).2.aborted = true :=
  ⟨rfl, by decide, by decide, by decide, by decide, by decide, by decide, by decide⟩

/-- C5 (code bug), evaluated at the failing input: the token `tok-alice` validates; the stored
record of `alice` has the e-mail `alice@a.example`, tenant `A` and role `admin`. The
middleware as `main` builds it lets the request through with a principal whose e-mail is the
one of the token, whose tenant id is empty and whose role is the constant `user`. The same
middleware after `SetDatabaseProvider` attaches the values of the stored record. -/
theorem main_wiring_principal_from_token :
    Sample.tokenEnv.ValidateToken "tok-alice" =
      .ok { ID := "alice", Email := "alice@token.example", Name := "Alice" } ∧
    (DatabaseProvider.GetUser Sample.tokenEnv Sample.storeA "alice").1 = .ok Sample.alice ∧
    (AuthMiddleware.Authenticate mainAuthMiddleware Sample.downstream Sample.tokenEnv
        Sample.storeA (Sample.bearer "tok-alice")).2.aborted = false ∧
    (AuthMiddleware.Authenticate mainAuthMiddleware Sample.downstream Sample.tokenEnv
        Sample.storeA (Sample.bearer "tok-alice")).2.Get "user" =
      some { UserID := "alice", Email := "alice@token.example", CompanyID := "",
             Role := "user" } ∧
    (AuthMiddleware.Authenticate mainAuthMiddleware Sample.downstream Sample.tokenEnv
        Sample.storeA (Sample.bearer "tok-alice")).2.Get "user" ≠
      some { UserID := Sample.alice.ID, Email := Sample.alice.Email,
             CompanyID := Sample.alice.CompanyID, Role := Sample.alice.Role } ∧
    (AuthMiddleware.Authenticate (mainAuthMiddleware.SetDatabaseProvider .provider)
        Sample.downstream Sample.tokenEnv Sample.storeA
        (Sample.bearer "tok-alice")).2.Get "user" =
      some { UserID := "alice", Email := "alice@a.example", CompanyID := "A",
             Role := "admin" } :=
  ⟨rfl, rfl, by decide, by decide, by decide, by decide⟩

/-! ## Authorization guards -/

/-- C6: for every principal `P` present in the request scope, `RequireRole r` runs the rest of
the chain iff `P.Role = r`, `RequireAnyRole rs` runs it iff `P.Role` is one of `rs` (so
never for the empty list), `RequireCompanyAccess` runs it iff `P.CompanyID` is non-empty; in
every other case the guard writes Forbidden (403), aborts and leaves the world as it was. -/
theorem guards_decide_on_principal (next : HandlerFunc) (env : Env) (w : World) (c : Context)
    (P : UserContext) (r : String) (rs : List String) (hP : c.Get "user" = some P) :
    AuthMiddleware.RequireRole r next env w c =
      (if P.Role = r then next env w c
       else (w, (c.JSON StatusForbidden
          { Success := false, Error := "Insufficient permissions" }).Abort)) ∧
    AuthMiddleware.RequireAnyRole rs next env w c =
      (if P.Role ∈ rs then next env w c
       else (w, (c.JSON StatusForbidden
          { Success := false, Error := "Insufficient permissions" }).Abort)) ∧
    AuthMiddleware.RequireAnyRole [] next env w c =
      (w, (c.JSON StatusForbidden
          { Success := false, Error := "Insufficient permissions" }).Abort) ∧
    AuthMiddleware.RequireCompanyAccess next env w c =
      (if P.CompanyID ≠ "" then next env w c
       else (w, (c.JSON StatusForbidden
          { Success := false, Error := "User not associated with any company" }).Abort)) ∧
    ((c.JSON StatusForbidden
          { Success := false, Error := "Insufficient permissions" }).Abort).status =
        StatusForbidden ∧
    ((c.JSON StatusForbidden
          { Success := false, Error := "User not associated with any company" }).Abort).status =
        StatusForbidden := by
  have hloop : ∀ l : List String, AuthMiddleware.hasRoleLoop P.Role l = true ↔ P.Role ∈ l := by
    intro l
    induction l with
    | nil => simp [AuthMiddleware.hasRoleLoop]
    | cons a l ih =>
      unfold AuthMiddleware.hasRoleLoop
      by_cases ha : P.Role = a
      · simp [ha]
      · simp [ha, ih]
  refine ⟨?_, ?_, ?_, ?_, rfl, rfl⟩
  · unfold AuthMiddleware.RequireRole
    rw [hP]
    by_cases h : P.Role = r <;> simp [h]
  · unfold AuthMiddleware.RequireAnyRole
    rw [hP]
    by_cases h : P.Role ∈ rs
    · simp [h, (hloop rs).2 h]
    · have hf : AuthMiddleware.hasRoleLoop P.Role rs = false := by
        cases hb : AuthMiddleware.hasRoleLoop P.Role rs with
        | false => rfl
        | true => exact absurd ((hloop rs).1 hb) h
      simp [h, hf]
  · unfold AuthMiddleware.RequireAnyRole
    rw [hP]
    simp [AuthMiddleware.hasRoleLoop]
  · unfold AuthMiddleware.RequireCompanyAccess
    rw [hP]
    by_cases h : P.CompanyID = "" <;> simp [h]

/-- Witness of C6: the admin of tenant `A` before the three guards. -/
theorem guards_decide_on_principal_witness :
    Sample.requestA.Get "user" = some Sample.adminA ∧
    AuthMiddleware.RequireRole "admin" Sample.downstream quietEnv Sample.storeB
        Sample.requestA = Sample.downstream quietEnv Sample.storeB Sample.requestA ∧
    (AuthMiddleware.RequireAnyRole ["user", "guest"] Sample.downstream quietEnv Sample.storeB
        Sample.requestA).2.status = StatusForbidden ∧
    (AuthMiddleware.RequireAnyRole [] Sample.downstream quietEnv Sample.storeB
        Sample.requestA).2.aborted = true ∧
    AuthMiddleware.RequireCompanyAccess Sample.downstream quietEnv Sample.storeB
        Sample.requestA = Sample.downstream quietEnv Sample.storeB Sample.requestA :=
  have h := guards_decide_on_principal Sample.downstream quietEnv Sample.storeB Sample.requestA
    Sample.adminA "admin" ["user", "guest"] (by decide)
  ⟨by decide, by rw [h.1]; rfl, by rw [h.2.1]; rfl, by rw [h.2.2.1]; rfl,
    by rw [h.2.2.2.1]; rfl⟩

/-! ## Store lemmas -/

theorem getDoc_key {α : Type} (key : α → String) (id : String) (docs : List α) (d : α)
    (h : getDoc key id docs = some d) : key d = id := by
  unfold getDoc at h
  have := List.find?_some h
  simpa using this

theorem find_map_replace_self {α : Type} (key : α → String) (d : α) (docs : List α)
    (hany : (docs.any fun x => key x == key d) = true) :
    List.find? (fun x => key x == key d)
      (docs.map (fun x => if key x == key d then d else x)) = some d := by
  induction docs with
  | nil => simp at hany
  | cons x xs ih =>
    simp only [List.map_cons, List.find?_cons]
    cases hb : (key x == key d) with
    | true => simp only [if_true, beq_self_eq_true]
    | false =>
      have hany2 : (xs.any fun y => key y == key d) = true := by
        simpa [hb] using hany
      simp only [Bool.false_eq_true, if_false, hb]
      exact ih hany2

theorem find_map_replace_other {α : Type} (key : α → String) (d : α) (docs : List α)
    (id : String) (hd : ¬ key d = id) :
    List.find? (fun x => key x == id)
      (docs.map (fun x => if key x == key d then d else x)) =
        List.find? (fun x => key x == id) docs := by
  induction docs with
  | nil => rfl
  | cons x xs ih =>
    simp only [List.map_cons, List.find?_cons]
    have hdb : (key d == id) = false := by simpa using hd
    cases hb : (key x == key d) with
    | true =>
      have hx : key x = key d := by simpa using hb
      have hxb : (key x == id) = false := by rw [hx]; exact hdb
      simp only [if_true, hdb, hxb]
      exact ih
    | false =>
      simp only [Bool.false_eq_true, if_false]
      cases hxb : (key x == id) with
      | true => rfl
      | false => exact ih

theorem getDoc_setDoc_self {α : Type} (key : α → String) (d : α) (docs : List α) :
    getDoc key (key d) (setDoc key d docs) = some d := by
  unfold getDoc setDoc
  split
  · rename_i hany
    exact find_map_replace_self key d docs hany
  · rename_i hany
    rw [List.find?_append]
    have hnone : List.find? (fun x => key x == key d) docs = none := by
      rw [List.find?_eq_none]
      intro x hx hk
      exact hany (List.any_eq_true.2 ⟨x, hx, hk⟩)
    simp [hnone]

theorem getDoc_setDoc_other {α : Type} (key : α → String) (d : α) (docs : List α)
    (id : String) (hne : id ≠ key d) :
    getDoc key id (setDoc key d docs) = getDoc key id docs := by
  unfold getDoc setDoc
  have hd : ¬ key d = id := fun e => hne e.symm
  split
  · exact find_map_replace_other key d docs id hd
  · rw [List.find?_append]
    simp [hd]

theorem getDoc_deleteDoc_self {α : Type} (key : α → String) (id : String) (docs : List α) :
    getDoc key id (deleteDoc key id docs) = none := by
  unfold getDoc deleteDoc
  rw [List.find?_eq_none]
  intro x hx
  have := (List.mem_filter.1 hx).2
  simpa using this

theorem adminCount_eq (users : List User) :
    UserHandler.adminCount users =
      (users.filter (fun u => u.Role == "admin" && u.IsActive)).length := by
  unfold UserHandler.adminCount
  have hgen : ∀ (l : List User) (n : Nat),
      l.foldl (fun n u => if u.Role = "admin" ∧ u.IsActive = true then n + 1 else n) n =
        n + (l.filter (fun u => u.Role == "admin" && u.IsActive)).length := by
    intro l
    induction l with
    | nil => intro n; simp
    | cons x xs ih =>
      intro n
      simp only [List.foldl_cons]
      rw [ih]
      by_cases hx : x.Role = "admin" ∧ x.IsActive = true
      · simp [hx, List.filter_cons]
        omega
      · have hf : (x.Role == "admin" && x.IsActive) = false := by
          simp only [not_and, Bool.not_eq_true] at hx
          by_cases hr : x.Role = "admin"
          · simp [hr, hx hr]
          · simp [hr]
        simp [hx, List.filter_cons, hf]
  simpa using hgen users 0

/-! ## Field queries on the stored documents -/

/-- A query on a field that no document has selects nothing. -/
theorem whereEq_absent {α : Type} (document : α → List (String × FieldValue)) (path : String)
    (value : FieldValue) (docs : List α) (h : ∀ d, (document d).lookup path = none) :
    whereEq document path value docs = [] := by
  unfold whereEq
  rw [List.filter_eq_nil_iff]
  intro d _
  rw [h d]
  simp

/-- The same for the query on a timestamp. -/
theorem whereBefore_absent {α : Type} (document : α → List (String × FieldValue))
    (path : String) (t : Nat) (docs : List α) (h : ∀ d, (document d).lookup path = none) :
    whereBefore document path t docs = [] := by
  unfold whereBefore
  rw [List.filter_eq_nil_iff]
  intro d _
  rw [h d]
  simp

/-- The lookup of an invitation by its token finds nothing: the query names the field
`token`, the documents hold the token under `Token`. -/
theorem dbGetInvitationByToken_not_found (env : Env) (w : World) (token : String) :
    DatabaseProvider.GetInvitationByToken env w token =
      (.error "invitation not found", w.record (.dbGetInvitationByToken token)) := by
  unfold DatabaseProvider.GetInvitationByToken
  rw [whereEq_absent Invitation.document "token" _ _ (fun d => by rfl)]
  cases env.fails (.dbGetInvitationByToken token) <;> rfl

/-- The listing of the users of a tenant is empty: the query names the field `company_id`,
the documents hold the tenant id under `CompanyID`. -/
theorem dbGetUsersByCompany_empty (env : Env) (w : World) (companyID : String) :
    DatabaseProvider.GetUsersByCompany env w companyID =
      (.ok [], w.record (.dbGetUsersByCompany companyID)) := by
  unfold DatabaseProvider.GetUsersByCompany
  rw [whereEq_absent User.document "company_id" _ _ (fun d => by rfl)]
  cases env.fails (.dbGetUsersByCompany companyID) <;> rfl

/-! ## Invitation acceptance -/

/-- `AcceptInvitation` answers 404 `Invalid invitation token` to every request and writes
nothing: its lookup by token never returns an invitation. -/
theorem AcceptInvitation_not_found (env : Env) (w : World) (c : Context) :
    InvitationHandler.AcceptInvitation env w c =
      (w.record (.dbGetInvitationByToken (c.Param "token")),
        c.JSON StatusNotFound { Success := false, Error := "Invalid invitation token" }) := by
  unfold InvitationHandler.AcceptInvitation
  simp only []
  rw [dbGetInvitationByToken_not_found]

/-- Past the lookup, an invitation that is expired or already accepted is answered 400,
whatever the request scope holds, and nothing is written. -/
theorem acceptFound_expired_or_accepted (env : Env) (w1 : World) (c : Context)
    (inv : Invitation) (h : inv.ExpiresAt < env.now ∨ inv.Status = "accepted") :
    (InvitationHandler.acceptFound env w1 c inv).2.status = StatusBadRequest ∧
    (InvitationHandler.acceptFound env w1 c inv).1 = w1 := by
  unfold InvitationHandler.acceptFound
  by_cases hexp : inv.ExpiresAt < env.now
  · simp [hexp, Context.status, Context.JSON]
  · have hst : inv.Status = "accepted" := h.resolve_left hexp
    simp [hexp, hst, Context.status, Context.JSON]

/-- Past the lookup, a principal whose e-mail differs from the one of the unexpired, not yet
accepted invitation is answered 403, and nothing is written. -/
theorem acceptFound_email_mismatch (env : Env) (w1 : World) (c : Context)
    (inv : Invitation) (p : UserContext) (hexp : ¬ inv.ExpiresAt < env.now)
    (hst : inv.Status ≠ "accepted") (hp : c.Get "user" = some p) (hne : p.Email ≠ inv.Email) :
    (InvitationHandler.acceptFound env w1 c inv).2.status = StatusForbidden ∧
    (InvitationHandler.acceptFound env w1 c inv).1 = w1 := by
  unfold InvitationHandler.acceptFound
  simp [hexp, hst, hp, hne, Context.status, Context.JSON]

/-- Past the lookup, when every check passes and the read and the two writes succeed, the
answer is 200, the record of the principal gets the tenant of the invitation and the role
`user`, and the invitation gets the status `accepted`. -/
theorem acceptFound_success (env : Env) (w1 : World) (c : Context) (inv : Invitation)
    (p : UserContext) (u : User) (hexp : ¬ inv.ExpiresAt < env.now)
    (hst : inv.Status ≠ "accepted") (hp : c.Get "user" = some p) (hem : p.Email = inv.Email)
    (hu : (DatabaseProvider.GetUser env w1 p.UserID).1 = .ok u)
    (hf1 : env.fails (.dbUpdateUser
      { u with CompanyID := inv.CompanyID, Role := "user", UpdatedAt := env.now }) = none)
    (hf2 : env.fails (.dbUpdateInvitation
      { inv with Status := "accepted", AcceptedAt := env.now }) = none) :
    InvitationHandler.acceptFound env w1 c inv =
      ({ w1 with
          users := setDoc User.ID
            { u with CompanyID := inv.CompanyID, Role := "user", UpdatedAt := env.now } w1.users,
          invitations := setDoc Invitation.ID
            { inv with Status := "accepted", AcceptedAt := env.now } w1.invitations,
          log := w1.log ++
            [.dbGetUser p.UserID,
             .dbUpdateUser
               { u with CompanyID := inv.CompanyID, Role := "user", UpdatedAt := env.now },
             .dbUpdateInvitation { inv with Status := "accepted", AcceptedAt := env.now }] },
        c.JSON StatusOK
          { Success := true, Message := "Invitation accepted successfully",
            Data := [("company_id", .val (.str inv.CompanyID))] }) := by
  unfold InvitationHandler.acceptFound
  rw [if_neg hexp, if_neg hst]
  simp only [hp, hem, ne_eq, not_true_eq_false, if_false]
  rw [dbGetUser_eq, hu]
  simp [DatabaseProvider.UpdateUser, hf1, DatabaseProvider.UpdateInvitation, hf2, World.record]

/-- Past the lookup, the two writes are issued one after the other and nothing undoes the
first: when the write of the user succeeds and the write of the invitation fails, the
answer is 500 and the record of the principal stays updated. -/
theorem acceptFound_partial_write (env : Env) (w1 : World) (c : Context) (inv : Invitation)
    (p : UserContext) (u : User) (e : String) (hexp : ¬ inv.ExpiresAt < env.now)
    (hst : inv.Status ≠ "accepted") (hp : c.Get "user" = some p) (hem : p.Email = inv.Email)
    (hu : (DatabaseProvider.GetUser env w1 p.UserID).1 = .ok u)
    (hf1 : env.fails (.dbUpdateUser
      { u with CompanyID := inv.CompanyID, Role := "user", UpdatedAt := env.now }) = none)
    (hf2 : env.fails (.dbUpdateInvitation
      { inv with Status := "accepted", AcceptedAt := env.now }) = some e) :
    InvitationHandler.acceptFound env w1 c inv =
      ({ w1 with
          users := setDoc User.ID
            { u with CompanyID := inv.CompanyID, Role := "user", UpdatedAt := env.now } w1.users,
          log := w1.log ++
            [.dbGetUser p.UserID,
             .dbUpdateUser
               { u with CompanyID := inv.CompanyID, Role := "user", UpdatedAt := env.now },
             .dbUpdateInvitation { inv with Status := "accepted", AcceptedAt := env.now }] },
        c.JSON StatusInternalServerError
          { Success := false, Error := "Failed to update invitation" }) := by
  unfold InvitationHandler.acceptFound
  rw [if_neg hexp, if_neg hst]
  simp only [hp, hem, ne_eq, not_true_eq_false, if_false]
  rw [dbGetUser_eq, hu]
  simp [DatabaseProvider.UpdateUser, hf1, DatabaseProvider.UpdateInvitation, hf2, World.record]

/-- C7 (code bug), evaluated at the failing inputs: the store holds the pending invitation
`K` (expiring at instant 100) and the accepted invitation `K2`. One instant after the expiry
the invited principal presents the token `K`; before the expiry she presents the token `K2`
of the accepted invitation. Both requests are answered 404 `Invalid invitation token`, not
400: the lookup by token finds neither of the stored invitations. Nothing is written. -/
theorem AcceptInvitation_expired_or_accepted_is_404 :
    Sample.invitationK ∈ Sample.inviteStore.invitations ∧ Sample.invitationK.Token = "K" ∧
    Sample.invitationK.ExpiresAt < (Sample.envAt 101).now ∧
    Sample.invitationDone ∈ Sample.inviteStore.invitations ∧
    Sample.invitationDone.Token = "K2" ∧ Sample.invitationDone.Status = "accepted" ∧
    ((InvitationHandler.AcceptInvitation (Sample.envAt 101) Sample.inviteStore
        (Sample.acceptRequest "K" Sample.carolPrincipal)).2.written =
      some { code := StatusNotFound,
             body := { Success := false, Error := "Invalid invitation token" } }) ∧
    ((InvitationHandler.AcceptInvitation (Sample.envAt 50) Sample.inviteStore
        (Sample.acceptRequest "K2" Sample.carolPrincipal)).2.written =
      some { code := StatusNotFound,
             body := { Success := false, Error := "Invalid invitation token" } }) ∧
    noDbWrite Sample.inviteStore
      (InvitationHandler.AcceptInvitation (Sample.envAt 101) Sample.inviteStore
        (Sample.acceptRequest "K" Sample.carolPrincipal)).1 ∧
    noDbWrite Sample.inviteStore
      (InvitationHandler.AcceptInvitation (Sample.envAt 50) Sample.inviteStore
        (Sample.acceptRequest "K2" Sample.carolPrincipal)).1 := by
  refine ⟨by decide, by decide, by decide, by decide, by decide, by decide, by decide,
    by decide, by decide, by decide⟩

/-- C8 (code bug), evaluated at the failing input: the store holds the pending invitation
`K` for `carol@x.example`, expiring at instant 100. At instant 50 a principal whose e-mail
is `Carol@x.example` presents the token `K`. The answer is 404 `Invalid invitation token`,
not 403: the lookup by token does not find the stored invitation. Nothing is written. -/
theorem AcceptInvitation_email_mismatch_is_404 :
    Sample.invitationK ∈ Sample.inviteStore.invitations ∧ Sample.invitationK.Token = "K" ∧
    ¬ Sample.invitationK.ExpiresAt < (Sample.envAt 50).now ∧
    Sample.invitationK.Status ≠ "accepted" ∧
    "Carol@x.example" ≠ Sample.invitationK.Email ∧
    (InvitationHandler.AcceptInvitation (Sample.envAt 50) Sample.inviteStore
        (Sample.acceptRequest "K"
          { Sample.carolPrincipal with Email := "Carol@x.example" })).2.written =
      some { code := StatusNotFound,
             body := { Success := false, Error := "Invalid invitation token" } } ∧
    (InvitationHandler.AcceptInvitation (Sample.envAt 50) Sample.inviteStore
        (Sample.acceptRequest "K"
          { Sample.carolPrincipal with Email := "Carol@x.example" })).2.status ≠
      StatusForbidden ∧
    noDbWrite Sample.inviteStore
      (InvitationHandler.AcceptInvitation (Sample.envAt 50) Sample.inviteStore
        (Sample.acceptRequest "K"
          { Sample.carolPrincipal with Email := "Carol@x.example" })).1 := by
  refine ⟨by decide, by decide, by decide, by decide, by decide, by decide, by decide,
    by decide⟩

/-- C9 (code bug), evaluated at the failing input: `carol`, whose e-mail is the one of the
pending invitation `K`, presents the token `K` at instant 50, before the expiry, and no
capability call fails. The answer is 404 `Invalid invitation token`, not 200; the record of
`carol` keeps its empty tenant id and the role `admin`, and the invitation stays `pending`:
the lookup by token does not find the stored invitation. -/
theorem AcceptInvitation_valid_accept_is_404 :
    Sample.invitationK ∈ Sample.inviteStore.invitations ∧ Sample.invitationK.Token = "K" ∧
    ¬ Sample.invitationK.ExpiresAt < (Sample.envAt 50).now ∧
    Sample.invitationK.Status = "pending" ∧
    Sample.carolPrincipal.Email = Sample.invitationK.Email ∧
    getDoc User.ID Sample.carolPrincipal.UserID Sample.inviteStore.users = some Sample.carol ∧
    (InvitationHandler.AcceptInvitation (Sample.envAt 50) Sample.inviteStore
        (Sample.acceptRequest "K" Sample.carolPrincipal)).2.written =
      some { code := StatusNotFound,
             body := { Success := false, Error := "Invalid invitation token" } } ∧
    (InvitationHandler.AcceptInvitation (Sample.envAt 50) Sample.inviteStore
        (Sample.acceptRequest "K" Sample.carolPrincipal)).2.status ≠ StatusOK ∧
    (InvitationHandler.AcceptInvitation (Sample.envAt 50) Sample.inviteStore
        (Sample.acceptRequest "K" Sample.carolPrincipal)).1.users =
      Sample.inviteStore.users ∧
    (InvitationHandler.AcceptInvitation (Sample.envAt 50) Sample.inviteStore
        (Sample.acceptRequest "K" Sample.carolPrincipal)).1.invitations =
      Sample.inviteStore.invitations := by
  refine ⟨by decide, by decide, by decide, by decide, by decide, by decide, by decide,
    by decide, by decide, by decide⟩

/-! ## The last-admin guard of `DeleteUser` -/

/-- For an admin caller and a target of role admin in the caller's tenant, `DeleteUser`
answers 400 `Cannot delete the last admin user` whatever the store holds: the listing of the
tenant's users is empty, so the count of active admins is 0. The only calls made are the two
reads. -/
theorem DeleteUser_admin_target_refused (env : Env) (w : World) (c : Context)
    (p : UserContext) (u : User) (hp : c.Get "user" = some p) (hadmin : p.Role = "admin")
    (hu : (DatabaseProvider.GetUser env w (c.Param "id")).1 = .ok u)
    (hten : u.CompanyID = p.CompanyID) (hrole : u.Role = "admin") :
    UserHandler.DeleteUser env w c =
      ((w.record (.dbGetUser (c.Param "id"))).record (.dbGetUsersByCompany p.CompanyID),
        c.JSON StatusBadRequest
          { Success := false, Error := "Cannot delete the last admin user" }) := by
  unfold UserHandler.DeleteUser
  rw [hp]
  simp only [hadmin, ne_eq, not_true_eq_false, if_false]
  rw [dbGetUser_eq, hu]
  simp only [hten, hrole, not_true_eq_false, if_false, if_true]
  rw [dbGetUsersByCompany_empty]
  simp [UserHandler.adminCount]

/-- C10 (code bug), evaluated at the failing input: tenant `A` has the two active admins
`alice` and `erin`; `alice` asks to delete `erin` and no capability call fails. The answer is
400 `Cannot delete the last admin user`, not 200, `erin` stays in the store and neither
deletion is called: the listing of the tenant's users that the guard counts is empty. -/
theorem DeleteUser_refuses_second_admin :
    UserHandler.adminCount
      (Sample.storeTwoAdmins.users.filter (fun u => u.CompanyID == "A")) = 2 ∧
    (UserHandler.DeleteUser quietEnv Sample.storeTwoAdmins (Sample.requestOn "erin")).2.written =
      some { code := StatusBadRequest,
             body := { Success := false, Error := "Cannot delete the last admin user" } } ∧
    getDoc User.ID "erin"
      (UserHandler.DeleteUser quietEnv Sample.storeTwoAdmins (Sample.requestOn "erin")).1.users =
      some Sample.erin ∧
    (UserHandler.DeleteUser quietEnv Sample.storeTwoAdmins (Sample.requestOn "erin")).1.log =
      [.dbGetUser "erin", .dbGetUsersByCompany "A"] := by
  refine ⟨by decide, by decide, by decide, by decide⟩

/-! ## Deletion order in `DeleteUser` -/

/-- The three outcomes of the tail of `DeleteUser`. -/
theorem deleteBoth_cases (env : Env) (w : World) (c : Context) (id : String) :
    (∃ e, env.fails (.authDeleteUser id) = some e ∧
      UserHandler.deleteBoth env w c id =
        (w.record (.authDeleteUser id), c.JSON StatusInternalServerError
          { Success := false, Error := "Failed to delete user from auth provider" })) ∨
    (∃ e, env.fails (.authDeleteUser id) = none ∧ env.fails (.dbDeleteUser id) = some e ∧
      UserHandler.deleteBoth env w c id =
        ((w.record (.authDeleteUser id)).record (.dbDeleteUser id),
          c.JSON StatusInternalServerError
            { Success := false, Error := "Failed to delete user from database" })) ∨
    (env.fails (.authDeleteUser id) = none ∧ env.fails (.dbDeleteUser id) = none ∧
      UserHandler.deleteBoth env w c id =
        ({ w with users := deleteDoc User.ID id w.users,
                  log := w.log ++ [.authDeleteUser id, .dbDeleteUser id] },
          c.JSON StatusOK { Success := true, Message := "User deleted successfully" })) := by
  unfold UserHandler.deleteBoth AuthProvider.DeleteUser DatabaseProvider.DeleteUser
  cases ha : env.fails (.authDeleteUser id) with
  | some e => left; exact ⟨e, rfl, rfl⟩
  | none =>
    cases hd : env.fails (.dbDeleteUser id) with
    | some e => right; left; exact ⟨e, rfl, rfl, by simp [hd]⟩
    | none => right; right; exact ⟨rfl, rfl, by simp [hd, World.record]⟩

/-- Before its tail, `DeleteUser` only reads: either it answers with an error after at most
two reads, or it enters the tail after one or two reads. -/
theorem DeleteUser_cases (env : Env) (w : World) (c : Context) :
    ∃ reads : List Call,
      (∀ call ∈ reads, call = .dbGetUser (c.Param "id") ∨
        ∃ companyID, call = .dbGetUsersByCompany companyID) ∧
      (((UserHandler.DeleteUser env w c).2.status ≠ StatusOK ∧
          (UserHandler.DeleteUser env w c).1 = { w with log := w.log ++ reads }) ∨
        UserHandler.DeleteUser env w c =
          UserHandler.deleteBoth env { w with log := w.log ++ reads } c (c.Param "id")) := by
  unfold UserHandler.DeleteUser
  cases hp : c.Get "user" with
  | none => exact ⟨[], by simp, Or.inl (by simp [Context.status, Context.JSON])⟩
  | some p =>
    simp only []
    by_cases hr : p.Role = "admin"
    · simp only [hr, ne_eq, not_true_eq_false, if_false]
      rw [dbGetUser_eq]
      cases hu : (DatabaseProvider.GetUser env w (c.Param "id")).1 with
      | error e =>
        exact ⟨[.dbGetUser (c.Param "id")], by simp,
          Or.inl (by simp [Context.status, Context.JSON, World.record])⟩
      | ok u =>
        simp only []
        by_cases hc : u.CompanyID = p.CompanyID
        · simp only [hc, not_true_eq_false, if_false]
          by_cases hur : u.Role = "admin"
          · simp only [hur, if_true]
            rw [dbGetUsersByCompany_eq]
            cases hl : (DatabaseProvider.GetUsersByCompany env
                (w.record (.dbGetUser (c.Param "id"))) p.CompanyID).1 with
            | error e =>
              exact ⟨[.dbGetUser (c.Param "id"), .dbGetUsersByCompany p.CompanyID],
                by simp, Or.inl (by simp [Context.status, Context.JSON, World.record])⟩
            | ok users =>
              simp only []
              by_cases hn : UserHandler.adminCount users ≤ 1
              · exact ⟨[.dbGetUser (c.Param "id"), .dbGetUsersByCompany p.CompanyID],
                  by simp, Or.inl (by simp [hn, Context.status, Context.JSON, World.record])⟩
              · exact ⟨[.dbGetUser (c.Param "id"), .dbGetUsersByCompany p.CompanyID],
                  by simp, Or.inr (by simp [hn, World.record])⟩
          · exact ⟨[.dbGetUser (c.Param "id")], by simp,
              Or.inr (by simp [hur, World.record])⟩
        · exact ⟨[.dbGetUser (c.Param "id")], by simp,
            Or.inl (by simp [hc, Context.status, Context.JSON, World.record])⟩
    · exact ⟨[], by simp, Or.inl (by simp [hr, Context.status, Context.JSON])⟩

/-- C11: in `DeleteUser` the deletion at the identity capability comes first: whenever
`DatabaseProvider.DeleteUser` is called, the call of `AuthProvider.DeleteUser` immediately
precedes it; and whenever `AuthProvider.DeleteUser` returns an error for the user id,
`DatabaseProvider.DeleteUser` is not called, nothing is written to the store (the user record
is unchanged) and the response is an error (500 when the identity deletion was reached). -/
theorem DeleteUser_identity_first (env : Env) (w : World) (c : Context) :
    (∀ id, Call.dbDeleteUser id ∈ (UserHandler.DeleteUser env w c).1.log.drop w.log.length →
      [Call.authDeleteUser id, Call.dbDeleteUser id] <:+
        (UserHandler.DeleteUser env w c).1.log.drop w.log.length) ∧
    (∀ e, env.fails (.authDeleteUser (c.Param "id")) = some e →
      (∀ id, Call.dbDeleteUser id ∉
        (UserHandler.DeleteUser env w c).1.log.drop w.log.length) ∧
      noDbWrite w (UserHandler.DeleteUser env w c).1 ∧
      (UserHandler.DeleteUser env w c).2.status ≠ StatusOK ∧
      (Call.authDeleteUser (c.Param "id") ∈
          (UserHandler.DeleteUser env w c).1.log.drop w.log.length →
        (UserHandler.DeleteUser env w c).2.status = StatusInternalServerError)) := by
  obtain ⟨reads, hreads, hcase⟩ := DeleteUser_cases env w c
  have hnd : ∀ id, Call.dbDeleteUser id ∉ reads := by
    intro id hmem
    rcases hreads _ hmem with h | ⟨x, h⟩ <;> cases h
  have hna : ∀ id, Call.authDeleteUser id ∉ reads := by
    intro id hmem
    rcases hreads _ hmem with h | ⟨x, h⟩ <;> cases h
  have hrw : ∀ call ∈ reads, call.isDbWrite = false := by
    intro call hmem
    rcases hreads _ hmem with h | ⟨x, h⟩ <;> subst h <;> rfl
  rcases hcase with ⟨hcode, heq⟩ | heq
  · rw [heq]
    refine ⟨?_, ?_⟩
    · intro id hmem
      simp only [List.drop_left] at hmem
      exact absurd hmem (hnd id)
    · intro e _
      refine ⟨?_, ?_, hcode, ?_⟩
      · intro id
        simp only [List.drop_left]
        exact hnd id
      · simp only [noDbWrite, List.drop_left, List.prefix_append, List.all_eq_true,
          Bool.not_eq_eq_eq_not, Bool.not_true, true_and, and_true]
        exact hrw
      · intro hmem
        simp only [List.drop_left] at hmem
        exact absurd hmem (hna _)
  · rw [heq]
    rcases deleteBoth_cases env { w with log := w.log ++ reads } c (c.Param "id") with
      ⟨e, ha, hres⟩ | ⟨e, ha, hd, hres⟩ | ⟨ha, hd, hres⟩
    · rw [hres]
      refine ⟨?_, ?_⟩
      · intro id hmem
        simp only [World.record, List.append_assoc, List.drop_left, List.mem_append,
          List.mem_singleton] at hmem
        rcases hmem with h | h
        · exact absurd h (hnd id)
        · cases h
      · intro e2 _
        refine ⟨?_, ?_, ?_, ?_⟩
        · intro id hmem
          simp only [World.record, List.append_assoc, List.drop_left, List.mem_append,
            List.mem_singleton] at hmem
          rcases hmem with h | h
          · exact absurd h (hnd id)
          · cases h
        · simp only [noDbWrite, World.record, List.append_assoc, List.drop_left,
            List.prefix_append, List.all_append, List.all_eq_true, Bool.and_eq_true,
            Bool.not_eq_eq_eq_not, Bool.not_true, true_and, and_true]
          refine ⟨hrw, ?_⟩
          intro call hcall
          simp only [List.mem_singleton] at hcall
          subst hcall
          rfl
        · simp [Context.status, Context.JSON]
        · intro _
          simp [Context.status, Context.JSON]
    · rw [hres]
      refine ⟨?_, ?_⟩
      · intro id hmem
        simp only [World.record, List.append_assoc, List.drop_left, List.mem_append,
          List.mem_singleton, List.singleton_append, List.mem_cons] at hmem
        rcases hmem with h | h | h
        · exact absurd h (hnd id)
        · cases h
        · have hid : id = c.Param "id" := by simpa using h
          subst hid
          simp only [World.record, List.append_assoc, List.drop_left, List.singleton_append]
          exact List.suffix_append reads _
      · intro e2 he2
        rw [ha] at he2
        cases he2
    · rw [hres]
      refine ⟨?_, ?_⟩
      · intro id hmem
        simp only [List.append_assoc, List.drop_left, List.mem_append, List.mem_cons,
          List.mem_singleton] at hmem
        rcases hmem with h | h | h
        · exact absurd h (hnd id)
        · cases h
        · have hid : id = c.Param "id" := by simpa using h
          subst hid
          simp only [List.append_assoc, List.drop_left]
          exact List.suffix_append reads _
      · intro e2 he2
        rw [ha] at he2
        cases he2

/-- Witness of C11: `alice` deletes `bob` (role `user`) while the identity capability refuses
the deletion: the store is untouched, the answer is 500 and the log ends with the refused
call. -/
theorem DeleteUser_identity_first_witness :
    Sample.identityDownEnv.fails (.authDeleteUser ((Sample.requestOn "bob").Param "id")) =
      some "identity provider unavailable" ∧
    (∀ id, Call.dbDeleteUser id ∉
      (UserHandler.DeleteUser Sample.identityDownEnv Sample.storeTwoAdmins
        (Sample.requestOn "bob")).1.log.drop Sample.storeTwoAdmins.log.length) ∧
    noDbWrite Sample.storeTwoAdmins
      (UserHandler.DeleteUser Sample.identityDownEnv Sample.storeTwoAdmins
        (Sample.requestOn "bob")).1 ∧
    (UserHandler.DeleteUser Sample.identityDownEnv Sample.storeTwoAdmins
        (Sample.requestOn "bob")).2.status ≠ StatusOK ∧
    (UserHandler.DeleteUser Sample.identityDownEnv Sample.storeTwoAdmins
        (Sample.requestOn "bob")).2.status = StatusInternalServerError :=
  have h := (DeleteUser_identity_first Sample.identityDownEnv Sample.storeTwoAdmins
    (Sample.requestOn "bob")).2 "identity provider unavailable" (by decide)
  ⟨by decide, h.1, h.2.1, h.2.2.1, h.2.2.2 (by decide)⟩

/-! ## Aggregate setup progress -/

theorem setupProgress_eq (company : Company) :
    SetupHandler.setupProgress company = 20 * ((milestones company).count true : Int) := by
  unfold SetupHandler.setupProgress milestones
  by_cases h1 : company.Domain = "" <;> by_cases h2 : company.ColorTheme = "" <;>
    cases h3 : company.UsersInvited <;> cases h4 : company.SubscriptionActive <;>
    cases h5 : company.DownloadReady <;> simp [h1, h2]

theorem count_milestones_le (company : Company) : (milestones company).count true ≤ 5 := by
  have h := List.count_le_length true (milestones company)
  simpa [milestones] using h

/-- When `GetCompanyStats` answers 200, the `setup_progress` of its payload is the progress
computed from the company record it loaded. -/
theorem GetCompanyStats_ok_progress (env : Env) (w : World) (c : Context)
    (h : (SetupHandler.GetCompanyStats env w c).2.status = StatusOK) :
    ∃ (uc : UserContext) (company : Company),
      c.Get "user_context" = some uc ∧
      (DatabaseProvider.GetCompany env w uc.CompanyID).1 = .ok company ∧
      (SetupHandler.GetCompanyStats env w c).2.dataField "setup_progress" =
        some (.val (.int (SetupHandler.setupProgress company))) := by
  unfold SetupHandler.GetCompanyStats at h ⊢
  cases hp : c.Get "user_context" with
  | none => simp [hp, Context.status, Context.JSON] at h
  | some uc =>
    simp only [hp] at h ⊢
    cases hco : DatabaseProvider.GetCompany env w uc.CompanyID with
    | mk r1 w1 =>
      cases r1 with
      | error e => simp [hco, Context.status, Context.JSON] at h
      | ok company =>
        refine ⟨uc, company, rfl, by rw [hco], ?_⟩
        simp only [hco] at h ⊢
        cases h2 : DatabaseProvider.CountUsersByCompany env w1 uc.CompanyID with
        | mk r2 w2 =>
          cases r2 with
          | error e => simp [h2, Context.status, Context.JSON] at h
          | ok n2 =>
            simp only [h2] at h ⊢
            cases h3 : DatabaseProvider.CountActiveUsersByCompany env w2 uc.CompanyID with
            | mk r3 w3 =>
              cases r3 with
              | error e => simp [h3, Context.status, Context.JSON] at h
              | ok n3 =>
                simp only [h3] at h ⊢
                cases h4 : DatabaseProvider.CountInvitedUsersByCompany env w3 uc.CompanyID with
                | mk r4 w4 =>
                  cases r4 with
                  | error e => simp [h4, Context.status, Context.JSON] at h
                  | ok n4 =>
                    simp only [h4] at h ⊢
                    cases h5 : DatabaseProvider.CountPendingInvitationsByCompany env w4
                        uc.CompanyID with
                    | mk r5 w5 =>
                      cases r5 with
                      | error e => simp [h5, Context.status, Context.JSON] at h
                      | ok n5 =>
                        simp [h5, SetupHandler.answerStats, SetupHandler.statsPayload,
                          Context.dataField, Context.JSON]

/-- The tail `answerStats` of `GetCompanyStats` (lines 153-199) puts in its answer, whatever
the counts, the subscription and the configuration status are, 20 times the number of true
conditions among the five milestones; the value is one of 0, 20, 40, 60, 80, 100 and the
same for two company records with the same five conditions. -/
theorem answerStats_progress (env : Env) (w : World) (c : Context)
    (uc : UserContext) (company : Company) (totalUsers activeUsers invitedUsers pending : Int) :
    (SetupHandler.answerStats env w c uc company totalUsers activeUsers invitedUsers
        pending).2.dataField "setup_progress" =
      some (.val (.int (20 * ((milestones company).count true : Int)))) ∧
    SetupHandler.setupProgress company = 20 * ((milestones company).count true : Int) ∧
    SetupHandler.setupProgress company ∈ ([0, 20, 40, 60, 80, 100] : List Int) ∧
    (∀ other : Company, milestones other = milestones company →
      SetupHandler.setupProgress other = SetupHandler.setupProgress company) := by
  have heq := setupProgress_eq company
  refine ⟨?_, heq, ?_, ?_⟩
  · simp [SetupHandler.answerStats, SetupHandler.statsPayload, Context.dataField,
      Context.JSON, heq]
  · rw [heq]
    have hle := count_milestones_le company
    have hcases : (milestones company).count true = 0 ∨ (milestones company).count true = 1 ∨
        (milestones company).count true = 2 ∨ (milestones company).count true = 3 ∨
        (milestones company).count true = 4 ∨ (milestones company).count true = 5 := by
      omega
    rcases hcases with h | h | h | h | h | h <;> rw [h] <;> decide
  · intro other hm
    rw [heq, setupProgress_eq other, hm]

/-! ## The download gate -/

/-- When the scope holds a principal under the key `user_context` and its tenant record
loads, `GetDownloadInfo` answers 200 with the download data if `DownloadReady` is true and 400
otherwise; no other field of the tenant is consulted. -/
theorem GetDownloadInfo_gate (env : Env) (w : World) (c : Context) (uc : UserContext)
    (company : Company) (hp : c.Get "user_context" = some uc)
    (hco : (DatabaseProvider.GetCompany env w uc.CompanyID).1 = .ok company) :
    (SetupHandler.GetDownloadInfo env w c).2.written =
      some (if company.DownloadReady = true then
          { code := StatusOK,
            body := { Success := true, Data := SetupHandler.downloadInfo env.now } }
        else
          { code := StatusBadRequest,
            body := { Success := false,
                      Error := "Company setup not complete. Download not ready." } }) := by
  have hpair : DatabaseProvider.GetCompany env w uc.CompanyID =
      (.ok company, (DatabaseProvider.GetCompany env w uc.CompanyID).2) := by
    rw [← hco]
  unfold SetupHandler.GetDownloadInfo
  rw [hp]
  simp only []
  rw [hpair]
  cases hd : company.DownloadReady <;> simp [hd, Context.JSON]

/-- A scope without the key `user_context` is answered 401 by `GetDownloadInfo`, before the
tenant is read. -/
theorem GetDownloadInfo_without_key (env : Env) (w : World) (c : Context)
    (h : c.Get "user_context" = none) :
    SetupHandler.GetDownloadInfo env w c =
      (w, c.JSON StatusUnauthorized
        { Success := false, Error := "User context not found" }) := by
  unfold SetupHandler.GetDownloadInfo
  rw [h]

/-- C13 (code bug), evaluated at the failing input: `alice` is authenticated (token
`tok-alice`), her tenant `A` is stored with `DownloadReady = true`. Behind `Authenticate`,
with the database provider set or as `main` wires it, `GetDownloadInfo` answers 401, not 200:
the middleware attaches the principal under the key `user`, the handler reads the key
`user_context`. The same principal placed under `user_context` is answered 200. -/
theorem GetDownloadInfo_behind_Authenticate_is_401 :
    getDoc Company.ID "A" Sample.tenantStore.companies = some Sample.companyA ∧
    Sample.companyA.DownloadReady = true ∧
    (AuthMiddleware.Authenticate (mainAuthMiddleware.SetDatabaseProvider .provider)
        Sample.downstream Sample.tokenEnv Sample.tenantStore
        (Sample.bearer "tok-alice")).2.Get "user" = some Sample.adminA ∧
    (AuthMiddleware.Authenticate (mainAuthMiddleware.SetDatabaseProvider .provider)
        SetupHandler.GetDownloadInfo Sample.tokenEnv Sample.tenantStore
        (Sample.bearer "tok-alice")).2.status = StatusUnauthorized ∧
    (AuthMiddleware.Authenticate mainAuthMiddleware SetupHandler.GetDownloadInfo
        Sample.tokenEnv Sample.tenantStore
        (Sample.bearer "tok-alice")).2.status = StatusUnauthorized ∧
    (SetupHandler.GetDownloadInfo Sample.tokenEnv Sample.tenantStore
        (Sample.scopeWith "user" Sample.adminA)).2.status = StatusUnauthorized ∧
    (SetupHandler.GetDownloadInfo Sample.tokenEnv Sample.tenantStore
        (Sample.scopeWith "user_context" Sample.adminA)).2.status = StatusOK :=
  ⟨by decide, by decide, by decide, by decide, by decide, by decide, by decide⟩

/-! ## Configuration status -/

theorem dbGetCompany_eq (env : Env) (w : World) (id : String) :
    DatabaseProvider.GetCompany env w id =
      ((DatabaseProvider.GetCompany env w id).1, w.record (.dbGetCompany id)) := by
  unfold DatabaseProvider.GetCompany
  split
  · rfl
  · split <;> rfl

theorem dbGetCompany_of_getDoc (env : Env) (w : World) (id : String) (company : Company)
    (hf : env.fails (.dbGetCompany id) = none)
    (hco : getDoc Company.ID id w.companies = some company) :
    (DatabaseProvider.GetCompany env w id).1 = .ok company := by
  unfold DatabaseProvider.GetCompany
  simp [hf, hco]

theorem dbGetCompany_ok (env : Env) (w : World) (id : String) (company : Company)
    (h : (DatabaseProvider.GetCompany env w id).1 = .ok company) :
    env.fails (.dbGetCompany id) = none ∧ getDoc Company.ID id w.companies = some company := by
  unfold DatabaseProvider.GetCompany at h
  split at h
  · simp at h
  · rename_i hf
    split at h
    · rename_i c0 hg
      simp only [Except.ok.injEq] at h
      rw [← h]
      exact ⟨hf, hg⟩
    · simp at h

theorem setFeature_ID (feature : String) (status : Bool) (company : Company) :
    (DatabaseProvider.setFeature feature status company).ID = company.ID := by
  unfold DatabaseProvider.setFeature
  repeat' split
  all_goals rfl

/-- The configuration status after the `switch`: the entry of the feature key, if it is one
of the eight, takes the status; every other entry is as before. -/
theorem configurationStatus_setFeature (feature : String) (status : Bool) (company : Company)
    (t : Nat) :
    DatabaseProvider.configurationStatus
        { DatabaseProvider.setFeature feature status company with UpdatedAt := t } =
      (DatabaseProvider.configurationStatus company).map
        (fun kv => if kv.1 = feature then (kv.1, status) else kv) := by
  unfold DatabaseProvider.setFeature DatabaseProvider.configurationStatus
  by_cases h1 : feature = "website_security"
  · subst h1; simp
  by_cases h2 : feature = "malware_security"
  · subst h2; simp
  by_cases h3 : feature = "data_controls"
  · subst h3; simp
  by_cases h4 : feature = "reporting"
  · subst h4; simp
  by_cases h5 : feature = "browser_customization"
  · subst h5; simp
  by_cases h6 : feature = "subscription"
  · subst h6; simp
  by_cases h7 : feature = "users_invited"
  · subst h7; simp
  by_cases h8 : feature = "download_ready"
  · subst h8; simp
  have e1 : ¬ "website_security" = feature := fun e => h1 e.symm
  have e2 : ¬ "malware_security" = feature := fun e => h2 e.symm
  have e3 : ¬ "data_controls" = feature := fun e => h3 e.symm
  have e4 : ¬ "reporting" = feature := fun e => h4 e.symm
  have e5 : ¬ "browser_customization" = feature := fun e => h5 e.symm
  have e6 : ¬ "subscription" = feature := fun e => h6 e.symm
  have e7 : ¬ "users_invited" = feature := fun e => h7 e.symm
  have e8 : ¬ "download_ready" = feature := fun e => h8 e.symm
  simp [h1, h2, h3, h4, h5, h6, h7, h8, e1, e2, e3, e4, e5, e6, e7, e8]

/-- C14: for every existing tenant, feature key `k` and boolean `s`: after
`UpdateCompanyConfigurationStatus(tenant, k, s)` returns no error, a
`GetCompanyConfigurationStatus` whose read succeeds returns the map of the eight keys in
which the entry of `k` (if `k` is one of the eight) is `s` and every other entry has the
value it had before the update; for a `k` that is none of the eight the map is the one from
before. The update returns no error, for any `k`, whenever its read and its write do not
fail. -/
theorem configuration_status_after_update (env env2 : Env) (w : World)
    (companyID k : String) (s : Bool) (company : Company)
    (hco : getDoc Company.ID companyID w.companies = some company) :
    ((DatabaseProvider.UpdateCompanyConfigurationStatus env w companyID k s).1 = none →
      env2.fails (.dbGetCompany companyID) = none →
      ∃ m : List (String × Bool),
        (DatabaseProvider.GetCompanyConfigurationStatus env2
          (DatabaseProvider.UpdateCompanyConfigurationStatus env w companyID k s).2
          companyID).1 = .ok m ∧
        m.map Prod.fst = featureKeys ∧
        m = (DatabaseProvider.configurationStatus company).map
          (fun kv => if kv.1 = k then (kv.1, s) else kv) ∧
        (k ∈ featureKeys → (k, s) ∈ m) ∧
        (∀ key v, key ≠ k → ((key, v) ∈ m ↔
          (key, v) ∈ DatabaseProvider.configurationStatus company)) ∧
        (k ∉ featureKeys → m = DatabaseProvider.configurationStatus company)) ∧
    (env.fails (.dbGetCompany companyID) = none →
      (∀ co, env.fails (.dbUpdateCompany co) = none) →
      (DatabaseProvider.UpdateCompanyConfigurationStatus env w companyID k s).1 = none) := by
  have hid : company.ID = companyID := getDoc_key Company.ID companyID w.companies company hco
  constructor
  · intro hok hread
    have hupd : (DatabaseProvider.UpdateCompanyConfigurationStatus env w companyID k s).2.companies
        = setDoc Company.ID
          { DatabaseProvider.setFeature k s company with UpdatedAt := env.now } w.companies := by
      unfold DatabaseProvider.UpdateCompanyConfigurationStatus at hok ⊢
      rw [dbGetCompany_eq] at hok ⊢
      cases hg : (DatabaseProvider.GetCompany env w companyID).1 with
      | error e => simp [hg] at hok
      | ok co =>
        have hco2 := (dbGetCompany_ok env w companyID co hg).2
        rw [hco] at hco2
        simp only [Option.some.injEq] at hco2
        subst hco2
        simp only [hg] at hok ⊢
        unfold DatabaseProvider.UpdateCompany at hok ⊢
        simp only [] at hok ⊢
        cases hf : env.fails (.dbUpdateCompany
            { DatabaseProvider.setFeature k s company with UpdatedAt := env.now }) with
        | some e => simp [hf] at hok
        | none => simp [hf, World.record]
    have hget : getDoc Company.ID companyID
        (DatabaseProvider.UpdateCompanyConfigurationStatus env w companyID k s).2.companies =
        some { DatabaseProvider.setFeature k s company with UpdatedAt := env.now } := by
      rw [hupd]
      have := getDoc_setDoc_self Company.ID
        { DatabaseProvider.setFeature k s company with UpdatedAt := env.now } w.companies
      simpa [setFeature_ID, hid] using this
    have hmap := configurationStatus_setFeature k s company env.now
    refine ⟨_, ?_, ?_, hmap, ?_, ?_, ?_⟩
    · unfold DatabaseProvider.GetCompanyConfigurationStatus
      rw [dbGetCompany_eq, dbGetCompany_of_getDoc env2 _ companyID _ hread hget]
    · rw [hmap]
      simp only [List.map_map]
      have : (Prod.fst ∘ fun kv : String × Bool => if kv.1 = k then (kv.1, s) else kv) =
          Prod.fst := by
        funext kv
        simp only [Function.comp]
        split <;> rfl
      rw [this]
      rfl
    · intro hk
      rw [hmap]
      simp only [featureKeys, List.mem_cons, List.mem_singleton, List.not_mem_nil,
        or_false] at hk
      rcases hk with h | h | h | h | h | h | h | h <;> subst h <;>
        simp [DatabaseProvider.configurationStatus]
    · intro key v hne
      rw [hmap]
      simp only [List.mem_map, Prod.exists]
      constructor
      · rintro ⟨a, b, hab, hkv⟩
        by_cases hak : a = k
        · simp only [hak, if_true, Prod.mk.injEq] at hkv
          exact absurd hkv.1.symm hne
        · simp only [hak, if_false, Prod.mk.injEq] at hkv
          rw [← hkv.1, ← hkv.2]
          exact hab
      · intro hmem
        exact ⟨key, v, hmem, by simp [hne]⟩
    · intro hk
      rw [hmap]
      have : ∀ kv ∈ DatabaseProvider.configurationStatus company,
          (if kv.1 = k then (kv.1, s) else kv) = kv := by
        intro kv hkv
        have hfst : kv.1 ∈ featureKeys := by
          have := List.mem_map_of_mem Prod.fst hkv
          simpa [DatabaseProvider.configurationStatus, featureKeys] using this
        have : ¬ kv.1 = k := fun e => hk (e ▸ hfst)
        simp [this]
      calc (DatabaseProvider.configurationStatus company).map
            (fun kv => if kv.1 = k then (kv.1, s) else kv)
          = (DatabaseProvider.configurationStatus company).map id :=
            List.map_congr_left this
        _ = DatabaseProvider.configurationStatus company := List.map_id _
  · intro hf hall
    unfold DatabaseProvider.UpdateCompanyConfigurationStatus
    rw [dbGetCompany_eq, dbGetCompany_of_getDoc env w companyID company hf hco]
    simp [DatabaseProvider.UpdateCompany, hall]

/-- Witness of C14: tenant `A` sets `website_security` to true, then reads the status. -/
theorem configuration_status_after_update_witness :
    getDoc Company.ID "A" Sample.tenantStore.companies = some Sample.companyA ∧
    (DatabaseProvider.UpdateCompanyConfigurationStatus quietEnv Sample.tenantStore "A"
      "website_security" true).1 = none ∧
    ∃ m : List (String × Bool),
      (DatabaseProvider.GetCompanyConfigurationStatus quietEnv
        (DatabaseProvider.UpdateCompanyConfigurationStatus quietEnv Sample.tenantStore "A"
          "website_security" true).2 "A").1 = .ok m ∧
      m.map Prod.fst = featureKeys ∧
      m = (DatabaseProvider.configurationStatus Sample.companyA).map
        (fun kv => if kv.1 = "website_security" then (kv.1, true) else kv) ∧
      ("website_security" ∈ featureKeys → ("website_security", true) ∈ m) ∧
      (∀ key v, key ≠ "website_security" → ((key, v) ∈ m ↔
        (key, v) ∈ DatabaseProvider.configurationStatus Sample.companyA)) ∧
      ("website_security" ∉ featureKeys →
        m = DatabaseProvider.configurationStatus Sample.companyA) :=
  ⟨by decide, by decide,
    (configuration_status_after_update quietEnv quietEnv Sample.tenantStore "A"
      "website_security" true Sample.companyA (by decide)).1 (by decide) rfl⟩

/-! ## Aggregate progress in the answer of `GetCompanyStats` -/

/-- The four counts of `GetCompanyStats` return 0 and no error: each counts a query on the
field `company_id`, which no stored document has. -/
theorem dbCounts_zero (env : Env) (w : World) (companyID : String) :
    DatabaseProvider.CountUsersByCompany env w companyID =
      (.ok 0, w.record (.dbCountUsersByCompany companyID)) ∧
    DatabaseProvider.CountActiveUsersByCompany env w companyID =
      (.ok 0, w.record (.dbCountActiveUsersByCompany companyID)) ∧
    DatabaseProvider.CountInvitedUsersByCompany env w companyID =
      (.ok 0, w.record (.dbCountInvitedUsersByCompany companyID)) ∧
    DatabaseProvider.CountPendingInvitationsByCompany env w companyID =
      (.ok 0, w.record (.dbCountPendingInvitationsByCompany companyID)) := by
  have hu := whereEq_absent User.document "company_id" (.str companyID) w.users
    (fun d => by rfl)
  have hi := whereEq_absent Invitation.document "company_id" (.str companyID) w.invitations
    (fun d => by rfl)
  refine ⟨?_, ?_, ?_, ?_⟩
  · unfold DatabaseProvider.CountUsersByCompany
    rw [hu]
    cases env.fails (.dbCountUsersByCompany companyID) <;> rfl
  · unfold DatabaseProvider.CountActiveUsersByCompany
    rw [hu]
    cases env.fails (.dbCountActiveUsersByCompany companyID) <;> rfl
  · unfold DatabaseProvider.CountInvitedUsersByCompany
    rw [hu]
    cases env.fails (.dbCountInvitedUsersByCompany companyID) <;> rfl
  · unfold DatabaseProvider.CountPendingInvitationsByCompany
    rw [hi]
    cases env.fails (.dbCountPendingInvitationsByCompany companyID) <;> rfl

/-- With the principal under `user_context` and the tenant record loaded, `GetCompanyStats`
is its tail `answerStats` on that record. -/
theorem GetCompanyStats_loaded (env : Env) (w : World) (c : Context) (uc : UserContext)
    (company : Company) (hp : c.Get "user_context" = some uc)
    (hco : (DatabaseProvider.GetCompany env w uc.CompanyID).1 = .ok company) :
    SetupHandler.GetCompanyStats env w c =
      SetupHandler.answerStats env
        ((((((w.record (.dbGetCompany uc.CompanyID)).record
          (.dbCountUsersByCompany uc.CompanyID)).record
          (.dbCountActiveUsersByCompany uc.CompanyID)).record
          (.dbCountInvitedUsersByCompany uc.CompanyID)).record
          (.dbCountPendingInvitationsByCompany uc.CompanyID)))
        c uc company 0 0 0 0 := by
  unfold SetupHandler.GetCompanyStats
  simp only [hp]
  rw [dbGetCompany_eq, hco]
  simp only []
  rw [(dbCounts_zero env _ uc.CompanyID).1]
  simp only []
  rw [(dbCounts_zero env _ uc.CompanyID).2.1]
  simp only []
  rw [(dbCounts_zero env _ uc.CompanyID).2.2.1]
  simp only []
  rw [(dbCounts_zero env _ uc.CompanyID).2.2.2]

/-- C12: for every company record, loaded by `GetCompanyStats` for the principal it reads
(key `user_context`): the handler answers 200 and the `setup_progress` of its payload equals
20 times the number of true conditions among `Domain != ""`, `ColorTheme != ""`,
`UsersInvited`, `SubscriptionActive`, `DownloadReady`; it is one of 0, 20, 40, 60, 80, 100;
and any other request whose loaded company record has the same five conditions gets the same
value, whatever the other fields of the two records are. -/
theorem GetCompanyStats_progress_counts_milestones (env : Env) (w : World) (c : Context)
    (uc : UserContext) (company : Company) (hp : c.Get "user_context" = some uc)
    (hco : (DatabaseProvider.GetCompany env w uc.CompanyID).1 = .ok company) :
    (SetupHandler.GetCompanyStats env w c).2.status = StatusOK ∧
    (SetupHandler.GetCompanyStats env w c).2.dataField "setup_progress" =
      some (.val (.int (20 * ((milestones company).count true : Int)))) ∧
    (∃ v ∈ ([0, 20, 40, 60, 80, 100] : List Int),
      (SetupHandler.GetCompanyStats env w c).2.dataField "setup_progress" =
        some (.val (.int v))) ∧
    (∀ (env2 : Env) (w2 : World) (c2 : Context) (uc2 : UserContext) (other : Company),
      c2.Get "user_context" = some uc2 →
      (DatabaseProvider.GetCompany env2 w2 uc2.CompanyID).1 = .ok other →
      milestones other = milestones company →
      (SetupHandler.GetCompanyStats env2 w2 c2).2.dataField "setup_progress" =
        (SetupHandler.GetCompanyStats env w c).2.dataField "setup_progress") := by
  have hval : ∀ (env : Env) (w : World) (c : Context) (uc : UserContext) (company : Company),
      c.Get "user_context" = some uc →
      (DatabaseProvider.GetCompany env w uc.CompanyID).1 = .ok company →
      (SetupHandler.GetCompanyStats env w c).2.dataField "setup_progress" =
        some (.val (.int (20 * ((milestones company).count true : Int)))) := by
    intro env w c uc company hp hco
    rw [GetCompanyStats_loaded env w c uc company hp hco]
    exact (answerStats_progress env _ c uc company 0 0 0 0).1
  refine ⟨?_, hval env w c uc company hp hco, ?_, ?_⟩
  · rw [GetCompanyStats_loaded env w c uc company hp hco]
    simp [SetupHandler.answerStats, Context.status, Context.JSON]
  · refine ⟨SetupHandler.setupProgress company,
      (answerStats_progress env w c uc company 0 0 0 0).2.2.1, ?_⟩
    rw [hval env w c uc company hp hco, setupProgress_eq]
  · intro env2 w2 c2 uc2 other hp2 hco2 hm
    rw [hval env w c uc company hp hco, hval env2 w2 c2 uc2 other hp2 hco2, hm]

/-- Witness of C12: the principal of `alice` under `user_context`; her tenant `A` has a
domain, a theme and `DownloadReady`, so the handler answers 200 with the progress 60. -/
theorem GetCompanyStats_progress_counts_milestones_witness :
    (SetupHandler.GetCompanyStats quietEnv Sample.tenantStore
        (Sample.scopeWith "user_context" Sample.adminA)).2.status = StatusOK ∧
    (SetupHandler.GetCompanyStats quietEnv Sample.tenantStore
        (Sample.scopeWith "user_context" Sample.adminA)).2.dataField "setup_progress" =
      some (.val (.int 60)) :=
  have h := GetCompanyStats_progress_counts_milestones quietEnv Sample.tenantStore
    (Sample.scopeWith "user_context" Sample.adminA) Sample.adminA Sample.companyA
    (by decide) rfl
  ⟨h.1, h.2.1⟩

/-! ## Generated shortcuts -/

theorem mem_setDoc {α : Type} (key : α → String) (d : α) (docs : List α) (x : α) :
    x ∈ setDoc key d docs ↔ x = d ∨ (x ∈ docs ∧ key x ≠ key d) := by
  unfold setDoc
  split
  · rename_i hany
    obtain ⟨y, hy, hky⟩ := List.any_eq_true.1 hany
    have hky2 : key y = key d := by simpa using hky
    simp only [List.mem_map]
    constructor
    · rintro ⟨a, ha, hax⟩
      by_cases hk : key a = key d
      · left
        simpa [hk] using hax.symm
      · right
        have : a = x := by simpa [hk] using hax
        subst this
        exact ⟨ha, hk⟩
    · rintro (h | ⟨hx, hk⟩)
      · exact ⟨y, hy, by simp [hky2, h]⟩
      · exact ⟨x, hx, by simp [hk]⟩
  · rename_i hany
    have hnone : ∀ y ∈ docs, key y ≠ key d := by
      intro y hy hk
      exact hany (List.any_eq_true.2 ⟨y, hy, by simpa using hk⟩)
    simp only [List.mem_append, List.mem_singleton]
    constructor
    · rintro (h | h)
      · exact Or.inr ⟨h, hnone x h⟩
      · exact Or.inl h
    · rintro (h | ⟨h, -⟩)
      · exact Or.inr h
      · exact Or.inl h

theorem map_key_setDoc {α : Type} (key : α → String) (d : α) (docs : List α) :
    (setDoc key d docs).map key =
      if (docs.any fun x => key x == key d) = true then docs.map key
      else docs.map key ++ [key d] := by
  unfold setDoc
  split
  · rw [List.map_map]
    apply List.map_congr_left
    intro x _
    simp only [Function.comp]
    split
    · rename_i h
      exact (by simpa using h : key x = key d).symm
    · rfl
  · simp

theorem nodup_setDoc {α : Type} (key : α → String) (d : α) (docs : List α)
    (h : (docs.map key).Nodup) : ((setDoc key d docs).map key).Nodup := by
  rw [map_key_setDoc]
  split
  · exact h
  · rename_i hany
    rw [List.nodup_append]
    refine ⟨h, List.nodup_singleton _, ?_⟩
    intro a ha hb
    simp only [List.mem_singleton] at hb
    subst hb
    obtain ⟨y, hy, hk⟩ := List.mem_map.1 ha
    exact hany (List.any_eq_true.2 ⟨y, hy, by simpa using hk⟩)

theorem setDoc_fixed {α : Type} (key : α → String) (d : α) (docs : List α) (hd : d ∈ docs)
    (huniq : ∀ x ∈ docs, key x = key d → x = d) : setDoc key d docs = docs := by
  unfold setDoc
  have hany : (docs.any fun x => key x == key d) = true :=
    List.any_eq_true.2 ⟨d, hd, by simp⟩
  rw [if_pos hany]
  calc docs.map (fun x => if key x == key d then d else x)
      = docs.map id := by
        apply List.map_congr_left
        intro x hx
        by_cases hk : key x = key d
        · simp [hk, huniq x hx hk]
        · simp [hk]
    _ = docs := List.map_id _

theorem mem_setDocs (batch docs : List BrowserShortcut) (x : BrowserShortcut)
    (hnd : (batch.map BrowserShortcut.ID).Nodup) :
    x ∈ DatabaseProvider.setDocs batch docs ↔
      x ∈ batch ∨ (x ∈ docs ∧ x.ID ∉ batch.map BrowserShortcut.ID) := by
  induction batch generalizing docs with
  | nil => simp [DatabaseProvider.setDocs]
  | cons d ds ih =>
    have hsplit := List.nodup_cons.1 hnd
    have hstep : DatabaseProvider.setDocs (d :: ds) docs =
        DatabaseProvider.setDocs ds (setDoc BrowserShortcut.ID d docs) := rfl
    rw [hstep, ih _ hsplit.2, mem_setDoc]
    simp only [List.map_cons, List.mem_cons, not_or]
    constructor
    · rintro (h | ⟨h | ⟨hx, hk⟩, hnot⟩)
      · exact Or.inl (Or.inr h)
      · exact Or.inl (Or.inl h)
      · exact Or.inr ⟨hx, hk, hnot⟩
    · rintro ((h | h) | ⟨hx, hk, hnot⟩)
      · subst h
        exact Or.inr ⟨Or.inl rfl, hsplit.1⟩
      · exact Or.inl h
      · exact Or.inr ⟨Or.inr ⟨hx, hk⟩, hnot⟩

theorem nodup_setDocs (batch docs : List BrowserShortcut)
    (h : (docs.map BrowserShortcut.ID).Nodup) :
    ((DatabaseProvider.setDocs batch docs).map BrowserShortcut.ID).Nodup := by
  induction batch generalizing docs with
  | nil => simpa [DatabaseProvider.setDocs] using h
  | cons d ds ih =>
    have hstep : DatabaseProvider.setDocs (d :: ds) docs =
        DatabaseProvider.setDocs ds (setDoc BrowserShortcut.ID d docs) := rfl
    rw [hstep]
    exact ih _ (nodup_setDoc BrowserShortcut.ID d docs h)

theorem setDocs_fixed (batch docs : List BrowserShortcut) (hmem : ∀ d ∈ batch, d ∈ docs)
    (huniq : ∀ d ∈ batch, ∀ x ∈ docs, x.ID = d.ID → x = d) :
    DatabaseProvider.setDocs batch docs = docs := by
  induction batch with
  | nil => rfl
  | cons d ds ih =>
    have hstep : DatabaseProvider.setDocs (d :: ds) docs =
        DatabaseProvider.setDocs ds (setDoc BrowserShortcut.ID d docs) := rfl
    rw [hstep, setDoc_fixed BrowserShortcut.ID d docs (hmem d (List.mem_cons_self _ _))
      (huniq d (List.mem_cons_self _ _))]
    exact ih (fun e he => hmem e (List.mem_cons_of_mem _ he))
      (fun e he => huniq e (List.mem_cons_of_mem _ he))

theorem string_append_right_inj (p a b : String) : p ++ a = p ++ b ↔ a = b := by
  constructor
  · intro h
    have hd := congrArg String.data h
    rw [String.data_append, String.data_append] at hd
    exact String.ext (List.append_cancel_left hd)
  · intro h
    rw [h]

/-- The four ids of one batch are pairwise distinct. -/
theorem commonShortcuts_ids_nodup (companyID domain : String) :
    ((DatabaseProvider.commonShortcuts companyID domain).map BrowserShortcut.ID).Nodup := by
  simp [DatabaseProvider.commonShortcuts, string_append_right_inj]

/-- After a committed batch, committing the same batch again changes nothing. -/
theorem setDocs_commonShortcuts_twice (companyID domain : String)
    (docs : List BrowserShortcut) :
    DatabaseProvider.setDocs (DatabaseProvider.commonShortcuts companyID domain)
        (DatabaseProvider.setDocs (DatabaseProvider.commonShortcuts companyID domain) docs) =
      DatabaseProvider.setDocs (DatabaseProvider.commonShortcuts companyID domain) docs := by
  have hnd := commonShortcuts_ids_nodup companyID domain
  apply setDocs_fixed
  · intro d hd
    exact (mem_setDocs _ docs d hnd).2 (Or.inl hd)
  · intro d hd x hx hid
    rcases (mem_setDocs _ docs x hnd).1 hx with h | ⟨-, hnot⟩
    · exact List.inj_on_of_nodup_map hnd h hd hid
    · exact absurd (hid ▸ List.mem_map_of_mem BrowserShortcut.ID hd) hnot

/-- A tenant without shortcuts, in a store with unique ids, has exactly the four generated
shortcuts after a committed batch. -/
theorem setDocs_commonShortcuts_count (companyID domain : String)
    (docs : List BrowserShortcut) (hnd : (docs.map BrowserShortcut.ID).Nodup)
    (hnone : ∀ x ∈ docs, x.CompanyID ≠ companyID) :
    ((DatabaseProvider.setDocs (DatabaseProvider.commonShortcuts companyID domain)
      docs).filter (fun x => x.CompanyID == companyID)).length = 4 := by
  have hb := commonShortcuts_ids_nodup companyID domain
  have hS := nodup_setDocs (DatabaseProvider.commonShortcuts companyID domain) docs hnd
  have hperm : ((DatabaseProvider.setDocs (DatabaseProvider.commonShortcuts companyID domain)
      docs).filter (fun x => x.CompanyID == companyID)).Perm
      (DatabaseProvider.commonShortcuts companyID domain) := by
    rw [List.perm_ext_iff_of_nodup ((List.Nodup.of_map _ hS).filter _) (List.Nodup.of_map _ hb)]
    intro x
    rw [List.mem_filter, mem_setDocs _ docs x hb]
    constructor
    · rintro ⟨h | ⟨hx, -⟩, hc⟩
      · exact h
      · exact absurd (by simpa using hc) (hnone x hx)
    · intro hx
      refine ⟨Or.inl hx, ?_⟩
      simp only [DatabaseProvider.commonShortcuts, List.mem_cons, List.mem_singleton,
        List.not_mem_nil, or_false] at hx
      rcases hx with h | h | h | h <;> subst h <;> simp
  rw [hperm.length_eq]
  rfl

/-- C15: `GenerateShortcutsForDomain` is idempotent on the shortcut store. For every tenant
id and domain, after a run that committed, a second run with the same arguments (committed
or not) leaves the shortcut collection as the first run left it, and no run touches another
collection; a tenant that had no shortcut before, in a store whose document ids are unique,
has exactly 4 shortcut records after one run and after two. -/
theorem GenerateShortcuts_idempotent (env env2 : Env) (w : World) (companyID domain : String)
    (hfirst : (DatabaseProvider.GenerateShortcutsForDomain env w companyID domain).1 = none) :
    (DatabaseProvider.GenerateShortcutsForDomain env2
        (DatabaseProvider.GenerateShortcutsForDomain env w companyID domain).2
        companyID domain).2.shortcuts =
      (DatabaseProvider.GenerateShortcutsForDomain env w companyID domain).2.shortcuts ∧
    (DatabaseProvider.GenerateShortcutsForDomain env2
        (DatabaseProvider.GenerateShortcutsForDomain env w companyID domain).2
        companyID domain).2.users = w.users ∧
    (DatabaseProvider.GenerateShortcutsForDomain env2
        (DatabaseProvider.GenerateShortcutsForDomain env w companyID domain).2
        companyID domain).2.invitations = w.invitations ∧
    (DatabaseProvider.GenerateShortcutsForDomain env2
        (DatabaseProvider.GenerateShortcutsForDomain env w companyID domain).2
        companyID domain).2.companies = w.companies ∧
    ((w.shortcuts.map BrowserShortcut.ID).Nodup →
      (∀ x ∈ w.shortcuts, x.CompanyID ≠ companyID) →
      ((DatabaseProvider.GenerateShortcutsForDomain env w companyID domain).2.shortcuts.filter
        (fun x => x.CompanyID == companyID)).length = 4 ∧
      ((DatabaseProvider.GenerateShortcutsForDomain env2
        (DatabaseProvider.GenerateShortcutsForDomain env w companyID domain).2
        companyID domain).2.shortcuts.filter
        (fun x => x.CompanyID == companyID)).length = 4) := by
  have h1 : DatabaseProvider.GenerateShortcutsForDomain env w companyID domain =
      (none, { w with
        shortcuts := DatabaseProvider.setDocs
          (DatabaseProvider.commonShortcuts companyID domain) w.shortcuts,
        log := w.log ++
          [.dbCommitShortcuts (DatabaseProvider.commonShortcuts companyID domain)] }) := by
    unfold DatabaseProvider.GenerateShortcutsForDomain at hfirst ⊢
    cases hf : env.fails
        (.dbCommitShortcuts (DatabaseProvider.commonShortcuts companyID domain)) with
    | some e => simp [hf] at hfirst
    | none => rfl
  rw [h1]
  have h2 : (DatabaseProvider.GenerateShortcutsForDomain env2
      { w with
        shortcuts := DatabaseProvider.setDocs
          (DatabaseProvider.commonShortcuts companyID domain) w.shortcuts,
        log := w.log ++
          [.dbCommitShortcuts (DatabaseProvider.commonShortcuts companyID domain)] }
      companyID domain).2.shortcuts =
      DatabaseProvider.setDocs (DatabaseProvider.commonShortcuts companyID domain)
        w.shortcuts := by
    unfold DatabaseProvider.GenerateShortcutsForDomain
    cases hf : env2.fails
        (.dbCommitShortcuts (DatabaseProvider.commonShortcuts companyID domain)) with
    | some e => simp [World.record]
    | none => simp [setDocs_commonShortcuts_twice]
  have h3 : ∀ (env3 : Env) (w3 : World),
      (DatabaseProvider.GenerateShortcutsForDomain env3 w3 companyID domain).2.users =
        w3.users ∧
      (DatabaseProvider.GenerateShortcutsForDomain env3 w3 companyID domain).2.invitations =
        w3.invitations ∧
      (DatabaseProvider.GenerateShortcutsForDomain env3 w3 companyID domain).2.companies =
        w3.companies := by
    intro env3 w3
    unfold DatabaseProvider.GenerateShortcutsForDomain
    cases hf : env3.fails
        (.dbCommitShortcuts (DatabaseProvider.commonShortcuts companyID domain)) <;>
      simp [World.record]
  refine ⟨h2, (h3 env2 _).1, (h3 env2 _).2.1, (h3 env2 _).2.2, ?_⟩
  intro hnd hnone
  rw [h2]
  exact ⟨setDocs_commonShortcuts_count companyID domain w.shortcuts hnd hnone,
    setDocs_commonShortcuts_count companyID domain w.shortcuts hnd hnone⟩

/-- Witness of C15: tenant `A`, which has no shortcut in the store of tenant `B`, generates
its shortcuts twice. -/
theorem GenerateShortcuts_idempotent_witness :
    (DatabaseProvider.GenerateShortcutsForDomain quietEnv Sample.storeB "A" "a.example").1 =
      none ∧
    (DatabaseProvider.GenerateShortcutsForDomain quietEnv
        (DatabaseProvider.GenerateShortcutsForDomain quietEnv Sample.storeB "A" "a.example").2
        "A" "a.example").2.shortcuts =
      (DatabaseProvider.GenerateShortcutsForDomain quietEnv Sample.storeB "A"
        "a.example").2.shortcuts ∧
    ((DatabaseProvider.GenerateShortcutsForDomain quietEnv Sample.storeB "A"
        "a.example").2.shortcuts.filter (fun x => x.CompanyID == "A")).length = 4 ∧
    ((DatabaseProvider.GenerateShortcutsForDomain quietEnv
        (DatabaseProvider.GenerateShortcutsForDomain quietEnv Sample.storeB "A" "a.example").2
        "A" "a.example").2.shortcuts.filter (fun x => x.CompanyID == "A")).length = 4 :=
  have h := GenerateShortcuts_idempotent quietEnv quietEnv Sample.storeB "A" "a.example"
    (by decide)
  have hc := h.2.2.2.2 (by decide) (by decide)
  ⟨by decide, h.1, hc.1, hc.2⟩

/-! ## Domain uniqueness -/

/-- The lookup of a tenant by its domain finds nothing: the query names the field `domain`,
the documents hold the domain under `Domain`. -/
theorem dbGetCompanyByDomain_not_found (env : Env) (w : World) (domain : String) :
    DatabaseProvider.GetCompanyByDomain env w domain =
      (.error "company not found", w.record (.dbGetCompanyByDomain domain)) := by
  unfold DatabaseProvider.GetCompanyByDomain
  rw [whereEq_absent Company.document "domain" _ _ (fun d => by rfl)]
  cases env.fails (.dbGetCompanyByDomain domain) <;> rfl

theorem dbGetCompanyByDomain_eq (env : Env) (w : World) (domain : String) :
    DatabaseProvider.GetCompanyByDomain env w domain =
      ((DatabaseProvider.GetCompanyByDomain env w domain).1,
        w.record (.dbGetCompanyByDomain domain)) := by
  rw [dbGetCompanyByDomain_not_found]

/-- The tail of `UpdateCompany` when the write succeeds. -/
theorem finishUpdate_ok (env : Env) (w : World) (c : Context) (req : UpdateCompanyRequest)
    (company : Company)
    (hf : env.fails (.dbUpdateCompany
      { CompanyHandler.applyLook req company with UpdatedAt := env.now }) = none) :
    CompanyHandler.finishUpdate env w c req company =
      ({ w with
          companies := setDoc Company.ID
            { CompanyHandler.applyLook req company with UpdatedAt := env.now } w.companies,
          log := w.log ++ [.dbUpdateCompany
            { CompanyHandler.applyLook req company with UpdatedAt := env.now }] },
        c.JSON StatusOK
          { Success := true, Message := "Company updated successfully",
            Data := CompanyHandler.updatedPayload
              { CompanyHandler.applyLook req company with UpdatedAt := env.now } }) := by
  unfold CompanyHandler.finishUpdate DatabaseProvider.UpdateCompany
  simp only [hf]

/-- The tail of `UpdateCompany` when the write fails. -/
theorem finishUpdate_error (env : Env) (w : World) (c : Context) (req : UpdateCompanyRequest)
    (company : Company) (e : String)
    (hf : env.fails (.dbUpdateCompany
      { CompanyHandler.applyLook req company with UpdatedAt := env.now }) = some e) :
    CompanyHandler.finishUpdate env w c req company =
      (w.record (.dbUpdateCompany
          { CompanyHandler.applyLook req company with UpdatedAt := env.now }),
        c.JSON StatusInternalServerError
          { Success := false, Error := "Failed to update company" }) := by
  unfold CompanyHandler.finishUpdate DatabaseProvider.UpdateCompany
  simp only [hf]

/-- A caller of `UpdateCompany` whose role is not admin persists nothing, whatever the
request carries; the answer is 400 when the body does not bind, 404 when the caller's tenant
record does not load, and Forbidden (403) when it loads: the body is bound first, the tenant
is read next and the role is checked after that, before the domain is looked at. -/
theorem UpdateCompany_non_admin (env : Env) (w : World) (c : Context) (p : UserContext)
    (bind : Except String UpdateCompanyRequest) (hp : c.Get "user" = some p)
    (hrole : p.Role ≠ "admin") :
    noDbWrite w (CompanyHandler.UpdateCompany bind env w c).1 ∧
    (∀ e, bind = .error e →
      (CompanyHandler.UpdateCompany bind env w c).2.status = StatusBadRequest) ∧
    (∀ req e, bind = .ok req →
      (DatabaseProvider.GetCompany env w p.CompanyID).1 = .error e →
      (CompanyHandler.UpdateCompany bind env w c).2.status = StatusNotFound) ∧
    (∀ req T, bind = .ok req →
      (DatabaseProvider.GetCompany env w p.CompanyID).1 = .ok T →
      (CompanyHandler.UpdateCompany bind env w c).2.status = StatusForbidden) := by
  cases bind with
  | error err =>
    refine ⟨noDbWrite_refl w, ?_, ?_, ?_⟩
    · intro e _
      rfl
    · intro req e h
      cases h
    · intro req T h
      cases h
  | ok req0 =>
    unfold CompanyHandler.UpdateCompany
    simp only [hp]
    rw [dbGetCompany_eq]
    cases hT : (DatabaseProvider.GetCompany env w p.CompanyID).1 with
    | error e0 =>
      refine ⟨noDbWrite_record w _ rfl, ?_, ?_, ?_⟩
      · intro e h
        cases h
      · intro req e _ _
        rfl
      · intro req T _ h
        cases h
    | ok T0 =>
      simp only [hrole, ne_eq, not_false_eq_true, if_true]
      refine ⟨noDbWrite_record w _ rfl, ?_, ?_, ?_⟩
      · intro e h
        cases h
      · intro req e _ h
        cases h
      · intro req T _ _
        rfl

/-- The uniqueness lookup does not stop a taken domain: tenant `B` holds the domain
`b.example`; a `CreateCompany` with that domain by `dave` is answered 201 and stores a second
tenant with it, and an `UpdateCompany` to that domain by `alice`, admin of tenant `A`, is
answered 200 and stores it on tenant `A`. -/
theorem taken_domain_is_accepted :
    Sample.companyB ∈ Sample.daveStore.companies ∧ Sample.companyB.Domain = "b.example" ∧
    (CompanyHandler.CreateCompany (.ok { Name := "Copy", Domain := "b.example" })
        Sample.uuidEnv Sample.daveStore
        (Sample.scopeWith "user" Sample.davePrincipal)).2.status = StatusCreated ∧
    ((CompanyHandler.CreateCompany (.ok { Name := "Copy", Domain := "b.example" })
        Sample.uuidEnv Sample.daveStore
        (Sample.scopeWith "user" Sample.davePrincipal)).1.companies.map Company.Domain) =
      ["a.example", "b.example", "b.example"] ∧
    (CompanyHandler.UpdateCompany (.ok { Domain := "b.example" }) quietEnv Sample.tenantStore
        (Sample.scopeWith "user" Sample.adminA)).2.status = StatusOK ∧
    ((CompanyHandler.UpdateCompany (.ok { Domain := "b.example" }) quietEnv Sample.tenantStore
        (Sample.scopeWith "user" Sample.adminA)).1.companies.map Company.Domain) =
      ["b.example", "b.example"] := by
  refine ⟨by decide, by decide, by decide, by decide, by decide, by decide⟩

/-- C16, as stated, fails: `dave`, a member of tenant `A` with role `user`, sends
`UpdateCompany` with the domain `b.example`, which is stored on tenant `B`; the answer is
Forbidden (403), not Conflict (409): the role is checked before the domain. -/
theorem UpdateCompany_taken_domain_non_admin_is_403 :
    Sample.companyB ∈ Sample.daveStore.companies ∧
    Sample.companyB.Domain = "b.example" ∧
    Sample.companyB.ID ≠ Sample.davePrincipal.CompanyID ∧
    (DatabaseProvider.GetCompany quietEnv Sample.daveStore Sample.davePrincipal.CompanyID).1 =
      .ok Sample.companyA ∧
    Sample.companyA.Domain ≠ "b.example" ∧
    (CompanyHandler.UpdateCompany (.ok { Domain := "b.example" }) quietEnv Sample.daveStore
        (Sample.scopeWith "user" Sample.davePrincipal)).2.status = StatusForbidden ∧
    (CompanyHandler.UpdateCompany (.ok { Domain := "b.example" }) quietEnv Sample.daveStore
        (Sample.scopeWith "user" Sample.davePrincipal)).2.status ≠ StatusConflict :=
  ⟨by decide, by decide, by decide, rfl, by decide, by decide, by decide⟩

/-- C16 (amended): for a principal `p` of the request and every domain the request carries, a
domain stored on another tenant included. When the role of `p` is not admin, `UpdateCompany`
persists no field of the request and answers Forbidden (403) when the body binds and the
tenant record of `p` loads, 404 when the body binds and the record does not load, and 400
when the body does not bind. When `p` is an admin whose tenant record loads, `UpdateCompany`
whose domain equals the tenant's current domain answers 200 when the write succeeds, and the
only capability calls are the read of the tenant and its write: no uniqueness lookup. -/
theorem domain_uniqueness (env : Env) (w : World) (c : Context) (p : UserContext)
    (hp : c.Get "user" = some p) :
    (p.Role ≠ "admin" → ∀ bind : Except String UpdateCompanyRequest,
      noDbWrite w (CompanyHandler.UpdateCompany bind env w c).1 ∧
      (∀ req T, bind = .ok req →
        (DatabaseProvider.GetCompany env w p.CompanyID).1 = .ok T →
        (CompanyHandler.UpdateCompany bind env w c).2.status = StatusForbidden) ∧
      (∀ req e, bind = .ok req →
        (DatabaseProvider.GetCompany env w p.CompanyID).1 = .error e →
        (CompanyHandler.UpdateCompany bind env w c).2.status = StatusNotFound) ∧
      (∀ e, bind = .error e →
        (CompanyHandler.UpdateCompany bind env w c).2.status = StatusBadRequest)) ∧
    (∀ (req : UpdateCompanyRequest) (T : Company),
      p.Role = "admin" → (DatabaseProvider.GetCompany env w p.CompanyID).1 = .ok T →
      req.Domain = T.Domain → (∀ co, env.fails (.dbUpdateCompany co) = none) →
        (CompanyHandler.UpdateCompany (.ok req) env w c).2.status = StatusOK ∧
        ∃ stored, (CompanyHandler.UpdateCompany (.ok req) env w c).1.log =
          w.log ++ [.dbGetCompany p.CompanyID, .dbUpdateCompany stored]) := by
  refine ⟨?_, ?_⟩
  · intro hrole bind
    have h := UpdateCompany_non_admin env w c p bind hp hrole
    exact ⟨h.1, h.2.2.2, h.2.2.1, h.2.1⟩
  · intro req T hadmin hT hsame hall
    unfold CompanyHandler.UpdateCompany
    simp only [hp]
    rw [dbGetCompany_eq, hT]
    simp only [hadmin, ne_eq, not_true_eq_false, if_false]
    have hdom : (if ¬ req.Name = "" then { T with Name := req.Name } else T).Domain =
        T.Domain := by
      split <;> rfl
    rw [hdom]
    simp only [hsame, not_true_eq_false, and_false, if_false]
    rw [finishUpdate_ok env _ c req _ (hall _)]
    exact ⟨rfl,
      { CompanyHandler.applyLook req
          (if req.Name ≠ "" then { T with Name := req.Name } else T) with
        UpdatedAt := env.now },
      by simp [World.record]⟩

/-- Witness of C16 (amended): `dave`, a member of tenant `A` with role `user`, asks for the
domain of tenant `B` and is refused with 403, nothing being written; `alice`, admin of tenant
`A`, asks for her tenant's own domain and is answered 200. -/
theorem domain_uniqueness_witness :
    (noDbWrite Sample.daveStore
        (CompanyHandler.UpdateCompany (.ok { Name := "Copy", Domain := "b.example" }) quietEnv
          Sample.daveStore (Sample.scopeWith "user" Sample.davePrincipal)).1 ∧
      (CompanyHandler.UpdateCompany (.ok { Name := "Copy", Domain := "b.example" }) quietEnv
        Sample.daveStore (Sample.scopeWith "user" Sample.davePrincipal)).2.status =
        StatusForbidden) ∧
    (CompanyHandler.UpdateCompany (.ok { Domain := "a.example" }) quietEnv
        Sample.tenantStore (Sample.scopeWith "user" Sample.adminA)).2.status = StatusOK :=
  have h1 := (domain_uniqueness quietEnv Sample.daveStore
    (Sample.scopeWith "user" Sample.davePrincipal) Sample.davePrincipal (by decide)).1
    (by decide) (.ok { Name := "Copy", Domain := "b.example" })
  have h2 := (domain_uniqueness quietEnv Sample.tenantStore
    (Sample.scopeWith "user" Sample.adminA) Sample.adminA (by decide)).2
    { Domain := "a.example" } Sample.companyA (by decide) rfl (by decide) (fun _ => rfl)
  ⟨⟨h1.1, h1.2.1 _ Sample.companyA rfl rfl⟩, h2.1⟩

/-! ## Tenant creation -/

theorem dbGetUser_ok (env : Env) (w : World) (id : String) (u : User)
    (h : (DatabaseProvider.GetUser env w id).1 = .ok u) :
    env.fails (.dbGetUser id) = none ∧ getDoc User.ID id w.users = some u := by
  unfold DatabaseProvider.GetUser at h
  split at h
  · simp at h
  · rename_i hf
    split at h
    · rename_i u0 hg
      simp only [Except.ok.injEq] at h
      rw [← h]
      exact ⟨hf, hg⟩
    · simp at h

/-- A call of `CreateCompany` that answers 201 stored the new tenant, then the creator's
record with the tenant id as its only change besides `UpdatedAt`. -/
theorem CreateCompany_created_shape (env : Env) (w : World) (c : Context)
    (req : CompanyCreateRequest)
    (h : (CompanyHandler.CreateCompany (.ok req) env w c).2.status = StatusCreated) :
    ∃ (p : UserContext) (u : User),
      c.Get "user" = some p ∧ getDoc User.ID p.UserID w.users = some u ∧
      (CompanyHandler.CreateCompany (.ok req) env w c).1 =
        { w with
          companies := setDoc Company.ID
            { ID := env.uuid 0, Name := req.Name, Domain := req.Domain,
              ColorTheme := req.ColorTheme, AdminUserID := p.UserID, Status := "trial",
              CreatedAt := env.now, UpdatedAt := env.now,
              TrialEndsAt := env.addDate 0 1 0 env.now } w.companies,
          users := setDoc User.ID
            { u with CompanyID := env.uuid 0, UpdatedAt := env.now } w.users,
          log := w.log ++
            [.dbGetCompanyByDomain req.Domain,
             .dbCreateCompany
               { ID := env.uuid 0, Name := req.Name, Domain := req.Domain,
                 ColorTheme := req.ColorTheme, AdminUserID := p.UserID, Status := "trial",
                 CreatedAt := env.now, UpdatedAt := env.now,
                 TrialEndsAt := env.addDate 0 1 0 env.now },
             .dbGetUser p.UserID,
             .dbUpdateUser { u with CompanyID := env.uuid 0, UpdatedAt := env.now }] } := by
  unfold CompanyHandler.CreateCompany at h ⊢
  cases hp : c.Get "user" with
  | none => simp [hp, Context.status, Context.JSON] at h
  | some p =>
    simp only [hp] at h ⊢
    rw [dbGetCompanyByDomain_eq] at h ⊢
    cases hd : (DatabaseProvider.GetCompanyByDomain env w req.Domain).1 with
    | ok found => simp [hd, Context.status, Context.JSON] at h
    | error e =>
      simp only [hd] at h ⊢
      unfold DatabaseProvider.CreateCompany at h ⊢
      simp only [] at h ⊢
      cases hf1 : env.fails (.dbCreateCompany
          { ID := env.uuid 0, Name := req.Name, Domain := req.Domain,
            ColorTheme := req.ColorTheme, AdminUserID := p.UserID, Status := "trial",
            CreatedAt := env.now, UpdatedAt := env.now,
            TrialEndsAt := env.addDate 0 1 0 env.now }) with
      | some e1 => simp [hf1, Context.status, Context.JSON] at h
      | none =>
        simp only [hf1] at h ⊢
        rw [dbGetUser_eq] at h ⊢
        cases hu : (DatabaseProvider.GetUser env
            { w.record (.dbGetCompanyByDomain req.Domain) with
              companies := setDoc Company.ID
                { ID := env.uuid 0, Name := req.Name, Domain := req.Domain,
                  ColorTheme := req.ColorTheme, AdminUserID := p.UserID, Status := "trial",
                  CreatedAt := env.now, UpdatedAt := env.now,
                  TrialEndsAt := env.addDate 0 1 0 env.now }
                (w.record (.dbGetCompanyByDomain req.Domain)).companies,
              log := (w.record (.dbGetCompanyByDomain req.Domain)).log ++
                [.dbCreateCompany
                  { ID := env.uuid 0, Name := req.Name, Domain := req.Domain,
                    ColorTheme := req.ColorTheme, AdminUserID := p.UserID, Status := "trial",
                    CreatedAt := env.now, UpdatedAt := env.now,
                    TrialEndsAt := env.addDate 0 1 0 env.now }] } p.UserID).1 with
        | error e2 => simp [hu, Context.status, Context.JSON] at h
        | ok u =>
          have hgu := (dbGetUser_ok env _ p.UserID u hu).2
          simp only [World.record] at hgu
          simp only [hu] at h ⊢
          unfold DatabaseProvider.UpdateUser at h ⊢
          simp only [] at h ⊢
          cases hf2 : env.fails (.dbUpdateUser
              { u with CompanyID := env.uuid 0, UpdatedAt := env.now }) with
          | some e3 => simp [hf2, Context.status, Context.JSON, World.record] at h
          | none =>
            refine ⟨p, u, rfl, hgu, ?_⟩
            simp [hf2, World.record]

/-- The effect of a `CreateCompany` that answers 201: the stored tenant has the creator as
`AdminUserID` and the status `trial`; the creator's stored record has the new tenant id, and
its role is the one it had before. -/
theorem CreateCompany_created_effect (env : Env) (w : World) (c : Context)
    (req : CompanyCreateRequest)
    (h : (CompanyHandler.CreateCompany (.ok req) env w c).2.status = StatusCreated) :
    ∃ (p : UserContext) (u : User) (tenant : Company) (stored : User),
      c.Get "user" = some p ∧ getDoc User.ID p.UserID w.users = some u ∧
      getDoc Company.ID (env.uuid 0)
        (CompanyHandler.CreateCompany (.ok req) env w c).1.companies = some tenant ∧
      tenant.AdminUserID = p.UserID ∧ tenant.Status = "trial" ∧
      getDoc User.ID p.UserID (CompanyHandler.CreateCompany (.ok req) env w c).1.users =
        some stored ∧
      stored.CompanyID = env.uuid 0 ∧ stored.Role = u.Role := by
  obtain ⟨p, u, hp, hu, heq⟩ := CreateCompany_created_shape env w c req h
  have hid : u.ID = p.UserID := getDoc_key User.ID p.UserID w.users u hu
  refine ⟨p, u,
    { ID := env.uuid 0, Name := req.Name, Domain := req.Domain,
      ColorTheme := req.ColorTheme, AdminUserID := p.UserID, Status := "trial",
      CreatedAt := env.now, UpdatedAt := env.now, TrialEndsAt := env.addDate 0 1 0 env.now },
    { u with CompanyID := env.uuid 0, UpdatedAt := env.now },
    hp, hu, ?_, rfl, rfl, ?_, rfl, rfl⟩
  · rw [heq]
    exact getDoc_setDoc_self Company.ID
      { ID := env.uuid 0, Name := req.Name, Domain := req.Domain,
        ColorTheme := req.ColorTheme, AdminUserID := p.UserID, Status := "trial",
        CreatedAt := env.now, UpdatedAt := env.now,
        TrialEndsAt := env.addDate 0 1 0 env.now } w.companies
  · rw [heq]
    have := getDoc_setDoc_self User.ID
      { u with CompanyID := env.uuid 0, UpdatedAt := env.now } w.users
    simpa [hid] using this

/-- C17 (code bug), evaluated at the failing input: `dave`, whose stored role is `user`,
creates a tenant. `CreateCompany` answers 201 and stores the tenant `T2` with
`AdminUserID = dave` and `Status = trial`; the stored record of `dave` gets
`CompanyID = T2`, but its role is still `user`, not `admin`: the handler sets the tenant id
of the creator and nothing else. -/
theorem CreateCompany_leaves_role_user :
    getDoc User.ID "dave" Sample.daveStore.users = some Sample.dave ∧
    Sample.dave.Role = "user" ∧
    (CompanyHandler.CreateCompany
        (.ok { Name := "Dave Inc", Domain := "dave.example", ColorTheme := "green" })
        Sample.uuidEnv Sample.daveStore
        (Sample.scopeWith "user" Sample.davePrincipal)).2.status = StatusCreated ∧
    getDoc Company.ID "T2" (CompanyHandler.CreateCompany
        (.ok { Name := "Dave Inc", Domain := "dave.example", ColorTheme := "green" })
        Sample.uuidEnv Sample.daveStore
        (Sample.scopeWith "user" Sample.davePrincipal)).1.companies =
      some { ID := "T2", Name := "Dave Inc", Domain := "dave.example", ColorTheme := "green",
             AdminUserID := "dave", Status := "trial", TrialEndsAt := 2592000 } ∧
    getDoc User.ID "dave" (CompanyHandler.CreateCompany
        (.ok { Name := "Dave Inc", Domain := "dave.example", ColorTheme := "green" })
        Sample.uuidEnv Sample.daveStore
        (Sample.scopeWith "user" Sample.davePrincipal)).1.users =
      some { Sample.dave with CompanyID := "T2" } ∧
    ({ Sample.dave with CompanyID := "T2" } : User).Role ≠ "admin" :=
  ⟨by decide, by decide, by decide, by decide, by decide, by decide⟩

/-! ## Partial update of a tenant -/

/-- The record `UpdateCompany` saves, in terms of the convention of `overwrite`: whether or
not the domain went through the uniqueness lookup. -/
theorem applyLook_overwrite (req : UpdateCompanyRequest) (T : Company) (t : Nat)
    (domain : String) (hd : domain = overwrite req.Domain T.Domain) :
    ({ CompanyHandler.applyLook req
        { (if req.Name ≠ "" then { T with Name := req.Name } else T) with Domain := domain } with
      UpdatedAt := t } : Company) =
    { T with Name := overwrite req.Name T.Name, Domain := overwrite req.Domain T.Domain,
             ColorTheme := overwrite req.ColorTheme T.ColorTheme,
             LogoURL := overwrite req.LogoURL T.LogoURL, UpdatedAt := t } := by
  subst hd
  unfold CompanyHandler.applyLook overwrite
  by_cases h1 : req.Name = "" <;> by_cases h3 : req.ColorTheme = "" <;>
    by_cases h4 : req.LogoURL = "" <;> simp [h1, h3, h4]

/-- The effect of `UpdateCompany` with a bound body once the tenant record `T` of the caller
has loaded: a 200 comes from an admin and stores `T` with the four fields overwritten by the
non-empty request values; a caller whose role is not admin is refused. -/
theorem UpdateCompany_loaded_effect (env : Env) (w : World) (c : Context) (p : UserContext)
    (T : Company) (req : UpdateCompanyRequest) (hp : c.Get "user" = some p)
    (hT : (DatabaseProvider.GetCompany env w p.CompanyID).1 = .ok T) :
    ((CompanyHandler.UpdateCompany (.ok req) env w c).2.status = StatusOK →
      p.Role = "admin" ∧
      getDoc Company.ID T.ID (CompanyHandler.UpdateCompany (.ok req) env w c).1.companies =
        some { T with Name := overwrite req.Name T.Name,
                      Domain := overwrite req.Domain T.Domain,
                      ColorTheme := overwrite req.ColorTheme T.ColorTheme,
                      LogoURL := overwrite req.LogoURL T.LogoURL,
                      UpdatedAt := env.now } ∧
      (∀ id, id ≠ T.ID →
        getDoc Company.ID id (CompanyHandler.UpdateCompany (.ok req) env w c).1.companies =
          getDoc Company.ID id w.companies) ∧
      (CompanyHandler.UpdateCompany (.ok req) env w c).1.users = w.users ∧
      (CompanyHandler.UpdateCompany (.ok req) env w c).1.invitations = w.invitations ∧
      (CompanyHandler.UpdateCompany (.ok req) env w c).1.shortcuts = w.shortcuts) ∧
    (p.Role ≠ "admin" → Forbids (CompanyHandler.UpdateCompany (.ok req)) env w c) := by
  have hstored : ∀ (w1 : World) (domain : String), w1.companies = w.companies →
      w1.users = w.users → w1.invitations = w.invitations → w1.shortcuts = w.shortcuts →
      domain = overwrite req.Domain T.Domain →
      (CompanyHandler.finishUpdate env w1 c req
        { (if req.Name ≠ "" then { T with Name := req.Name } else T) with
          Domain := domain }).2.status = StatusOK →
      getDoc Company.ID T.ID (CompanyHandler.finishUpdate env w1 c req
          { (if req.Name ≠ "" then { T with Name := req.Name } else T) with
            Domain := domain }).1.companies =
        some { T with Name := overwrite req.Name T.Name,
                      Domain := overwrite req.Domain T.Domain,
                      ColorTheme := overwrite req.ColorTheme T.ColorTheme,
                      LogoURL := overwrite req.LogoURL T.LogoURL,
                      UpdatedAt := env.now } ∧
      (∀ id, id ≠ T.ID →
        getDoc Company.ID id (CompanyHandler.finishUpdate env w1 c req
          { (if req.Name ≠ "" then { T with Name := req.Name } else T) with
            Domain := domain }).1.companies = getDoc Company.ID id w.companies) ∧
      (CompanyHandler.finishUpdate env w1 c req
          { (if req.Name ≠ "" then { T with Name := req.Name } else T) with
            Domain := domain }).1.users = w.users ∧
      (CompanyHandler.finishUpdate env w1 c req
          { (if req.Name ≠ "" then { T with Name := req.Name } else T) with
            Domain := domain }).1.invitations = w.invitations ∧
      (CompanyHandler.finishUpdate env w1 c req
          { (if req.Name ≠ "" then { T with Name := req.Name } else T) with
            Domain := domain }).1.shortcuts = w.shortcuts := by
    intro w1 domain hc hu hi hs hd hok
    have hrec := applyLook_overwrite req T env.now domain hd
    cases hf : env.fails (.dbUpdateCompany
        { CompanyHandler.applyLook req
            { (if req.Name ≠ "" then { T with Name := req.Name } else T) with
              Domain := domain } with UpdatedAt := env.now }) with
    | some e =>
      rw [finishUpdate_error env w1 c req _ e hf] at hok
      simp [Context.status, Context.JSON] at hok
    | none =>
      rw [finishUpdate_ok env w1 c req _ hf, hrec]
      refine ⟨?_, ?_, hu, hi, hs⟩
      · show getDoc Company.ID T.ID (setDoc Company.ID _ w1.companies) = _
        rw [hc]
        have := getDoc_setDoc_self Company.ID
          { T with Name := overwrite req.Name T.Name,
                   Domain := overwrite req.Domain T.Domain,
                   ColorTheme := overwrite req.ColorTheme T.ColorTheme,
                   LogoURL := overwrite req.LogoURL T.LogoURL,
                   UpdatedAt := env.now } w.companies
        simpa using this
      · intro id hne
        show getDoc Company.ID id (setDoc Company.ID _ w1.companies) = _
        rw [hc]
        exact getDoc_setDoc_other Company.ID _ w.companies id (by simpa using hne)
  have hsame : ∀ co : Company, co.Domain = T.Domain →
      ({ co with Domain := T.Domain } : Company) = co := by
    intro co h
    cases co
    simp only [Company.mk.injEq, true_and, and_true] at h ⊢
    simp_all
  constructor
  · intro hok
    unfold CompanyHandler.UpdateCompany at hok ⊢
    simp only [hp] at hok ⊢
    rw [dbGetCompany_eq, hT] at hok ⊢
    by_cases hadmin : p.Role = "admin"
    · refine ⟨hadmin, ?_⟩
      simp only [hadmin, ne_eq, not_true_eq_false, if_false] at hok ⊢
      have hdom : (if ¬ req.Name = "" then { T with Name := req.Name } else T).Domain =
          T.Domain := by
        split <;> rfl
      rw [hdom] at hok ⊢
      by_cases hbr : ¬ req.Domain = "" ∧ ¬ req.Domain = T.Domain
      · simp only [hbr, not_false_eq_true, and_self, if_true] at hok ⊢
        rw [dbGetCompanyByDomain_eq] at hok ⊢
        cases hl : (DatabaseProvider.GetCompanyByDomain env
            (w.record (.dbGetCompany p.CompanyID)) req.Domain).1 with
        | ok found => simp [hl, Context.status, Context.JSON] at hok
        | error e =>
          simp only [hl] at hok ⊢
          exact hstored _ req.Domain rfl rfl rfl rfl
            (by simp [overwrite, hbr.1]) hok
      · simp only [hbr, if_false] at hok ⊢
        have hd : T.Domain = overwrite req.Domain T.Domain := by
          unfold overwrite
          by_cases he : req.Domain = ""
          · simp [he]
          · have : req.Domain = T.Domain := by
              by_contra hne
              exact hbr ⟨he, hne⟩
            simp [he, this]
        have hco := hsame (if ¬ req.Name = "" then { T with Name := req.Name } else T) hdom
        rw [← hco] at hok ⊢
        exact hstored _ T.Domain rfl rfl rfl rfl hd hok
    · simp [hadmin, Context.status, Context.JSON] at hok
  · intro hadmin
    unfold Forbids CompanyHandler.UpdateCompany
    simp only [hp]
    rw [dbGetCompany_eq, hT]
    simp [hadmin, Context.status, Context.JSON, noDbWrite_record, Call.isDbWrite]

/-- C18, as stated, fails: `gina`, whose role is `user` and who belongs to no tenant, sends
`UpdateCompany` with a name; no tenant record loads for the empty id and the answer is 404
`Company not found`, not Forbidden (403); an unbound body of `dave` is answered 400. -/
theorem UpdateCompany_non_admin_without_tenant_is_404 :
    Sample.newcomer.Role ≠ "admin" ∧
    (CompanyHandler.UpdateCompany (.ok { Name := "Mine" }) quietEnv Sample.daveStore
        (Sample.scopeWith "user" Sample.newcomer)).2.status = StatusNotFound ∧
    (CompanyHandler.UpdateCompany (.ok { Name := "Mine" }) quietEnv Sample.daveStore
        (Sample.scopeWith "user" Sample.newcomer)).2.status ≠ StatusForbidden ∧
    Sample.davePrincipal.Role ≠ "admin" ∧
    (CompanyHandler.UpdateCompany (.error "EOF") quietEnv Sample.daveStore
        (Sample.scopeWith "user" Sample.davePrincipal)).2.status = StatusBadRequest :=
  ⟨by decide, by decide, by decide, by decide, by decide⟩

/-- C18 (amended): for every `UpdateCompany` request (name, domain, color_theme, logo_url)
made by a principal `p`: if it answers 200, the body was bound, the tenant record `T` of `p`
loaded, `p` is an admin and the stored tenant is `T` in which each of the four fields is the
request value when that is non-empty and the previous value when it is the empty string,
`UpdatedAt` is `now`, and every other field (id, admin user id, status, the eight
configuration flags among them) is as in `T`; no other tenant and no other collection
changes. A caller whose role is not admin persists nothing and is answered Forbidden (403)
when the body binds and the tenant record loads, 404 when the body binds and the record does
not load, and 400 when the body does not bind. -/
theorem UpdateCompany_partial_update (env : Env) (w : World) (c : Context) (p : UserContext)
    (bind : Except String UpdateCompanyRequest) (hp : c.Get "user" = some p) :
    ((CompanyHandler.UpdateCompany bind env w c).2.status = StatusOK →
      ∃ req T, bind = .ok req ∧
        (DatabaseProvider.GetCompany env w p.CompanyID).1 = .ok T ∧
        p.Role = "admin" ∧
        getDoc Company.ID T.ID (CompanyHandler.UpdateCompany bind env w c).1.companies =
          some { T with Name := overwrite req.Name T.Name,
                        Domain := overwrite req.Domain T.Domain,
                        ColorTheme := overwrite req.ColorTheme T.ColorTheme,
                        LogoURL := overwrite req.LogoURL T.LogoURL,
                        UpdatedAt := env.now } ∧
        (∀ id, id ≠ T.ID →
          getDoc Company.ID id (CompanyHandler.UpdateCompany bind env w c).1.companies =
            getDoc Company.ID id w.companies) ∧
        (CompanyHandler.UpdateCompany bind env w c).1.users = w.users ∧
        (CompanyHandler.UpdateCompany bind env w c).1.invitations = w.invitations ∧
        (CompanyHandler.UpdateCompany bind env w c).1.shortcuts = w.shortcuts) ∧
    (p.Role ≠ "admin" →
      noDbWrite w (CompanyHandler.UpdateCompany bind env w c).1 ∧
      (∀ req T, bind = .ok req →
        (DatabaseProvider.GetCompany env w p.CompanyID).1 = .ok T →
        (CompanyHandler.UpdateCompany bind env w c).2.status = StatusForbidden) ∧
      (∀ req e, bind = .ok req →
        (DatabaseProvider.GetCompany env w p.CompanyID).1 = .error e →
        (CompanyHandler.UpdateCompany bind env w c).2.status = StatusNotFound) ∧
      (∀ e, bind = .error e →
        (CompanyHandler.UpdateCompany bind env w c).2.status = StatusBadRequest)) := by
  constructor
  · intro hok
    cases bind with
    | error e =>
      simp [CompanyHandler.UpdateCompany, Context.status, Context.JSON] at hok
    | ok req =>
      cases hT : (DatabaseProvider.GetCompany env w p.CompanyID).1 with
      | error e0 =>
        unfold CompanyHandler.UpdateCompany at hok
        simp only [hp] at hok
        rw [dbGetCompany_eq, hT] at hok
        simp [Context.status, Context.JSON] at hok
      | ok T =>
        exact ⟨req, T, rfl, rfl, (UpdateCompany_loaded_effect env w c p T req hp hT).1 hok⟩
  · intro hrole
    have h := UpdateCompany_non_admin env w c p bind hp hrole
    exact ⟨h.1, h.2.2.2, h.2.2.1, h.2.1⟩

/-- Witness of C18 (amended): `alice`, admin of tenant `A`, changes the name and the logo and
leaves domain and color theme alone; `dave`, a member with role `user`, is refused with 403;
`gina`, role `user` without a tenant, is answered 404; nothing is stored for either. -/
theorem UpdateCompany_partial_update_witness :
    ((CompanyHandler.UpdateCompany (.ok { Name := "Acme Ltd", LogoURL := "https://a/logo" })
        quietEnv Sample.tenantStore (Sample.scopeWith "user" Sample.adminA)).2.status =
      StatusOK ∧
      ∃ req T, (Except.ok { Name := "Acme Ltd", LogoURL := "https://a/logo" } :
          Except String UpdateCompanyRequest) = .ok req ∧
        (DatabaseProvider.GetCompany quietEnv Sample.tenantStore "A").1 = .ok T ∧
        getDoc Company.ID T.ID
          (CompanyHandler.UpdateCompany
            (.ok { Name := "Acme Ltd", LogoURL := "https://a/logo" })
            quietEnv Sample.tenantStore (Sample.scopeWith "user" Sample.adminA)).1.companies =
          some { T with Name := overwrite req.Name T.Name,
                        Domain := overwrite req.Domain T.Domain,
                        ColorTheme := overwrite req.ColorTheme T.ColorTheme,
                        LogoURL := overwrite req.LogoURL T.LogoURL,
                        UpdatedAt := quietEnv.now }) ∧
    (noDbWrite Sample.daveStore
        (CompanyHandler.UpdateCompany (.ok { Name := "Mine" }) quietEnv Sample.daveStore
          (Sample.scopeWith "user" Sample.davePrincipal)).1 ∧
      (CompanyHandler.UpdateCompany (.ok { Name := "Mine" }) quietEnv Sample.daveStore
          (Sample.scopeWith "user" Sample.davePrincipal)).2.status = StatusForbidden) ∧
    (noDbWrite Sample.daveStore
        (CompanyHandler.UpdateCompany (.ok { Name := "Mine" }) quietEnv Sample.daveStore
          (Sample.scopeWith "user" Sample.newcomer)).1 ∧
      (CompanyHandler.UpdateCompany (.ok { Name := "Mine" }) quietEnv Sample.daveStore
          (Sample.scopeWith "user" Sample.newcomer)).2.status = StatusNotFound) :=
  have h := (UpdateCompany_partial_update quietEnv Sample.tenantStore
    (Sample.scopeWith "user" Sample.adminA) Sample.adminA
    (.ok { Name := "Acme Ltd", LogoURL := "https://a/logo" }) (by decide)).1 (by decide)
  have h2 := (UpdateCompany_partial_update quietEnv Sample.daveStore
    (Sample.scopeWith "user" Sample.davePrincipal) Sample.davePrincipal
    (.ok { Name := "Mine" }) (by decide)).2 (by decide)
  have h3 := (UpdateCompany_partial_update quietEnv Sample.daveStore
    (Sample.scopeWith "user" Sample.newcomer) Sample.newcomer
    (.ok { Name := "Mine" }) (by decide)).2 (by decide)
  ⟨⟨by decide, h.elim fun req hr => hr.elim fun T hT =>
      ⟨req, T, hT.1, hT.2.1, hT.2.2.2.1⟩⟩,
    ⟨h2.1, h2.2.1 _ Sample.companyA rfl rfl⟩,
    ⟨h3.1, h3.2.2.1 _ "company not found" rfl rfl⟩⟩

/-! ## Updates of a user by a non-admin -/

/-- The tail of `UpdateUser` when the write succeeds. -/
theorem saveUser_ok (env : Env) (w : World) (c : Context) (user : User)
    (hf : env.fails (.dbUpdateUser { user with UpdatedAt := env.now }) = none) :
    UserHandler.saveUser env w c user =
      ({ w with users := setDoc User.ID { user with UpdatedAt := env.now } w.users,
                log := w.log ++ [.dbUpdateUser { user with UpdatedAt := env.now }] },
        c.JSON StatusOK
          { Success := true, Message := "User updated successfully",
            Data := UserHandler.updatedUserPayload { user with UpdatedAt := env.now } }) := by
  unfold UserHandler.saveUser DatabaseProvider.UpdateUser
  simp only [hf]

/-- The tail of `UpdateUser` when the write fails. -/
theorem saveUser_error (env : Env) (w : World) (c : Context) (user : User) (e : String)
    (hf : env.fails (.dbUpdateUser { user with UpdatedAt := env.now }) = some e) :
    UserHandler.saveUser env w c user =
      (w.record (.dbUpdateUser { user with UpdatedAt := env.now }),
        c.JSON StatusInternalServerError
          { Success := false, Error := "Failed to update user" }) := by
  unfold UserHandler.saveUser DatabaseProvider.UpdateUser
  simp only [hf]

/-- The effect of `UpdateUser` with a bound body for a principal whose role is not admin: a
200 is a rename of the principal's own record; a request on another id, or with a role or an
`is_active` value, persists nothing and is refused once the target record has loaded. -/
theorem UpdateUser_non_admin_bound (env : Env) (w : World) (c : Context) (p : UserContext)
    (req : UpdateUserRequest) (hp : c.Get "user" = some p) (hrole : p.Role ≠ "admin") :
    ((UserHandler.UpdateUser (.ok req) env w c).2.status = StatusOK →
      c.Param "id" = p.UserID ∧ req.Role = "" ∧ req.IsActive = none ∧
      ∃ u, (DatabaseProvider.GetUser env w (c.Param "id")).1 = .ok u ∧
        getDoc User.ID (c.Param "id") (UserHandler.UpdateUser (.ok req) env w c).1.users =
          some { u with Name := overwrite req.Name u.Name, UpdatedAt := env.now } ∧
        (∀ id, id ≠ c.Param "id" →
          getDoc User.ID id (UserHandler.UpdateUser (.ok req) env w c).1.users =
            getDoc User.ID id w.users)) ∧
    ((c.Param "id" ≠ p.UserID ∨ req.Role ≠ "" ∨ req.IsActive ≠ none) →
      noDbWrite w (UserHandler.UpdateUser (.ok req) env w c).1 ∧
      ∀ u, (DatabaseProvider.GetUser env w (c.Param "id")).1 = .ok u →
        (UserHandler.UpdateUser (.ok req) env w c).2.status = StatusForbidden) := by
  have hname : ∀ u : User,
      (if req.Name ≠ "" then { u with Name := req.Name } else u) =
        { u with Name := overwrite req.Name u.Name } := by
    intro u
    unfold overwrite
    by_cases h : req.Name = "" <;> simp [h]
  constructor
  · intro hok
    unfold UserHandler.UpdateUser at hok ⊢
    simp only [hp] at hok ⊢
    rw [dbGetUser_eq] at hok ⊢
    cases hu : (DatabaseProvider.GetUser env w (c.Param "id")).1 with
    | error e => simp [hu, Context.status, Context.JSON] at hok
    | ok u =>
      have hid : u.ID = c.Param "id" :=
        getDoc_key User.ID _ w.users u (dbGetUser_ok env w _ u hu).2
      simp only [hu] at hok ⊢
      by_cases hc : u.CompanyID = p.CompanyID
      · simp only [hc, ne_eq, not_true_eq_false, if_false, hrole, not_false_eq_true,
          true_and] at hok ⊢
        by_cases hself : p.UserID = c.Param "id"
        · simp only [hself, not_true_eq_false, if_false, and_true] at hok ⊢
          by_cases hr : req.Role = ""
          · simp only [hr, not_true_eq_false, if_false] at hok ⊢
            cases ha : req.IsActive with
            | some b => simp [ha, Context.status, Context.JSON] at hok
            | none =>
              simp only [ha] at hok ⊢
              have hn := hname u
              simp only [ne_eq] at hn
              rw [← hc] at hok ⊢
              rw [hn] at hok ⊢
              refine ⟨trivial, trivial, trivial, u, rfl, ?_⟩
              cases hf : env.fails (.dbUpdateUser
                  { u with Name := overwrite req.Name u.Name, UpdatedAt := env.now }) with
              | some e =>
                rw [saveUser_error env _ c _ e hf] at hok
                simp [Context.status, Context.JSON] at hok
              | none =>
                rw [saveUser_ok env _ c _ hf]
                refine ⟨?_, ?_⟩
                · have := getDoc_setDoc_self User.ID
                    { u with Name := overwrite req.Name u.Name, UpdatedAt := env.now } w.users
                  simpa [hid, World.record] using this
                · intro id hne
                  exact getDoc_setDoc_other User.ID _ w.users id (by simpa [hid] using hne)
          · simp [hr, Context.status, Context.JSON] at hok
        · simp [hself, Context.status, Context.JSON] at hok
      · simp [hc, Context.status, Context.JSON] at hok
  · intro hcond
    unfold UserHandler.UpdateUser
    simp only [hp]
    rw [dbGetUser_eq]
    cases hu : (DatabaseProvider.GetUser env w (c.Param "id")).1 with
    | error e =>
      refine ⟨by simp [noDbWrite_record, Call.isDbWrite], ?_⟩
      intro u h
      cases h
    | ok u =>
      simp only []
      have hgoal : noDbWrite w (w.record (.dbGetUser (c.Param "id"))) :=
        noDbWrite_record w _ rfl
      by_cases hc : u.CompanyID = p.CompanyID
      · simp only [hc, ne_eq, not_true_eq_false, if_false, hrole, not_false_eq_true,
          true_and]
        by_cases hself : p.UserID = c.Param "id"
        · simp only [hself, not_true_eq_false, if_false, and_true]
          by_cases hr : req.Role = ""
          · simp only [hr, not_true_eq_false, if_false]
            cases ha : req.IsActive with
            | some b =>
              exact ⟨hgoal, fun _ _ => by simp [Context.status, Context.JSON]⟩
            | none =>
              rcases hcond with h | h | h
              · exact absurd hself.symm h
              · exact absurd hr h
              · exact absurd ha h
          · simp only [hr, not_false_eq_true, if_true]
            exact ⟨hgoal, fun _ _ => by simp [Context.status, Context.JSON]⟩
        · simp only [hself, not_false_eq_true, if_true]
          exact ⟨hgoal, fun _ _ => by simp [Context.status, Context.JSON]⟩
      · simp only [hc, ne_eq, not_false_eq_true, if_true]
        exact ⟨hgoal, fun _ _ => by simp [Context.status, Context.JSON]⟩

/-- C19, as stated, fails: `dave`, whose role is `user`, asks for the role `admin` on the id
`nobody`, which is not stored, and is answered 404 `User not found`, not Forbidden (403); an
unbound body of `dave` aimed at `alice` is answered 400. -/
theorem UpdateUser_non_admin_not_always_403 :
    Sample.davePrincipal.Role ≠ "admin" ∧
    (UserHandler.UpdateUser (.ok { Role := "admin" }) quietEnv Sample.daveStore
        { Params := [("id", "nobody")], Keys := [("user", Sample.davePrincipal)] }).2.status =
      StatusNotFound ∧
    (UserHandler.UpdateUser (.ok { Role := "admin" }) quietEnv Sample.daveStore
        { Params := [("id", "nobody")], Keys := [("user", Sample.davePrincipal)] }).2.status ≠
      StatusForbidden ∧
    (UserHandler.UpdateUser (.error "EOF") quietEnv Sample.daveStore
        { Params := [("id", "alice")], Keys := [("user", Sample.davePrincipal)] }).2.status =
      StatusBadRequest :=
  ⟨by decide, by decide, by decide, by decide⟩

/-- C19 (amended): for every `UpdateUser` request made by a principal whose role is not
admin: if it answers 200, the body was bound, the target is the principal's own record, the
request carried neither a role nor an `is_active` value, and the stored record is the former
one with the name overwritten by a non-empty request name and a fresh `UpdatedAt` (so `Role`,
`IsActive` and `CompanyID` are unchanged), every other user being as before; every such
request with a bound body that targets another id, or carries a non-empty role or an
`is_active` value, persists nothing (the name it carried included) and answers Forbidden
(403) when the target record loads and 404 when it does not load; and a request whose body
does not bind persists nothing and answers 400. -/
theorem UpdateUser_non_admin (env : Env) (w : World) (c : Context) (p : UserContext)
    (bind : Except String UpdateUserRequest) (hp : c.Get "user" = some p)
    (hrole : p.Role ≠ "admin") :
    ((UserHandler.UpdateUser bind env w c).2.status = StatusOK →
      ∃ req, bind = .ok req ∧
        c.Param "id" = p.UserID ∧ req.Role = "" ∧ req.IsActive = none ∧
        ∃ u, (DatabaseProvider.GetUser env w (c.Param "id")).1 = .ok u ∧
          getDoc User.ID (c.Param "id") (UserHandler.UpdateUser bind env w c).1.users =
            some { u with Name := overwrite req.Name u.Name, UpdatedAt := env.now } ∧
          (∀ id, id ≠ c.Param "id" →
            getDoc User.ID id (UserHandler.UpdateUser bind env w c).1.users =
              getDoc User.ID id w.users)) ∧
    (∀ req, bind = .ok req →
      (c.Param "id" ≠ p.UserID ∨ req.Role ≠ "" ∨ req.IsActive ≠ none) →
      noDbWrite w (UserHandler.UpdateUser bind env w c).1 ∧
      (∀ u, (DatabaseProvider.GetUser env w (c.Param "id")).1 = .ok u →
        (UserHandler.UpdateUser bind env w c).2.status = StatusForbidden) ∧
      (∀ e, (DatabaseProvider.GetUser env w (c.Param "id")).1 = .error e →
        (UserHandler.UpdateUser bind env w c).2.status = StatusNotFound)) ∧
    (∀ e, bind = .error e →
      noDbWrite w (UserHandler.UpdateUser bind env w c).1 ∧
      (UserHandler.UpdateUser bind env w c).2.status = StatusBadRequest) := by
  refine ⟨?_, ?_, ?_⟩
  · intro hok
    cases bind with
    | error e =>
      simp [UserHandler.UpdateUser, Context.status, Context.JSON] at hok
    | ok req =>
      exact ⟨req, rfl, (UpdateUser_non_admin_bound env w c p req hp hrole).1 hok⟩
  · intro req hb hcond
    cases hb
    have h := (UpdateUser_non_admin_bound env w c p req hp hrole).2 hcond
    refine ⟨h.1, h.2, ?_⟩
    intro e he
    unfold UserHandler.UpdateUser
    simp only [hp]
    rw [dbGetUser_eq, he]
    rfl
  · intro e hb
    cases hb
    exact ⟨noDbWrite_refl w, rfl⟩

/-- Witness of C19 (amended): `dave` (role `user`) renames himself; `dave` asking for the
role `admin` on his own record, and `dave` renaming `alice`, are refused with 403; `dave`
asking for the role `admin` on an id that is not stored is answered 404, and with an unbound
body 400; nothing is stored in the refused cases. -/
theorem UpdateUser_non_admin_witness :
    ((UserHandler.UpdateUser (.ok { Name := "David" }) quietEnv Sample.daveStore
        { Params := [("id", "dave")], Keys := [("user", Sample.davePrincipal)] }).2.status =
        StatusOK ∧
      getDoc User.ID "dave"
        (UserHandler.UpdateUser (.ok { Name := "David" }) quietEnv Sample.daveStore
          { Params := [("id", "dave")], Keys := [("user", Sample.davePrincipal)] }).1.users =
        some { Sample.dave with Name := "David" }) ∧
    (noDbWrite Sample.daveStore
        (UserHandler.UpdateUser (.ok { Name := "David", Role := "admin" }) quietEnv
          Sample.daveStore
          { Params := [("id", "dave")], Keys := [("user", Sample.davePrincipal)] }).1 ∧
      (UserHandler.UpdateUser (.ok { Name := "David", Role := "admin" }) quietEnv
          Sample.daveStore
          { Params := [("id", "dave")], Keys := [("user", Sample.davePrincipal)] }).2.status =
        StatusForbidden) ∧
    (noDbWrite Sample.daveStore
        (UserHandler.UpdateUser (.ok { Name := "Al" }) quietEnv Sample.daveStore
          { Params := [("id", "alice")], Keys := [("user", Sample.davePrincipal)] }).1 ∧
      (UserHandler.UpdateUser (.ok { Name := "Al" }) quietEnv Sample.daveStore
          { Params := [("id", "alice")], Keys := [("user", Sample.davePrincipal)] }).2.status =
        StatusForbidden) ∧
    (noDbWrite Sample.daveStore
        (UserHandler.UpdateUser (.ok { Role := "admin" }) quietEnv Sample.daveStore
          { Params := [("id", "nobody")], Keys := [("user", Sample.davePrincipal)] }).1 ∧
      (UserHandler.UpdateUser (.ok { Role := "admin" }) quietEnv Sample.daveStore
          { Params := [("id", "nobody")], Keys := [("user", Sample.davePrincipal)] }).2.status =
        StatusNotFound) ∧
    (UserHandler.UpdateUser (.error "EOF") quietEnv Sample.daveStore
        { Params := [("id", "alice")], Keys := [("user", Sample.davePrincipal)] }).2.status =
      StatusBadRequest :=
  have h2 := (UpdateUser_non_admin quietEnv Sample.daveStore
    { Params := [("id", "dave")], Keys := [("user", Sample.davePrincipal)] }
    Sample.davePrincipal (.ok { Name := "David", Role := "admin" }) (by decide)
    (by decide)).2.1 _ rfl (Or.inr (Or.inl (by decide)))
  have h3 := (UpdateUser_non_admin quietEnv Sample.daveStore
    { Params := [("id", "alice")], Keys := [("user", Sample.davePrincipal)] }
    Sample.davePrincipal (.ok { Name := "Al" }) (by decide) (by decide)).2.1 _ rfl
    (Or.inl (by decide))
  have h4 := (UpdateUser_non_admin quietEnv Sample.daveStore
    { Params := [("id", "nobody")], Keys := [("user", Sample.davePrincipal)] }
    Sample.davePrincipal (.ok { Role := "admin" }) (by decide) (by decide)).2.1 _ rfl
    (Or.inl (by decide))
  have h5 := (UpdateUser_non_admin quietEnv Sample.daveStore
    { Params := [("id", "alice")], Keys := [("user", Sample.davePrincipal)] }
    Sample.davePrincipal (.error "EOF") (by decide) (by decide)).2.2 "EOF" rfl
  ⟨⟨by decide, by decide⟩, ⟨h2.1, h2.2.1 Sample.dave rfl⟩, ⟨h3.1, h3.2.1 Sample.alice rfl⟩,
    ⟨h4.1, h4.2.2 "user not found" rfl⟩, h5.2⟩

/-! ## Registration -/

/-- The lookup of a user by e-mail finds nothing: the query names the field `email`, the
documents hold the address under `Email`. -/
theorem dbGetUserByEmail_not_found (env : Env) (w : World) (email : String) :
    DatabaseProvider.GetUserByEmail env w email =
      (.error "user not found", w.record (.dbGetUserByEmail email)) := by
  unfold DatabaseProvider.GetUserByEmail
  rw [whereEq_absent User.document "email" _ _ (fun d => by rfl)]
  cases env.fails (.dbGetUserByEmail email) <;> rfl

/-- A lookup by e-mail returns its result together with the logged call. -/
theorem dbGetUserByEmail_eq (env : Env) (w : World) (email : String) :
    DatabaseProvider.GetUserByEmail env w email =
      ((DatabaseProvider.GetUserByEmail env w email).1, w.record (.dbGetUserByEmail email)) := by
  rw [dbGetUserByEmail_not_found]

/-- When the lookup finds nobody and the capabilities succeed, `Register` answers 201 and
sets one user document, built from the identity the capability returned. -/
theorem Register_created (env : Env) (w : World) (c : Context) (req : RegisterRequest)
    (e token : String) (user : AuthUser)
    (hlook : (DatabaseProvider.GetUserByEmail env w req.Email).1 = .error e)
    (hreg : env.Register req.Email req.Password req.Name = .ok user)
    (hdb : env.fails (.dbCreateUser
      { ID := user.ID, Email := user.Email, Name := user.Name, Picture := user.Picture,
        Role := "admin", IsActive := true, CreatedAt := env.now, UpdatedAt := env.now }) = none)
    (htok : env.GenerateToken user = .ok token) :
    AuthHandler.Register (.ok req) env w c =
      ({ w with
          users := setDoc User.ID
            { ID := user.ID, Email := user.Email, Name := user.Name, Picture := user.Picture,
              Role := "admin", IsActive := true, CreatedAt := env.now, UpdatedAt := env.now }
            w.users,
          log := w.log ++
            [.dbGetUserByEmail req.Email, .authRegister req.Email req.Password req.Name,
             .dbCreateUser
              { ID := user.ID, Email := user.Email, Name := user.Name, Picture := user.Picture,
                Role := "admin", IsActive := true, CreatedAt := env.now,
                UpdatedAt := env.now },
             .authGenerateToken user] },
        c.JSON StatusCreated
          { Success := true, Message := "Registration successful",
            Data := AuthHandler.registeredPayload token user }) := by
  unfold AuthHandler.Register
  simp only []
  rw [dbGetUserByEmail_eq, hlook]
  simp only [AuthProvider.Register, hreg, DatabaseProvider.CreateUser, hdb,
    AuthProvider.GenerateToken, htok, World.record, List.append_assoc, List.singleton_append]
  rfl

/-- A `Register` with a bound body always goes on to `AuthProvider.Register`: the log of the
call starts with the lookup followed by the registration at the identity capability, and the
answer is never Conflict (409), whoever is stored. -/
theorem Register_never_conflict (env : Env) (w : World) (c : Context)
    (req : RegisterRequest) :
    (w.log ++ [.dbGetUserByEmail req.Email,
        .authRegister req.Email req.Password req.Name]) <+:
      (AuthHandler.Register (.ok req) env w c).1.log ∧
    (AuthHandler.Register (.ok req) env w c).2.status ≠ StatusConflict := by
  unfold AuthHandler.Register
  simp only []
  rw [dbGetUserByEmail_not_found]
  simp only [AuthProvider.Register]
  cases env.Register req.Email req.Password req.Name with
  | error e =>
    exact ⟨by simp [World.record], by simp [Context.status, Context.JSON]⟩
  | ok user =>
    simp only [DatabaseProvider.CreateUser]
    cases env.fails (.dbCreateUser
      { ID := user.ID, Email := user.Email, Name := user.Name, Picture := user.Picture,
        Role := "admin", IsActive := true, CreatedAt := env.now, UpdatedAt := env.now }) with
    | some e =>
      exact ⟨by simp [World.record], by simp [Context.status, Context.JSON]⟩
    | none =>
      simp only [AuthProvider.GenerateToken]
      cases env.GenerateToken user with
      | error e =>
        exact ⟨by simp [World.record], by simp [Context.status, Context.JSON]⟩
      | ok token =>
        exact ⟨by simp [World.record], by simp [Context.status, Context.JSON]⟩

/-- C20 (code bug), evaluated at the failing input: with the in-memory identity provider,
the first registration of `A@x.example` answers 201 and stores a record with the role
`admin`, `IsActive = true` and an empty tenant id under the e-mail `A@x.example`; a second
registration of the same address on the store and the provider the first one left finds no
user with that e-mail (the query names the field `email`, the document holds `Email`), calls
`AuthProvider.Register` a second time and answers 500 `Failed to register user: user already
exists`, not Conflict (409). -/
theorem Register_twice_is_500_not_409 :
    (AuthHandler.Register (.ok Sample.registerA) (Sample.customEnv {}) { users := [] }
      {}).2.status = StatusCreated ∧
    (AuthHandler.Register (.ok Sample.registerA) (Sample.customEnv {}) { users := [] }
      {}).1.users =
      [{ ID := "u1", Email := "A@x.example", Name := "A", Role := "admin", IsActive := true,
         CompanyID := "" }] ∧
    (DatabaseProvider.GetUserByEmail (Sample.customEnv Sample.customAfterA)
      (AuthHandler.Register (.ok Sample.registerA) (Sample.customEnv {}) { users := [] } {}).1
      "A@x.example").1 = .error "user not found" ∧
    (AuthHandler.Register (.ok Sample.registerA) (Sample.customEnv Sample.customAfterA)
        (AuthHandler.Register (.ok Sample.registerA) (Sample.customEnv {}) { users := [] }
          {}).1 {}).2.written =
      some { code := StatusInternalServerError,
             body := { Success := false,
                       Error := "Failed to register user: user already exists" } } ∧
    (AuthHandler.Register (.ok Sample.registerA) (Sample.customEnv Sample.customAfterA)
        (AuthHandler.Register (.ok Sample.registerA) (Sample.customEnv {}) { users := [] }
          {}).1 {}).2.status ≠ StatusConflict ∧
    ((AuthHandler.Register (.ok Sample.registerA) (Sample.customEnv Sample.customAfterA)
        (AuthHandler.Register (.ok Sample.registerA) (Sample.customEnv {}) { users := [] }
          {}).1 {}).1.log.count (.authRegister "A@x.example" "pw123456" "A") = 2) := by
  refine ⟨by decide, by decide, rfl, by decide, by decide, by decide⟩

/-! ## Explicit step progress -/

/-- The binding of `UpdateSetupStep` accepts a body exactly when the step is not empty and
the progress is between 1 and 100. -/
theorem bindSetupStep_ok_iff (body : SetupStepRequest) :
    SetupHandler.bindSetupStep body = .ok body ↔
      body.Step ≠ "" ∧ 1 ≤ body.Progress ∧ body.Progress ≤ 100 := by
  unfold SetupHandler.bindSetupStep requiredString requiredInt minMaxInt
  by_cases hs : body.Step = ""
  · simp [hs]
  · by_cases h0 : body.Progress = 0
    · simp [hs, h0]
    · by_cases hlo : 0 ≤ body.Progress
      · by_cases hhi : body.Progress ≤ 100
        · have h1 : 1 ≤ body.Progress := by omega
          simp [hs, h0, hlo, hhi, h1]
        · simp [hs, h0, hlo, hhi]
      · have h1 : ¬ 1 ≤ body.Progress := by omega
        simp [hs, h0, hlo, h1]

/-- The binding returns the body unchanged or an error. -/
theorem bindSetupStep_error_or_ok (body : SetupStepRequest) :
    SetupHandler.bindSetupStep body = .ok body ∨
      ∃ e, SetupHandler.bindSetupStep body = .error e := by
  unfold SetupHandler.bindSetupStep
  split
  · exact Or.inr ⟨_, rfl⟩
  · split
    · exact Or.inr ⟨_, rfl⟩
    · split
      · exact Or.inr ⟨_, rfl⟩
      · exact Or.inl rfl

/-- A read of the step progress returns its result together with the logged call. -/
theorem dbGetSetupProgress_eq (env : Env) (w : World) (id : String) :
    DatabaseProvider.GetSetupProgress env w id =
      ((DatabaseProvider.GetSetupProgress env w id).1, w.record (.dbGetSetupProgress id)) := by
  unfold DatabaseProvider.GetSetupProgress
  split
  · rfl
  · split <;> rfl

/-- The record a successful read returns carries the tenant id asked for, and is the stored
record, or the default (step `domain`, progress 0, all flags false) when none is stored. -/
theorem dbGetSetupProgress_ok (env : Env) (w : World) (id : String)
    (prev : CompanySetupProgress)
    (h : (DatabaseProvider.GetSetupProgress env w id).1 = .ok prev) :
    prev.CompanyID = id ∧
    (getDoc CompanySetupProgress.CompanyID id w.setupProgress = some prev ∨
      (getDoc CompanySetupProgress.CompanyID id w.setupProgress = none ∧
        prev = { CompanyID := id, Step := "domain", Progress := 0, LastUpdated := env.now })) := by
  unfold DatabaseProvider.GetSetupProgress at h
  cases hf : env.fails (.dbGetSetupProgress id) with
  | some e => simp [hf] at h
  | none =>
    simp only [hf] at h
    cases hg : getDoc CompanySetupProgress.CompanyID id w.setupProgress with
    | some stored =>
      simp only [hg] at h
      have hps : stored = prev := by simpa using h
      subst hps
      exact ⟨getDoc_key CompanySetupProgress.CompanyID id w.setupProgress stored hg,
        Or.inl rfl⟩
    | none =>
      simp only [hg] at h
      cases h
      exact ⟨rfl, Or.inr ⟨rfl, rfl⟩⟩

/-- An accepted `UpdateSetupStep` stores the pair as supplied: for a principal under
`user_context`, a bound body, a read that returns `prev` and a write that does not fail, the
answer is 200 and the tenant's record is `prev` with `Step`, `Progress` and `LastUpdated`
replaced, the flags as in `prev`. -/
theorem UpdateSetupStep_accepted (env : Env) (w : World) (c : Context) (uc : UserContext)
    (req : SetupStepRequest) (prev : CompanySetupProgress)
    (hp : c.Get "user_context" = some uc)
    (hread : (DatabaseProvider.GetSetupProgress env w uc.CompanyID).1 = .ok prev)
    (hwrite : env.fails (.dbUpdateSetupProgress
      { prev with Step := req.Step, Progress := req.Progress, LastUpdated := env.now }) = none) :
    (SetupHandler.UpdateSetupStep (.ok req) env w c).2.status = StatusOK ∧
    getDoc CompanySetupProgress.CompanyID uc.CompanyID
        (SetupHandler.UpdateSetupStep (.ok req) env w c).1.setupProgress =
      some { prev with Step := req.Step, Progress := req.Progress, LastUpdated := env.now } ∧
    (∀ id, id ≠ uc.CompanyID →
      getDoc CompanySetupProgress.CompanyID id
          (SetupHandler.UpdateSetupStep (.ok req) env w c).1.setupProgress =
        getDoc CompanySetupProgress.CompanyID id w.setupProgress) := by
  have hid := (dbGetSetupProgress_ok env w uc.CompanyID prev hread).1
  unfold SetupHandler.UpdateSetupStep DatabaseProvider.UpdateSetupStep
  simp only [hp]
  rw [dbGetSetupProgress_eq, hread]
  simp only [DatabaseProvider.UpdateSetupProgress, hwrite]
  refine ⟨by simp [Context.status, Context.JSON], ?_, ?_⟩
  · have := getDoc_setDoc_self CompanySetupProgress.CompanyID
      { prev with Step := req.Step, Progress := req.Progress, LastUpdated := env.now }
      w.setupProgress
    simpa [hid, World.record] using this
  · intro id hne
    exact getDoc_setDoc_other CompanySetupProgress.CompanyID _ w.setupProgress id
      (by simpa [hid] using hne)

/-- C21 (code bug), evaluated at the failing input: the body `step = domain, progress = 0`
sent by a principal of tenant `A`. The binding refuses it (`required` fails on the zero value
of `int`), `UpdateSetupStep` answers 400 and writes nothing, although `0 <= 0 <= 100`; the
same step with progress 100, and with progress 1, is answered 200 and stored as supplied,
starting from the default record. -/
theorem UpdateSetupStep_rejects_progress_zero :
    (SetupHandler.UpdateSetupStep
        (SetupHandler.bindSetupStep { Step := "domain", Progress := 0 })
        quietEnv Sample.tenantStore (Sample.scopeWith "user_context" Sample.adminA)).2.status =
      StatusBadRequest ∧
    noDbWrite Sample.tenantStore
      (SetupHandler.UpdateSetupStep
        (SetupHandler.bindSetupStep { Step := "domain", Progress := 0 })
        quietEnv Sample.tenantStore (Sample.scopeWith "user_context" Sample.adminA)).1 ∧
    (SetupHandler.UpdateSetupStep
        (SetupHandler.bindSetupStep { Step := "domain", Progress := 100 })
        quietEnv Sample.tenantStore (Sample.scopeWith "user_context" Sample.adminA)).2.status =
      StatusOK ∧
    (SetupHandler.UpdateSetupStep
        (SetupHandler.bindSetupStep { Step := "domain", Progress := 100 })
        quietEnv Sample.tenantStore
        (Sample.scopeWith "user_context" Sample.adminA)).1.setupProgress =
      [{ CompanyID := "A", Step := "domain", Progress := 100 }] ∧
    (SetupHandler.UpdateSetupStep
        (SetupHandler.bindSetupStep { Step := "customization", Progress := 1 })
        quietEnv Sample.tenantStore
        (Sample.scopeWith "user_context" Sample.adminA)).1.setupProgress =
      [{ CompanyID := "A", Step := "customization", Progress := 1 }] := by
  refine ⟨by decide, by decide, by decide, by decide, by decide⟩

/-! ## Error texts in the 500 answers -/

/-- When the registration at the identity capability fails, `Register` answers 500 with the
text of the capability error appended to its message. -/
theorem Register_500_carries_error_text (env : Env) (w : World) (c : Context)
    (req : RegisterRequest) (e text : String)
    (hlook : (DatabaseProvider.GetUserByEmail env w req.Email).1 = .error e)
    (hreg : env.Register req.Email req.Password req.Name = .error text) :
    (AuthHandler.Register (.ok req) env w c).2.written =
      some { code := StatusInternalServerError,
             body := { Success := false, Error := "Failed to register user: " ++ text } } := by
  unfold AuthHandler.Register
  simp only []
  rw [dbGetUserByEmail_eq, hlook]
  simp [AuthProvider.Register, hreg, Context.JSON]

/-- The answer of `DeleteUser` does not depend on the texts of the capability errors: two
environments in which the same calls fail give the same answer and the same store. -/
theorem DeleteUser_hides_error_text (env1 env2 : Env) (w : World) (c : Context)
    (hsame : ∀ call, (env1.fails call).isSome = (env2.fails call).isSome) :
    UserHandler.DeleteUser env1 w c = UserHandler.DeleteUser env2 w c := by
  have key : ∀ call, (env1.fails call = none ∧ env2.fails call = none) ∨
      ∃ a b, env1.fails call = some a ∧ env2.fails call = some b := by
    intro call
    have h := hsame call
    cases h1 : env1.fails call with
    | none =>
      cases h2 : env2.fails call with
      | none => exact Or.inl ⟨rfl, rfl⟩
      | some b => simp [h1, h2] at h
    | some a =>
      cases h2 : env2.fails call with
      | none => simp [h1, h2] at h
      | some b => exact Or.inr ⟨a, b, rfl, rfl⟩
  unfold UserHandler.DeleteUser UserHandler.deleteBoth DatabaseProvider.GetUser
    DatabaseProvider.GetUsersByCompany AuthProvider.DeleteUser DatabaseProvider.DeleteUser
  cases c.Get "user" with
  | none => rfl
  | some p =>
    rcases key (.dbGetUser (c.Param "id")) with ⟨a1, a2⟩ | ⟨_, _, a1, a2⟩ <;>
    rcases key (.dbGetUsersByCompany p.CompanyID) with ⟨b1, b2⟩ | ⟨_, _, b1, b2⟩ <;>
    rcases key (.authDeleteUser (c.Param "id")) with ⟨c1, c2⟩ | ⟨_, _, c1, c2⟩ <;>
    rcases key (.dbDeleteUser (c.Param "id")) with ⟨d1, d2⟩ | ⟨_, _, d1, d2⟩ <;>
    simp only [a1, a2, b1, b2, c1, c2, d1, d2]

/-- C22 (code bug), evaluated at the failing input: a registration while the identity
capability is down. With the capability error `dial tcp 10.0.0.5:443: connect: connection
refused` and with the capability error `tenant pab-smb-prod not found`, `Register` answers
500 both times, and the two bodies differ: each carries the text of the capability error. -/
theorem Register_500_leaks_error_text :
    (AuthHandler.Register (.ok Sample.registerA)
        (Sample.registerDownEnv "dial tcp 10.0.0.5:443: connect: connection refused")
        { users := [] } {}).2.written =
      some { code := StatusInternalServerError,
             body := { Success := false,
                       Error := "Failed to register user: dial tcp 10.0.0.5:443: connect: connection refused" } } ∧
    (AuthHandler.Register (.ok Sample.registerA)
        (Sample.registerDownEnv "tenant pab-smb-prod not found")
        { users := [] } {}).2.written =
      some { code := StatusInternalServerError,
             body := { Success := false,
                       Error := "Failed to register user: tenant pab-smb-prod not found" } } ∧
    (AuthHandler.Register (.ok Sample.registerA)
        (Sample.registerDownEnv "dial tcp 10.0.0.5:443: connect: connection refused")
        { users := [] } {}).2.written ≠
      (AuthHandler.Register (.ok Sample.registerA)
        (Sample.registerDownEnv "tenant pab-smb-prod not found")
        { users := [] } {}).2.written := by
  refine ⟨by decide, by decide, by decide⟩

/-! ## The active admin of a tenant -/

/-- C23 (code bug), evaluated at the failing inputs: tenant `A` has one active admin,
`alice`, and the deactivated user `bob`. `alice` sets her own role to `user` with
`UpdateUser`; `alice` deactivates herself with `UpdateUser`. Each request is answered 200 and
leaves tenant `A` without an active admin. When `alice` accepts an invitation to tenant `T`
with `AcceptInvitation`, the steps after the lookup by token move her to `T` with role `user`
and leave `A` without an active admin as well; the handler itself answers 404, its lookup
returning no invitation, and `alice` stays. -/
theorem UpdateUser_removes_last_admin :
    hasActiveAdmin "A" Sample.storeA.users = true ∧
    ((UserHandler.UpdateUser (.ok { Role := "user" }) quietEnv Sample.storeA
        (Sample.requestOn "alice")).2.status = StatusOK ∧
      hasActiveAdmin "A"
        (UserHandler.UpdateUser (.ok { Role := "user" }) quietEnv Sample.storeA
          (Sample.requestOn "alice")).1.users = false) ∧
    ((UserHandler.UpdateUser (.ok { IsActive := some false }) quietEnv Sample.storeA
        (Sample.requestOn "alice")).2.status = StatusOK ∧
      hasActiveAdmin "A"
        (UserHandler.UpdateUser (.ok { IsActive := some false }) quietEnv Sample.storeA
          (Sample.requestOn "alice")).1.users = false) ∧
    hasActiveAdmin "A" Sample.moveStore.users = true ∧
    ((InvitationHandler.acceptFound (Sample.envAt 50) Sample.moveStore
        (Sample.acceptRequest "M" Sample.adminA) Sample.invitationM).2.status = StatusOK ∧
      hasActiveAdmin "A"
        (InvitationHandler.acceptFound (Sample.envAt 50) Sample.moveStore
          (Sample.acceptRequest "M" Sample.adminA) Sample.invitationM).1.users = false) ∧
    ((InvitationHandler.AcceptInvitation (Sample.envAt 50) Sample.moveStore
        (Sample.acceptRequest "M" Sample.adminA)).2.status = StatusNotFound ∧
      hasActiveAdmin "A"
        (InvitationHandler.AcceptInvitation (Sample.envAt 50) Sample.moveStore
          (Sample.acceptRequest "M" Sample.adminA)).1.users = true) := by
  refine ⟨by decide, ⟨by decide, by decide⟩, ⟨by decide, by decide⟩, by decide,
    ⟨by decide, by decide⟩, ⟨by decide, by decide⟩⟩

/-! ## The request-scope key of the setup handlers -/

/-- Setting one key of the request scope leaves the other keys as they were. -/
theorem Get_Set_other (c : Context) (k key : String) (v : UserContext) (h : key ≠ k) :
    (c.Set k v).Get key = c.Get key := by
  have hk : (k == key) = false := by simpa using fun hk => h hk.symm
  have hfind : ∀ keys : List (String × UserContext),
      (keys.filter (fun kv => kv.1 != k)).find? (fun kv => kv.1 == key) =
        keys.find? (fun kv => kv.1 == key) := by
    intro keys
    induction keys with
    | nil => rfl
    | cons kv rest ih =>
      by_cases hkv : kv.1 = k
      · have h1 : (kv.1 != k) = false := by simp [hkv]
        have h2 : (kv.1 == key) = false := by simpa [hkv] using fun hk => h hk.symm
        rw [List.filter_cons_of_neg (by simp [h1]), List.find?_cons_of_neg _ (by simp [h2])]
        exact ih
      · have h1 : (kv.1 != k) = true := by simp [hkv]
        rw [List.filter_cons_of_pos (by simp [h1])]
        cases hb : (kv.1 == key)
        · rw [List.find?_cons_of_neg _ (by simp [hb]), List.find?_cons_of_neg _ (by simp [hb])]
          exact ih
        · simp only [List.find?_cons, hb]
  unfold Context.Get Context.Set
  simp only []
  rw [List.find?_cons_of_neg _ (by simp [hk]), hfind]

theorem GetSetupProgress_needs_key : needsUserContext SetupHandler.GetSetupProgress := by
  intro env w c h
  unfold SetupHandler.GetSetupProgress
  rw [h]

theorem UpdateSetupStep_needs_key (bind : Except String SetupStepRequest) :
    needsUserContext (SetupHandler.UpdateSetupStep bind) := by
  intro env w c h
  unfold SetupHandler.UpdateSetupStep
  rw [h]

theorem GetCompanyStats_needs_key : needsUserContext SetupHandler.GetCompanyStats := by
  intro env w c h
  unfold SetupHandler.GetCompanyStats
  rw [h]

theorem UpdateConfigurationStatus_needs_key (bind : Except String ConfigurationStatusRequest) :
    needsUserContext (SetupHandler.UpdateConfigurationStatus bind) := by
  intro env w c h
  unfold SetupHandler.UpdateConfigurationStatus
  rw [h]

theorem GenerateShortcuts_needs_key (bind : Except String GenerateShortcutsRequest) :
    needsUserContext (SetupHandler.GenerateShortcuts bind) := by
  intro env w c h
  unfold SetupHandler.GenerateShortcuts
  rw [h]

theorem NudgeUsers_needs_key (bind : Except String NudgeUsersRequest) :
    needsUserContext (SetupHandler.NudgeUsers bind) := by
  intro env w c h
  unfold SetupHandler.NudgeUsers
  rw [h]

theorem GetDownloadInfo_needs_key : needsUserContext SetupHandler.GetDownloadInfo := by
  intro env w c h
  unfold SetupHandler.GetDownloadInfo
  rw [h]

/-- Behind `Authenticate`, with or without the database provider, a handler that reads
`user_context` answers 401 `User context not found` on every request that `Authenticate`
lets through (a request whose scope does not hold that key when it arrives): the middleware
writes the principal under `user`. -/
theorem needsUserContext_behind_Authenticate (m : AuthMiddleware) (h : HandlerFunc)
    (hh : needsUserContext h) (env : Env) (w : World) (c : Context)
    (hc : c.Get "user_context" = none) :
    (AuthMiddleware.Authenticate m h env w c).2.written = some noUserContext ∨
      (AuthMiddleware.Authenticate m h env w c).2.aborted = true := by
  have hnext : ∀ (w1 : World) (p : UserContext),
      (h env w1 (c.Set "user" p)).2.written = some noUserContext := by
    intro w1 p
    rw [hh env w1 (c.Set "user" p) (by rw [Get_Set_other c "user" "user_context" p (by decide)]; exact hc)]
    rfl
  unfold AuthMiddleware.Authenticate
  simp only []
  split
  · exact Or.inr rfl
  · split
    · exact Or.inr rfl
    · split
      · exact Or.inr rfl
      · split
        · split
          · exact Or.inr rfl
          · split
            · exact Or.inr rfl
            · exact Or.inl (hnext _ _)
        · exact Or.inl (hnext _ _)

/-- C24 (code bug), evaluated at the failing input: the request `Authorization: Bearer
tok-alice` of `alice`, an active admin of tenant `A`. `Authenticate` lets it through (the
downstream handler runs and finds the principal under the key `user`), and each of the seven
setup handlers mounted behind it answers 401 `User context not found`, with the database
provider set and as `main` builds the middleware. -/
theorem setup_handlers_behind_Authenticate_are_401 :
    ((Sample.behindAuthenticate Sample.downstream).aborted = false ∧
      (Sample.behindAuthenticate Sample.downstream).status = StatusOK ∧
      (Sample.behindAuthenticate Sample.downstream).Get "user" = some Sample.adminA ∧
      (Sample.behindAuthenticate Sample.downstream).Get "user_context" = none) ∧
    ((Sample.behindAuthenticate SetupHandler.GetSetupProgress).written = some noUserContext ∧
      (Sample.behindAuthenticate
        (SetupHandler.UpdateSetupStep (.ok { Step := "domain", Progress := 20 }))).written =
        some noUserContext ∧
      (Sample.behindAuthenticate SetupHandler.GetCompanyStats).written = some noUserContext ∧
      (Sample.behindAuthenticate
        (SetupHandler.UpdateConfigurationStatus
          (.ok { Feature := "reporting", Status := true }))).written = some noUserContext ∧
      (Sample.behindAuthenticate
        (SetupHandler.GenerateShortcuts (.ok { Domain := "a.example" }))).written =
        some noUserContext ∧
      (Sample.behindAuthenticate
        (SetupHandler.NudgeUsers (.ok { UserIDs := ["bob"] }))).written =
        some noUserContext ∧
      (Sample.behindAuthenticate SetupHandler.GetDownloadInfo).written = some noUserContext) ∧
    ((Sample.behindMainAuthenticate Sample.downstream).aborted = false ∧
      (Sample.behindMainAuthenticate SetupHandler.GetSetupProgress).written =
        some noUserContext ∧
      (Sample.behindMainAuthenticate
        (SetupHandler.UpdateSetupStep (.ok { Step := "domain", Progress := 20 }))).written =
        some noUserContext ∧
      (Sample.behindMainAuthenticate SetupHandler.GetCompanyStats).written =
        some noUserContext ∧
      (Sample.behindMainAuthenticate
        (SetupHandler.UpdateConfigurationStatus
          (.ok { Feature := "reporting", Status := true }))).written = some noUserContext ∧
      (Sample.behindMainAuthenticate
        (SetupHandler.GenerateShortcuts (.ok { Domain := "a.example" }))).written =
        some noUserContext ∧
      (Sample.behindMainAuthenticate
        (SetupHandler.NudgeUsers (.ok { UserIDs := ["bob"] }))).written =
        some noUserContext ∧
      (Sample.behindMainAuthenticate SetupHandler.GetDownloadInfo).written =
        some noUserContext) := by
  refine ⟨⟨by decide, by decide, by decide, by decide⟩,
    ⟨by decide, by decide, by decide, by decide, by decide, by decide, by decide⟩,
    ⟨by decide, by decide, by decide, by decide, by decide, by decide, by decide, by decide⟩⟩

/-- What a 200 answer of `DeleteUser` implies: the target was loaded, it is in the
principal's tenant, its role is not admin (for an admin target the list of the tenant's users
comes back empty and the guard refuses), and the store lost the documents with the target
id. -/
theorem DeleteUser_ok_shape (env : Env) (w : World) (c : Context)
    (hok : (UserHandler.DeleteUser env w c).2.status = StatusOK) :
    ∃ p u, c.Get "user" = some p ∧ getDoc User.ID (c.Param "id") w.users = some u ∧
      u.CompanyID = p.CompanyID ∧ u.Role ≠ "admin" ∧
      (UserHandler.DeleteUser env w c).1.users = deleteDoc User.ID (c.Param "id") w.users := by
  have hboth : ∀ w1 : World, w1.users = w.users →
      (UserHandler.deleteBoth env w1 c (c.Param "id")).2.status = StatusOK →
      (UserHandler.deleteBoth env w1 c (c.Param "id")).1.users =
        deleteDoc User.ID (c.Param "id") w.users := by
    intro w1 hw1 h200
    rcases deleteBoth_cases env w1 c (c.Param "id") with ⟨e, _, heq⟩ | ⟨e, _, _, heq⟩ |
      ⟨_, _, heq⟩
    · rw [heq] at h200
      simp [Context.status, Context.JSON] at h200
    · rw [heq] at h200
      simp [Context.status, Context.JSON] at h200
    · rw [heq]
      simp [hw1]
  cases hp : c.Get "user" with
  | none =>
    unfold UserHandler.DeleteUser at hok
    simp [hp, Context.status, Context.JSON] at hok
  | some p =>
    by_cases hrole : p.Role = "admin"
    · cases hu : (DatabaseProvider.GetUser env w (c.Param "id")).1 with
      | error e =>
        unfold UserHandler.DeleteUser at hok
        simp only [hp, hrole, ne_eq, not_true_eq_false, if_false] at hok
        rw [dbGetUser_eq, hu] at hok
        simp [Context.status, Context.JSON] at hok
      | ok u =>
        have hget := (dbGetUser_ok env w _ u hu).2
        by_cases hc : u.CompanyID = p.CompanyID
        · by_cases hadm : u.Role = "admin"
          · rw [DeleteUser_admin_target_refused env w c p u hp hrole hu hc hadm] at hok
            simp [Context.status, Context.JSON] at hok
          · unfold UserHandler.DeleteUser at hok ⊢
            simp only [hp, hrole, ne_eq, not_true_eq_false, if_false] at hok ⊢
            rw [dbGetUser_eq, hu] at hok ⊢
            simp only [hc, hadm, not_true_eq_false, if_false] at hok ⊢
            exact ⟨p, u, rfl, hget, hc, hadm, hboth _ rfl hok⟩
        · unfold UserHandler.DeleteUser at hok
          simp only [hp, hrole, ne_eq, not_true_eq_false, if_false] at hok
          rw [dbGetUser_eq, hu] at hok
          simp [hc, Context.status, Context.JSON] at hok
    · unfold UserHandler.DeleteUser at hok
      simp [hp, hrole, Context.status, Context.JSON] at hok

/-- An answer of `DeleteUser` other than 200 leaves the users as they were. -/
theorem DeleteUser_error_users (env : Env) (w : World) (c : Context)
    (h : (UserHandler.DeleteUser env w c).2.status ≠ StatusOK) :
    (UserHandler.DeleteUser env w c).1.users = w.users := by
  obtain ⟨reads, -, hcase⟩ := DeleteUser_cases env w c
  rcases hcase with ⟨-, hw⟩ | hd
  · rw [hw]
  · rw [hd] at h ⊢
    rcases deleteBoth_cases env { w with log := w.log ++ reads } c (c.Param "id") with
      ⟨e, _, heq⟩ | ⟨e, _, _, heq⟩ | ⟨_, _, heq⟩
    · rw [heq]; rfl
    · rw [heq]; rfl
    · rw [heq] at h
      simp [Context.status, Context.JSON] at h

/-- No `DeleteUser` request takes the last active admin from a tenant, in a store whose
document ids are unique: the only targets it deletes have a role other than admin. -/
theorem DeleteUser_keeps_active_admin (env : Env) (w : World) (c : Context) (T : String)
    (hnd : (w.users.map User.ID).Nodup) (h : hasActiveAdmin T w.users = true) :
    hasActiveAdmin T (UserHandler.DeleteUser env w c).1.users = true := by
  by_cases hok : (UserHandler.DeleteUser env w c).2.status = StatusOK
  · obtain ⟨p, u, -, hget, -, hnot, husers⟩ := DeleteUser_ok_shape env w c hok
    rw [husers]
    have hinj := List.inj_on_of_nodup_map hnd
    unfold hasActiveAdmin at h ⊢
    obtain ⟨a, ha, hprop⟩ := List.any_eq_true.1 h
    have haT : a.CompanyID = T ∧ a.Role = "admin" ∧ a.IsActive = true := by
      simpa [and_assoc] using hprop
    have huid : u.ID = c.Param "id" := getDoc_key User.ID _ w.users u hget
    have humem : u ∈ w.users := List.mem_of_find?_eq_some hget
    have hid : a.ID ≠ c.Param "id" := by
      intro hid
      have hau : a = u := hinj ha humem (by rw [hid, huid])
      exact hnot (hau ▸ haT.2.1)
    refine List.any_eq_true.2 ⟨a, ?_, hprop⟩
    unfold deleteDoc
    exact List.mem_filter.2 ⟨ha, by simpa using hid⟩
  · rw [DeleteUser_error_users env w c hok]
    exact h

/-! ## Principals without a tenant -/

/-- C25 (code bug), evaluated at the failing input: `carol` and `frank` are registered and
belong to no tenant (empty tenant id, role admin). `carol` reads the record of `frank` with
`GetUser` and is answered 200 with it, also behind `Authenticate` with the database provider
set and as `main` builds it; she changes it with `UpdateUser` and is answered 200. Her
`DeleteUser` passes the tenant comparison too: it is answered 400 by the last-admin guard
while `frank` has the role admin, and 200, removing the record, once her `UpdateUser` has
given him the role `user`. None of the answers is Forbidden: the comparison of two empty
tenant ids finds them equal. -/
theorem tenantless_principal_reaches_other_user :
    Sample.carolPrincipal.CompanyID = "" ∧ Sample.frank.CompanyID = "" ∧
    Sample.frank.ID ≠ Sample.carolPrincipal.UserID ∧
    getDoc User.ID "frank" Sample.registeredStore.users = some Sample.frank ∧
    ((UserHandler.GetUser quietEnv Sample.registeredStore Sample.carolOnFrank).2.written =
      some { code := StatusOK,
             body := { Success := true, Data := UserHandler.userPayload Sample.frank } }) ∧
    ((AuthMiddleware.Authenticate (mainAuthMiddleware.SetDatabaseProvider .provider)
        UserHandler.GetUser Sample.carolTokenEnv Sample.registeredStore
        Sample.carolBearerOnFrank).2.status = StatusOK ∧
      (AuthMiddleware.Authenticate mainAuthMiddleware UserHandler.GetUser
        Sample.carolTokenEnv Sample.registeredStore
        Sample.carolBearerOnFrank).2.status = StatusOK) ∧
    ((UserHandler.UpdateUser (.ok { Name := "Nobody", Role := "user", IsActive := some false })
        quietEnv Sample.registeredStore Sample.carolOnFrank).2.status = StatusOK ∧
      getDoc User.ID "frank"
        (UserHandler.UpdateUser
          (.ok { Name := "Nobody", Role := "user", IsActive := some false })
          quietEnv Sample.registeredStore Sample.carolOnFrank).1.users =
        some { Sample.frank with Name := "Nobody", Role := "user", IsActive := false }) ∧
    ((UserHandler.DeleteUser quietEnv Sample.registeredStore Sample.carolOnFrank).2.status =
        StatusBadRequest ∧
      (UserHandler.DeleteUser quietEnv Sample.registeredStore Sample.carolOnFrank).2.status ≠
        StatusForbidden) ∧
    ((UserHandler.DeleteUser quietEnv
        (UserHandler.UpdateUser
          (.ok { Name := "Nobody", Role := "user", IsActive := some false })
          quietEnv Sample.registeredStore Sample.carolOnFrank).1
        Sample.carolOnFrank).2.status = StatusOK ∧
      getDoc User.ID "frank"
        (UserHandler.DeleteUser quietEnv
          (UserHandler.UpdateUser
            (.ok { Name := "Nobody", Role := "user", IsActive := some false })
            quietEnv Sample.registeredStore Sample.carolOnFrank).1
          Sample.carolOnFrank).1.users = none) := by
  refine ⟨by decide, by decide, by decide, by decide, by decide, ⟨by decide, by decide⟩,
    ⟨by decide, by decide⟩, ⟨by decide, by decide⟩, ⟨by decide, by decide⟩⟩

/-! ## Effects of `AcceptInvitation` on the store -/

/-- C26: `AcceptInvitation` is all-or-nothing on the store, for it writes nothing: for every
request the answer is the error 404 `Invalid invitation token`, and the stored users and the stored invitations equal what they were before the call, so the
stored record of every user, the principal included, and every stored invitation are the
former ones. The only capability call of the request is the lookup by token, which returns
no invitation: no request reaches the state in which `UpdateUser` has succeeded and
`UpdateInvitation` fails. -/
theorem AcceptInvitation_error_leaves_store (env : Env) (w : World) (c : Context) :
    (InvitationHandler.AcceptInvitation env w c).2.status = StatusNotFound ∧
    (InvitationHandler.AcceptInvitation env w c).1.users = w.users ∧
    (InvitationHandler.AcceptInvitation env w c).1.invitations = w.invitations ∧
    (∀ id, getDoc User.ID id (InvitationHandler.AcceptInvitation env w c).1.users =
      getDoc User.ID id w.users) ∧
    (∀ id, getDoc Invitation.ID id (InvitationHandler.AcceptInvitation env w c).1.invitations =
      getDoc Invitation.ID id w.invitations) ∧
    (InvitationHandler.AcceptInvitation env w c).1.log =
      w.log ++ [.dbGetInvitationByToken (c.Param "token")] := by
  rw [AcceptInvitation_not_found]
  exact ⟨rfl, rfl, rfl, fun _ => rfl, fun _ => rfl, rfl⟩

/-- An example: `carol` presents the token of her pending invitation `K` while the
persistence capability refuses every write of an invitation; the answer is 404 and the
store is as before. -/
theorem AcceptInvitation_write_refused_example :
    (InvitationHandler.AcceptInvitation Sample.invitationWriteDownEnv Sample.inviteStore
        (Sample.acceptRequest "K" Sample.carolPrincipal)).2.status = StatusNotFound ∧
    (InvitationHandler.AcceptInvitation Sample.invitationWriteDownEnv Sample.inviteStore
        (Sample.acceptRequest "K" Sample.carolPrincipal)).1.users =
      Sample.inviteStore.users ∧
    (InvitationHandler.AcceptInvitation Sample.invitationWriteDownEnv Sample.inviteStore
        (Sample.acceptRequest "K" Sample.carolPrincipal)).1.invitations =
      Sample.inviteStore.invitations := by
  refine ⟨by decide, by decide, by decide⟩

/-! ## Injectivity of the generated shortcut ids -/

/-- The ids of the batch are the four suffixes appended to `shortcut_<tenant>_`. -/
theorem commonShortcuts_ids (companyID domain : String) :
    (DatabaseProvider.commonShortcuts companyID domain).map BrowserShortcut.ID =
      generatedSuffixes.map (generatedID companyID) := by
  simp [DatabaseProvider.commonShortcuts, generatedSuffixes, generatedID, String.append_assoc]

/-- Two generated ids are equal only for the same tenant and the same suffix: the four
suffixes end in four different characters. -/
theorem generatedID_injective (a b s t : String) (hs : s ∈ generatedSuffixes)
    (ht : t ∈ generatedSuffixes) (h : generatedID a s = generatedID b t) : a = b ∧ s = t := by
  have hd := congrArg String.data h
  simp only [generatedID, String.data_append, List.append_assoc] at hd
  have hd2 := List.append_cancel_left hd
  have hrev := congrArg List.reverse hd2
  simp only [List.reverse_append] at hrev
  have hsame : s = t → a = b ∧ s = t := by
    intro hst
    subst hst
    exact ⟨String.ext (List.append_cancel_right hd2), rfl⟩
  simp only [generatedSuffixes, List.mem_cons, List.mem_singleton, List.not_mem_nil,
    or_false] at hs ht
  rcases hs with rfl | rfl | rfl | rfl <;> rcases ht with rfl | rfl | rfl | rfl <;>
    first
    | exact hsame rfl
    | (exfalso; revert hrev; simp)

/-- A committed batch leaves every document whose id is not in the batch as it was. -/
theorem getDoc_setDocs_other (batch docs : List BrowserShortcut) (id : String)
    (h : id ∉ batch.map BrowserShortcut.ID) :
    getDoc BrowserShortcut.ID id (DatabaseProvider.setDocs batch docs) =
      getDoc BrowserShortcut.ID id docs := by
  induction batch generalizing docs with
  | nil => rfl
  | cons d ds ih =>
    have hstep : DatabaseProvider.setDocs (d :: ds) docs =
        DatabaseProvider.setDocs ds (setDoc BrowserShortcut.ID d docs) := rfl
    have hne : id ≠ d.ID := fun heq => h (by simp [heq])
    have hrest : id ∉ ds.map BrowserShortcut.ID := fun hm => h (by simp [List.mem_map] at hm ⊢; exact Or.inr hm)
    rw [hstep, ih _ hrest]
    exact getDoc_setDoc_other BrowserShortcut.ID d docs id hne

/-- C27: the shortcut ids built by `GenerateShortcutsForDomain` are injective in (tenant id,
suffix): for all tenant ids `a`, `b` and suffixes `s`, `t` among gmail, calendar, drive,
company, `shortcut_<a>_<s> = shortcut_<b>_<t>` implies `a = b` and `s = t`. So the four ids
of one tenant are pairwise distinct, and generating shortcuts for tenant `a` leaves every
stored generated shortcut of another tenant `b` as it was. -/
theorem generated_shortcut_ids_injective (a b da db : String) :
    (∀ s t, s ∈ generatedSuffixes → t ∈ generatedSuffixes →
      generatedID a s = generatedID b t → a = b ∧ s = t) ∧
    (DatabaseProvider.commonShortcuts a da).map BrowserShortcut.ID =
      generatedSuffixes.map (generatedID a) ∧
    ((DatabaseProvider.commonShortcuts a da).map BrowserShortcut.ID).Nodup ∧
    (a ≠ b → ∀ (env : Env) (w : World) (x : BrowserShortcut),
      x ∈ DatabaseProvider.commonShortcuts b db →
      getDoc BrowserShortcut.ID x.ID w.shortcuts = some x →
      getDoc BrowserShortcut.ID x.ID
        (DatabaseProvider.GenerateShortcutsForDomain env w a da).2.shortcuts = some x) := by
  refine ⟨fun s t hs ht h => generatedID_injective a b s t hs ht h, commonShortcuts_ids a da,
    commonShortcuts_ids_nodup a da, ?_⟩
  intro hab env w x hx hget
  have hxid : x.ID ∈ generatedSuffixes.map (generatedID b) := by
    rw [← commonShortcuts_ids b db]
    exact List.mem_map_of_mem BrowserShortcut.ID hx
  have hnot : x.ID ∉ (DatabaseProvider.commonShortcuts a da).map BrowserShortcut.ID := by
    rw [commonShortcuts_ids a da]
    intro hmem
    obtain ⟨t, ht, hxt⟩ := List.mem_map.1 hxid
    obtain ⟨s, hs, hxs⟩ := List.mem_map.1 hmem
    exact hab (generatedID_injective a b s t hs ht (by rw [hxs, hxt])).1
  unfold DatabaseProvider.GenerateShortcutsForDomain
  cases hf : env.fails (.dbCommitShortcuts (DatabaseProvider.commonShortcuts a da)) with
  | some e => exact hget
  | none =>
    simp only []
    rw [getDoc_setDocs_other _ _ _ hnot]
    exact hget

/-! ## Authentication at the in-memory identity provider -/

/-- A search returns the one element that satisfies the test. -/
theorem find_unique {α : Type} (l : List α) (p : α → Bool) (d : α) (hd : d ∈ l)
    (hp : p d = true) (hall : ∀ x ∈ l, p x = true → x = d) : l.find? p = some d := by
  cases hfind : l.find? p with
  | none =>
    have := List.find?_eq_none.1 hfind d hd
    simp [hp] at this
  | some y =>
    have hy := hall y (List.mem_of_find?_eq_some hfind) (List.find?_some hfind)
    rw [hy]

/-- After the entry of a user with the e-mail is set in a map that held no user with it, the
search by e-mail finds that entry. -/
theorem find_after_setDoc (users : List (String × AuthUser)) (d : String × AuthUser)
    (email : String) (hd : d.2.Email = email) (hold : ∀ x ∈ users, ¬ x.2.Email = email) :
    (setDoc Prod.fst d users).find? (fun kv => kv.2.Email == email) = some d := by
  apply find_unique _ _ d ((mem_setDoc Prod.fst d users d).2 (Or.inl rfl)) (by simp [hd])
  intro x hx hpx
  rcases (mem_setDoc Prod.fst d users x).1 hx with h | ⟨hmem, _⟩
  · exact h
  · exact absurd (by simpa using hpx) (hold x hmem)

/-- `Authenticate` succeeds exactly when some stored user has the e-mail. -/
theorem CustomProvider_Authenticate_ok_iff (c : CustomProvider) (email password : String) :
    (∃ u, c.Authenticate email password = .ok u) ↔ ∃ kv ∈ c.users, kv.2.Email = email := by
  unfold CustomProvider.Authenticate
  cases hfind : c.users.find? (fun kv => kv.2.Email == email) with
  | none =>
    have hnone := List.find?_eq_none.1 hfind
    constructor
    · rintro ⟨u, hu⟩
      cases hu
    · rintro ⟨kv, hkv, he⟩
      have := hnone kv hkv
      simp [he] at this
  | some kv =>
    constructor
    · intro _
      exact ⟨kv, List.mem_of_find?_eq_some hfind, by simpa using List.find?_some hfind⟩
    · intro _
      exact ⟨kv.2, rfl⟩

/-- C28: the result of `CustomProvider.Authenticate` does not depend on the password: for
every provider state (in every order in which the map is visited), every e-mail and all
passwords `p1`, `p2`, `Authenticate(email, p1)` and `Authenticate(email, p2)` return the same
result; it is a success iff some stored user has exactly that e-mail, the user returned is a
stored one with that e-mail, whether it succeeds is the same for every visiting order, and
so is the user returned when at most one stored user has the e-mail.
After a successful `Register(email, pw, ...)`, `Authenticate(email, p1)` returns the
registered user for every password `p1`. -/
theorem CustomProvider_Authenticate_ignores_password (c : CustomProvider)
    (email p1 p2 : String) :
    c.Authenticate email p1 = c.Authenticate email p2 ∧
    ((∃ u, c.Authenticate email p1 = .ok u) ↔ ∃ kv ∈ c.users, kv.2.Email = email) ∧
    (∀ u, c.Authenticate email p1 = .ok u → u.Email = email ∧ ∃ id, (id, u) ∈ c.users) ∧
    (∀ order : List (String × AuthUser), order.Perm c.users →
      ((∃ u, CustomProvider.Authenticate { users := order } email p2 = .ok u) ↔
        ∃ u, c.Authenticate email p1 = .ok u) ∧
      ((∀ x ∈ c.users, ∀ y ∈ c.users, x.2.Email = email → y.2.Email = email → x = y) →
        CustomProvider.Authenticate { users := order } email p2 = c.Authenticate email p1)) ∧
    (∀ (pw name id : String) (now : Nat) (user : AuthUser),
      (c.Register email pw name id now).1 = .ok user →
      (c.Register email pw name id now).2.Authenticate email p1 = .ok user) := by
  refine ⟨rfl, CustomProvider_Authenticate_ok_iff c email p1, ?_, ?_, ?_⟩
  · intro u hu
    unfold CustomProvider.Authenticate at hu
    cases hfind : c.users.find? (fun kv => kv.2.Email == email) with
    | none => simp [hfind] at hu
    | some kv =>
      simp only [hfind] at hu
      cases hu
      exact ⟨by simpa using List.find?_some hfind, kv.1, List.mem_of_find?_eq_some hfind⟩
  · intro order hperm
    constructor
    · rw [CustomProvider_Authenticate_ok_iff, CustomProvider_Authenticate_ok_iff]
      constructor
      · rintro ⟨kv, hkv, he⟩
        exact ⟨kv, hperm.mem_iff.1 hkv, he⟩
      · rintro ⟨kv, hkv, he⟩
        exact ⟨kv, hperm.mem_iff.2 hkv, he⟩
    · intro huniq
      unfold CustomProvider.Authenticate
      simp only []
      cases hfind : c.users.find? (fun kv => kv.2.Email == email) with
      | none =>
        have hnone := List.find?_eq_none.1 hfind
        have hnone2 : order.find? (fun kv => kv.2.Email == email) = none :=
          List.find?_eq_none.2 (fun x hx => hnone x (hperm.mem_iff.1 hx))
        rw [hnone2]
      | some kv =>
        have hkv := List.mem_of_find?_eq_some hfind
        have hpk := List.find?_some hfind
        rw [find_unique order _ kv (hperm.mem_iff.2 hkv) hpk]
        intro x hx hpx
        exact huniq x (hperm.mem_iff.1 hx) kv hkv (by simpa using hpx) (by simpa using hpk)
  · intro pw name id now user hreg
    unfold CustomProvider.Register at hreg ⊢
    by_cases hany : c.users.any (fun kv => kv.2.Email == email) = true
    · simp [hany] at hreg
    · rw [if_neg hany] at hreg ⊢
      simp only [] at hreg ⊢
      cases hreg
      have hold : ∀ x ∈ c.users, ¬ x.2.Email = email := by
        intro x hx he
        exact hany (List.any_eq_true.2 ⟨x, hx, by simp [he]⟩)
      unfold CustomProvider.Authenticate
      simp only []
      rw [find_after_setDoc c.users _ email rfl hold]

/-! ## The expiry test and the expiry sweep -/

/-- A document survives a batch of deletes exactly when its id is not in the batch. -/
theorem mem_deleteDocs (ids : List String) (docs : List Invitation) (x : Invitation) :
    x ∈ DatabaseProvider.deleteDocs ids docs ↔ x ∈ docs ∧ x.ID ∉ ids := by
  induction ids generalizing docs with
  | nil => simp [DatabaseProvider.deleteDocs]
  | cons id rest ih =>
    have hstep : DatabaseProvider.deleteDocs (id :: rest) docs =
        DatabaseProvider.deleteDocs rest (deleteDoc Invitation.ID id docs) := rfl
    rw [hstep, ih]
    unfold deleteDoc
    simp only [List.mem_filter, List.mem_cons, not_or, bne_iff_ne, ne_eq]
    tauto

/-- The query of the sweep selects nothing: it names the field `expires_at`, the documents
hold the expiry under `ExpiresAt`. -/
theorem expiredInvitations_empty (now : Nat) (invitations : List Invitation) :
    DatabaseProvider.expiredInvitations now invitations = [] := by
  unfold DatabaseProvider.expiredInvitations
  exact whereBefore_absent Invitation.document "expires_at" now invitations (fun d => by rfl)

/-- The sweep deletes nothing, whatever the store holds, whatever the clock reads and whether
or not the commit of the batch returns an error. -/
theorem DeleteExpiredInvitations_keeps_all (env : Env) (w : World) :
    (DatabaseProvider.DeleteExpiredInvitations env w).2.invitations = w.invitations := by
  unfold DatabaseProvider.DeleteExpiredInvitations
  rw [expiredInvitations_empty]
  cases env.fails (.dbQueryExpiredInvitations env.now) <;> simp only [List.map_nil] <;>
    cases env.fails (.dbCommitDeletes []) <;> rfl

/-- Past the lookup, `AcceptInvitation` answers `Invitation has expired` exactly when the
invitation expires before the instant of the request. -/
theorem acceptFound_expired_iff (env : Env) (w1 : World) (c : Context) (i : Invitation) :
    (InvitationHandler.acceptFound env w1 c i).2.written = some expiredAnswer ↔
      i.ExpiresAt < env.now := by
  unfold InvitationHandler.acceptFound
  by_cases hexp : i.ExpiresAt < env.now
  · rw [if_pos hexp]
    simp [hexp, Context.JSON, expiredAnswer]
  · rw [if_neg hexp]
    simp only [hexp, iff_false]
    split
    · simp [Context.JSON, expiredAnswer]
    · split
      · simp [Context.JSON, expiredAnswer]
      · split
        · simp [Context.JSON, expiredAnswer]
        · split
          · simp [Context.JSON, expiredAnswer]
          · split
            · simp [Context.JSON, expiredAnswer]
            · split
              · simp [Context.JSON, expiredAnswer]
              · simp [Context.JSON, expiredAnswer]

/-- C29 (code bug), evaluated at the failing input: the stored invitation `K` expires at
instant 100. At instant 101 the query of the sweep selects nothing and
`DeleteExpiredInvitations` leaves `K` in the store, and `AcceptInvitation` with the token `K`
answers 404 `Invalid invitation token`, not 400 `Invitation has expired`: the invitation is
neither swept nor rejected as expired although `ExpiresAt < t`. The queries name the fields
`expires_at` and `token`; the documents hold `ExpiresAt` and `Token`. -/
theorem expired_invitation_neither_swept_nor_rejected :
    Sample.invitationK ∈ Sample.inviteStore.invitations ∧
    Sample.invitationK.ExpiresAt < (Sample.envAt 101).now ∧
    DatabaseProvider.expiredInvitations 101 Sample.inviteStore.invitations = [] ∧
    Sample.invitationK ∈
      (DatabaseProvider.DeleteExpiredInvitations (Sample.envAt 101)
        Sample.inviteStore).2.invitations ∧
    (DatabaseProvider.DeleteExpiredInvitations (Sample.envAt 101)
      Sample.inviteStore).2.invitations = Sample.inviteStore.invitations ∧
    (InvitationHandler.AcceptInvitation (Sample.envAt 101) Sample.inviteStore
        (Sample.acceptRequest "K" Sample.carolPrincipal)).2.written =
      some { code := StatusNotFound,
             body := { Success := false, Error := "Invalid invitation token" } } ∧
    (InvitationHandler.AcceptInvitation (Sample.envAt 101) Sample.inviteStore
        (Sample.acceptRequest "K" Sample.carolPrincipal)).2.written ≠ some expiredAnswer := by
  refine ⟨by decide, by decide, by decide, by decide, by decide, by decide, by decide⟩

/-! ## Pagination bounds -/

/-- A value within the range of `int` is its own wrap-around. -/
theorem wrapInt_of_range (x : Int) (hlo : minInt ≤ x) (hhi : x ≤ maxInt) : wrapInt x = x := by
  unfold wrapInt
  unfold minInt at hlo
  unfold maxInt at hhi
  omega

/-- The adjusted page and limit are as the claim says, and the limit passed on is between 1
and 100, the page at least 1; when the product `(page' - 1) * limit'` fits the type `int`,
the offset passed on is that product, and it is not negative. -/
theorem pagination_bounds (page limit : Int) (hp : page ≤ maxInt) :
    (CompanyHandler.pagination page limit).1 = (if page ≥ 1 then page else 1) ∧
    (CompanyHandler.pagination page limit).2.1 =
      (if 1 ≤ limit ∧ limit ≤ 100 then limit else 10) ∧
    1 ≤ (CompanyHandler.pagination page limit).1 ∧
    1 ≤ (CompanyHandler.pagination page limit).2.1 ∧
    (CompanyHandler.pagination page limit).2.1 ≤ 100 ∧
    (((CompanyHandler.pagination page limit).1 - 1) *
        (CompanyHandler.pagination page limit).2.1 ≤ maxInt →
      (CompanyHandler.pagination page limit).2.2 =
        ((CompanyHandler.pagination page limit).1 - 1) *
          (CompanyHandler.pagination page limit).2.1 ∧
      0 ≤ (CompanyHandler.pagination page limit).2.2) := by
  unfold CompanyHandler.pagination
  simp only []
  have hpage : 1 ≤ (if page < 1 then 1 else page) ∧ (if page < 1 then 1 else page) ≤ maxInt := by
    unfold maxInt at hp ⊢
    split <;> omega
  have hlimit : 1 ≤ (if limit < 1 ∨ limit > 100 then 10 else limit) ∧
      (if limit < 1 ∨ limit > 100 then 10 else limit) ≤ 100 := by
    split <;> omega
  refine ⟨by split <;> split <;> omega, by split <;> split <;> omega, hpage.1, hlimit.1,
    hlimit.2, ?_⟩
  generalize (if page < 1 then (1 : Int) else page) = p1 at hpage ⊢
  generalize (if limit < 1 ∨ limit > 100 then (10 : Int) else limit) = l1 at hlimit ⊢
  intro hfit
  have h1 : wrapInt (p1 - 1) = p1 - 1 := by
    apply wrapInt_of_range
    · unfold minInt; omega
    · have := hpage.2; unfold maxInt at this ⊢; omega
  have hnonneg : 0 ≤ (p1 - 1) * l1 := Int.mul_nonneg (by omega) (by omega)
  have h2 : wrapInt ((p1 - 1) * l1) = (p1 - 1) * l1 := by
    apply wrapInt_of_range
    · unfold minInt; omega
    · exact hfit
  rw [h1, h2]
  exact ⟨rfl, hnonneg⟩

/-- C30 (code bug), evaluated at the failing input: the query `page=9223372036854775807`,
`limit=10`. Both values are in the range of `int`, the page stays as it is (it is at least
1) and the limit is 10, but the product `(page - 1) * limit` does not fit the type and wraps
around: the offset passed to the persistence capability is -20, which is negative and is not
`(page - 1) * limit`. -/
theorem pagination_offset_overflows :
    minInt ≤ 9223372036854775807 ∧ (9223372036854775807 : Int) ≤ maxInt ∧
    CompanyHandler.pagination 9223372036854775807 10 = (9223372036854775807, 10, -20) ∧
    (CompanyHandler.pagination 9223372036854775807 10).2.2 < 0 ∧
    (CompanyHandler.pagination 9223372036854775807 10).2.2 ≠
      ((CompanyHandler.pagination 9223372036854775807 10).1 - 1) *
        (CompanyHandler.pagination 9223372036854775807 10).2.1 := by
  refine ⟨by decide, by decide, by decide, by decide, by decide⟩

end PabSmb
